import Mathlib

/-!
# libmetadata-thermal: the thermal metadata user data SEI codec

A shallow embedding of `src/src/tmeta.c` and `src/include/metadata-thermal/tmeta.h`.

Modelling conventions

* Target ABI: LP64 (`unsigned int` and `uint32_t` are 32 bits, `size_t` and
  `ssize_t` are 64 bits).  The byte order of the host is the parameter `le`
  (`true` for a little-endian host).
* A byte is a `Fin 256`.  A pair `(buf, buf_size)` of the C API is the list of
  the `buf_size` bytes found at `buf`; a `NULL` pointer is `none`.
* A pointer into a buffer is the list of the bytes from the pointee to the end
  of the buffer, so `p += k` is `p.drop k`.
* `float` and `double` objects are carried as their IEEE bit patterns
  (`Nat` below `2^32` and `2^64`).
* A load or store that leaves the object it addresses has no defined result in
  C; the embedding stops there with `Res.overread` or `Res.overflow`.
* The arrays of `struct tmeta_data` are lists; `tmeta_data.wf` says that they
  have their declared lengths and that every scalar fits its C type.
* Conversions that can change a value are explicit: `toSsize` for
  `(ssize_t)buf_size`, `toUInt` for the `unsigned int` array sizes.  The
  running counter `_buf_size` is an `Int`: it starts below `2^63` and loses at
  most `2^36`, so no step leaves the range of `ssize_t`.
* The `errno` values are those of Linux.

Layout: the embedding of `tmeta.h` and `tmeta.c`; then the definitions the
statements use (`wire`, the byte string the encoder writes; `decodedFields`,
the record a successful decode leaves; the decoder cut at its section
comments); then lemmas; then one section of results per property.
-/

namespace Tmeta

/-- One octet of memory. -/
abbrev Byte := Fin 256

/-- Result of running a piece of the C code: normal completion with a value,
or the first memory access outside the object it addresses. -/
inductive Res (α : Type) where
  | ok (a : α) : Res α
  | overread : Res α
  | overflow : Res α
deriving DecidableEq, Repr

/-- Sequencing of two pieces of code. -/
def Res.bind {α β : Type} (x : Res α) (f : α → Res β) : Res β :=
  match x with
  | .ok a => f a
  | .overread => .overread
  | .overflow => .overflow

instance : Monad Res where
  pure := Res.ok
  bind := Res.bind

/-! ## Object representations -/

/-- The `w` low-order octets of `v`, least significant first. -/
def leBytes : Nat → Nat → List Byte
  | 0, _ => []
  | w + 1, v => ⟨v % 256, Nat.mod_lt _ (by decide)⟩ :: leBytes w (v / 256)

/-- The unsigned value of a little-endian octet string. -/
def leVal : List Byte → Nat
  | [] => 0
  | b :: bs => b.val + 256 * leVal bs

/-- The `w` low-order octets of `v`, most significant first. -/
def beBytes (w v : Nat) : List Byte := (leBytes w v).reverse

/-- The unsigned value of a big-endian octet string. -/
def beVal (bs : List Byte) : Nat := leVal bs.reverse

/-- Object representation of the `w`-byte scalar `v` in host memory. -/
def hostBytes (le : Bool) (w v : Nat) : List Byte :=
  if le then leBytes w v else beBytes w v

/-- Value of the scalar whose object representation is `bs` in host memory. -/
def hostVal (le : Bool) (bs : List Byte) : Nat :=
  if le then leVal bs else beVal bs

/-- Byte swap of a 32-bit value (what `htonl` and `ntohl` do on a
little-endian host). -/
def bswap32 (x : Nat) : Nat := leVal (leBytes 4 x).reverse

/-- The libc `htonl`: host to network order of a `uint32_t`. -/
def htonl (le : Bool) (x : Nat) : Nat :=
  if le then bswap32 (x % 2 ^ 32) else x % 2 ^ 32

/-- The libc `ntohl`: network to host order of a `uint32_t`. -/
def ntohl (le : Bool) (x : Nat) : Nat :=
  if le then bswap32 (x % 2 ^ 32) else x % 2 ^ 32

/-- The macro `bswapll(y)` of tmeta.c, lines 48 and 54:
`(((uint64_t)ntohl(y)) << 32 | ntohl(y >> 32))`, expanded on a little-endian
host; the argument of `ntohl` is converted to `uint32_t`. -/
def bswapll (y : Nat) : Nat :=
  ((ntohl true (y % 2 ^ 32) <<< 32) ||| ntohl true ((y >>> 32) % 2 ^ 32)) % 2 ^ 64

/-- The macro `htonll(y)` of tmeta.c, lines 49 to 58. -/
def htonll (le : Bool) (y : Nat) : Nat :=
  if le then bswapll (y % 2 ^ 64) else y % 2 ^ 64

/-- The macro `ntohll(y)` of tmeta.c, lines 50 to 59. -/
def ntohll (le : Bool) (y : Nat) : Nat :=
  if le then bswapll (y % 2 ^ 64) else y % 2 ^ 64

/-- Object representation of an array of `w`-byte scalars. -/
def arrBytes (le : Bool) (w : Nat) : List Nat → List Byte
  | [] => []
  | v :: vs => hostBytes le w v ++ arrBytes le w vs

/-- The `n` scalars of `w` bytes each whose object representations start `bs`. -/
def arrVals (le : Bool) (w : Nat) : Nat → List Byte → List Nat
  | 0, _ => []
  | n + 1, bs => hostVal le (bs.take w) :: arrVals le w n (bs.drop w)

/-- The conversion `(ssize_t)x` of a `size_t`. -/
def toSsize (x : Nat) : Int :=
  if x % 2 ^ 64 < 2 ^ 63 then ((x % 2 ^ 64 : Nat) : Int)
  else ((x % 2 ^ 64 : Nat) : Int) - 2 ^ 64

/-- The conversion `(unsigned int)x`. -/
def toUInt (x : Nat) : Nat := x % 2 ^ 32

/-- The conversion of an unsigned value to `int32_t`. -/
def toInt32 (x : Nat) : Int :=
  if x % 2 ^ 32 < 2 ^ 31 then ((x % 2 ^ 32 : Nat) : Int)
  else ((x % 2 ^ 32 : Nat) : Int) - 2 ^ 32

/-- The conversion of an unsigned value to `int64_t`. -/
def toInt64 (x : Nat) : Int :=
  if x % 2 ^ 64 < 2 ^ 63 then ((x % 2 ^ 64 : Nat) : Int)
  else ((x % 2 ^ 64 : Nat) : Int) - 2 ^ 64

/-- A value of type `double`: the one whose object representation is a given
bit pattern, or the one a `float` of a given bit pattern is converted to (the
conversion keeps the value). -/
inductive CDouble where
  | ofBits (bits : Nat)
  | ofFloat (bits : Nat)

/-! ## Memory accesses -/

/-- Load of the `k` bytes at `p`. -/
def load (k : Nat) (p : List Byte) : Res (List Byte) :=
  if k ≤ p.length then .ok (p.take k) else .overread

/-- The load `*(const uint32_t *)p`. -/
def load32 (le : Bool) (p : List Byte) : Res Nat :=
  (load 4 p).bind fun (bs : List Byte) => .ok (hostVal le bs)

/-- The load `*(const uint64_t *)p`, also a `memcpy` into a `double`. -/
def load64 (le : Bool) (p : List Byte) : Res Nat :=
  (load 8 p).bind fun (bs : List Byte) => .ok (hostVal le bs)

/-- A write cursor in a destination buffer: the bytes below the cursor and the
bytes from the cursor to the end of the buffer. -/
structure Cursor where
  done : List Byte
  rest : List Byte
deriving DecidableEq, Repr

/-- The buffer a cursor walks. -/
def Cursor.buffer (c : Cursor) : List Byte := c.done ++ c.rest

/-- Store of the bytes `bs` at the cursor, which then moves past them. -/
def store (bs : List Byte) (c : Cursor) : Res Cursor :=
  if bs.length ≤ c.rest.length then
    .ok { done := c.done ++ bs, rest := c.rest.drop bs.length }
  else .overflow

/-- The store `*(uint32_t *)p = v` followed by `p += 4`. -/
def store32 (le : Bool) (v : Nat) (c : Cursor) : Res Cursor :=
  store (hostBytes le 4 v) c

/-- The store `*(uint64_t *)p = v`, also a `memcpy` from a `double`, followed
by `p += 8`. -/
def store64 (le : Bool) (v : Nat) (c : Cursor) : Res Cursor :=
  store (hostBytes le 8 v) c

/-- A `memcpy` of `n` elements out of the `float` array `src` to the cursor,
which then moves past them. -/
def storeFloats (le : Bool) (src : List Nat) (n : Nat) (c : Cursor) : Res Cursor :=
  if n ≤ src.length then store (arrBytes le 4 (src.take n)) c else .overread

/-- A `memcpy` of `n` bytes out of the byte object `src` to the cursor, which
then moves past them. -/
def storeBytes (src : List Byte) (n : Nat) (c : Cursor) : Res Cursor :=
  if n ≤ src.length then store (src.take n) c else .overread

/-- A `memcpy` of `size` bytes from `p` onto the start of the `float` array
`dst`; the result is the array after the copy. -/
def memcpyFloats (le : Bool) (dst : List Nat) (p : List Byte) (size : Nat) :
    Res (List Nat) :=
  (load size p).bind fun (bs : List Byte) =>
    if size ≤ 4 * dst.length then
      .ok (arrVals le 4 (size / 4) bs ++ dst.drop (size / 4))
    else .overflow

/-! ## C strings -/

/-- The function `tolower` of the C library in the C locale, on a character
held as `unsigned char`: the letters `A` to `Z` (65 to 90) are moved to `a` to
`z`, every other value is returned as it is. -/
def tolower (c : Byte) : Byte :=
  if h : 65 ≤ c.val ∧ c.val ≤ 90 then ⟨c.val + 32, by omega⟩ else c

/-- The function `strcasecmp` of the C library in the C locale. A string is the
memory from the pointer on, a list of bytes that holds the terminating zero;
the two strings are compared byte by byte after `tolower`, up to the first
difference or the terminating zero; running off the memory before that is an
over-read. -/
def strcasecmp : List Byte → List Byte → Res Int
  | [], _ => .overread
  | _ :: _, [] => .overread
  | a :: s1, b :: s2 =>
    if tolower a ≠ tolower b then .ok (((tolower a).val : Int) - ((tolower b).val : Int))
    else if a = 0 then .ok 0
    else strcasecmp s1 s2

/-- The characters of a string of ASCII characters, as bytes. -/
def chars (s : String) : List Byte := s.toList.map fun (c : Char) => Fin.ofNat c.toNat

/-- A string literal of C: its characters followed by the terminating zero. -/
def literal (s : String) : List Byte := chars s ++ [0]

/-! ## json-c -/

/-- A `struct json_object` of json-c: an integer, a double, a string (its
characters), an array, or an object, whose members are kept in the order they
were added. -/
inductive json_object where
  | int (v : Int)
  | double (d : CDouble)
  | string (s : List Byte)
  | array (items : List json_object)
  | object (members : List (String × json_object))

/-- The function `json_object_new_int` of json-c, whose parameter is an
`int32_t`, on an unsigned argument. -/
def json_object_new_int (i : Nat) : json_object := .int (toInt32 i)

/-- The function `json_object_new_int64` of json-c, whose parameter is an
`int64_t`, on an unsigned argument. -/
def json_object_new_int64 (i : Nat) : json_object := .int (toInt64 i)

/-- The function `json_object_new_double` of json-c. -/
def json_object_new_double (d : CDouble) : json_object := .double d

/-- The function `json_object_new_string` of json-c: the characters before the
terminating zero are copied. -/
def json_object_new_string (s : List Byte) : json_object :=
  .string (s.takeWhile fun (c : Byte) => c ≠ 0)

/-- The function `json_object_new_array` of json-c: an empty array, or `NULL`
when no memory is found; `mem` tells which. -/
def json_object_new_array (mem : Bool) : Option (List json_object) :=
  if mem then some [] else none

/-- The function `json_object_object_add` of json-c, on the members of the
object: the value of an existing member of that name is replaced, otherwise a
member is added at the end. -/
def json_object_object_add :
    List (String × json_object) → String → json_object → List (String × json_object)
  | [], key, val => [(key, val)]
  | (k, v) :: rest, key, val =>
    if k = key then (k, val) :: rest else (k, v) :: json_object_object_add rest key val

/-- The function `json_object_array_add` of json-c, on the items of the array. -/
def json_object_array_add (items : List json_object) (val : json_object) : List json_object :=
  items ++ [val]

/-- The function `json_object_object_get` of json-c, on the members of the
object. -/
def json_object_object_get : List (String × json_object) → String → Option json_object
  | [], _ => none
  | (k, v) :: rest, key => if k = key then some v else json_object_object_get rest key

/-! ## tmeta.h -/

/-- The macro `TMETA_SEI_UUID_SIZE`: `4 * sizeof(uint32_t)`. -/
def TMETA_SEI_UUID_SIZE : Nat := 4 * 4

/-- The macro `TMETA_VERSION_SIZE`: `sizeof(uint32_t)`. -/
def TMETA_VERSION_SIZE : Nat := 4

/-- The macro `TMETA_V0_1_HEADER_SIZE`. -/
def TMETA_V0_1_HEADER_SIZE : Nat := 4 + 8 * 8 + 4 + 4 * 2 + 4 * 4 + 4

/-- The macro `TMETA_V0_2_DATA_SIZE`. -/
def TMETA_V0_2_DATA_SIZE : Nat := 4

/-- The macro `TMETA_V0_3_DATA_SIZE`. -/
def TMETA_V0_3_DATA_SIZE : Nat := 3 * 8

/-- The macro `TMETA_V0_4_DATA_SIZE`. -/
def TMETA_V0_4_DATA_SIZE : Nat := 4 * 4

/-- The macro `TMETA_MAJOR_VERSION`. -/
def TMETA_MAJOR_VERSION : Nat := 0x0

/-- The macro `TMETA_MINOR_VERSION`. -/
def TMETA_MINOR_VERSION : Nat := 0x4

/-- The macro `TMETA_VERSION`. -/
def TMETA_VERSION : Nat := TMETA_MAJOR_VERSION <<< 16 ||| TMETA_MINOR_VERSION

/-- The macro `TMETA_GET_MAJOR_VERSION`. -/
def TMETA_GET_MAJOR_VERSION (version : Nat) : Nat := (version >>> 16) &&& 0x0FFFF

/-- The macro `TMETA_GET_MINOR_VERSION`. -/
def TMETA_GET_MINOR_VERSION (version : Nat) : Nat := version &&& 0x0FFFF

/-- The macro `TMETA_CAMANGLES_MAXCOUNT`. -/
def TMETA_CAMANGLES_MAXCOUNT : Nat := 50

/-- The macro `TMETA_USER_DATA_SEI_UUID_0`. -/
def TMETA_USER_DATA_SEI_UUID_0 : Nat := 0xa4897b82

/-- The macro `TMETA_USER_DATA_SEI_UUID_1`. -/
def TMETA_USER_DATA_SEI_UUID_1 : Nat := 0x44154171

/-- The macro `TMETA_USER_DATA_SEI_UUID_2`. -/
def TMETA_USER_DATA_SEI_UUID_2 : Nat := 0xb46abc8c

/-- The macro `TMETA_USER_DATA_SEI_UUID_3`. -/
def TMETA_USER_DATA_SEI_UUID_3 : Nat := 0xd524c77e

/-- The errno value `EINVAL` (Linux). -/
def EINVAL : Int := 22

/-- The errno value `ENOENT` (Linux). -/
def ENOENT : Int := 2

/-- The errno value `ENOBUFS` (Linux). -/
def ENOBUFS : Int := 105

/-- The record `struct tmeta_data`.  Enumerations and integers are carried as
their unsigned values, `float` and `double` as bit patterns, and the pointer
`jpeg_data` as the bytes it addresses. -/
structure tmeta_data where
  version : Nat
  gain_mode : Nat
  calib_r : Nat
  calib_b : Nat
  calib_f : Nat
  calib_o : Nat
  calib_tau_win : Nat
  calib_t_win : Nat
  calib_t_bg : Nat
  calib_emissivity : Nat
  jpeg_data_size : Nat
  value_min : Nat
  value_max : Nat
  attitude_reference_quat : List Nat
  cam_angles_count : Nat
  cam_angles : List Nat
  cam_angles_timestamps : List Nat
  jpeg_data : List Byte
  frame_state : Nat
  fpa_temp : Nat
  housing_temp : Nat
  window_reflection : Nat
  thermal_to_visible_quat : List Nat
deriving DecidableEq, Repr

/-- The assignment `meta->version = v`. -/
def tmeta_data.set_version (m : tmeta_data) (v : Nat) : tmeta_data :=
  { m with version := v }

/-- The assignment `meta->gain_mode = v`. -/
def tmeta_data.set_gain_mode (m : tmeta_data) (v : Nat) : tmeta_data :=
  { m with gain_mode := v }

/-- The assignment `meta->calib_r = v`. -/
def tmeta_data.set_calib_r (m : tmeta_data) (v : Nat) : tmeta_data :=
  { m with calib_r := v }

/-- The assignment `meta->calib_b = v`. -/
def tmeta_data.set_calib_b (m : tmeta_data) (v : Nat) : tmeta_data :=
  { m with calib_b := v }

/-- The assignment `meta->calib_f = v`. -/
def tmeta_data.set_calib_f (m : tmeta_data) (v : Nat) : tmeta_data :=
  { m with calib_f := v }

/-- The assignment `meta->calib_o = v`. -/
def tmeta_data.set_calib_o (m : tmeta_data) (v : Nat) : tmeta_data :=
  { m with calib_o := v }

/-- The assignment `meta->calib_tau_win = v`. -/
def tmeta_data.set_calib_tau_win (m : tmeta_data) (v : Nat) : tmeta_data :=
  { m with calib_tau_win := v }

/-- The assignment `meta->calib_t_win = v`. -/
def tmeta_data.set_calib_t_win (m : tmeta_data) (v : Nat) : tmeta_data :=
  { m with calib_t_win := v }

/-- The assignment `meta->calib_t_bg = v`. -/
def tmeta_data.set_calib_t_bg (m : tmeta_data) (v : Nat) : tmeta_data :=
  { m with calib_t_bg := v }

/-- The assignment `meta->calib_emissivity = v`. -/
def tmeta_data.set_calib_emissivity (m : tmeta_data) (v : Nat) : tmeta_data :=
  { m with calib_emissivity := v }

/-- The assignment `meta->jpeg_data_size = v`. -/
def tmeta_data.set_jpeg_data_size (m : tmeta_data) (v : Nat) : tmeta_data :=
  { m with jpeg_data_size := v }

/-- The assignment `meta->value_min = v`. -/
def tmeta_data.set_value_min (m : tmeta_data) (v : Nat) : tmeta_data :=
  { m with value_min := v }

/-- The assignment `meta->value_max = v`. -/
def tmeta_data.set_value_max (m : tmeta_data) (v : Nat) : tmeta_data :=
  { m with value_max := v }

/-- The assignment `meta->attitude_reference_quat = v`. -/
def tmeta_data.set_attitude_reference_quat (m : tmeta_data) (v : List Nat) : tmeta_data :=
  { m with attitude_reference_quat := v }

/-- The assignment `meta->cam_angles_count = v`. -/
def tmeta_data.set_cam_angles_count (m : tmeta_data) (v : Nat) : tmeta_data :=
  { m with cam_angles_count := v }

/-- The assignment `meta->cam_angles = v`. -/
def tmeta_data.set_cam_angles (m : tmeta_data) (v : List Nat) : tmeta_data :=
  { m with cam_angles := v }

/-- The assignment `meta->cam_angles_timestamps = v`. -/
def tmeta_data.set_cam_angles_timestamps (m : tmeta_data) (v : List Nat) : tmeta_data :=
  { m with cam_angles_timestamps := v }

/-- The assignment `meta->jpeg_data = v`. -/
def tmeta_data.set_jpeg_data (m : tmeta_data) (v : List Byte) : tmeta_data :=
  { m with jpeg_data := v }

/-- The assignment `meta->frame_state = v`. -/
def tmeta_data.set_frame_state (m : tmeta_data) (v : Nat) : tmeta_data :=
  { m with frame_state := v }

/-- The assignment `meta->fpa_temp = v`. -/
def tmeta_data.set_fpa_temp (m : tmeta_data) (v : Nat) : tmeta_data :=
  { m with fpa_temp := v }

/-- The assignment `meta->housing_temp = v`. -/
def tmeta_data.set_housing_temp (m : tmeta_data) (v : Nat) : tmeta_data :=
  { m with housing_temp := v }

/-- The assignment `meta->window_reflection = v`. -/
def tmeta_data.set_window_reflection (m : tmeta_data) (v : Nat) : tmeta_data :=
  { m with window_reflection := v }

/-- The assignment `meta->thermal_to_visible_quat = v`. -/
def tmeta_data.set_thermal_to_visible_quat (m : tmeta_data) (v : List Nat) : tmeta_data :=
  { m with thermal_to_visible_quat := v }

/-- The type invariant of `struct tmeta_data`: every scalar fits its C type and
every array has its declared number of elements. -/
def tmeta_data.wf (m : tmeta_data) : Prop :=
  m.version < 2 ^ 32 ∧ m.gain_mode < 2 ^ 32 ∧
  m.calib_r < 2 ^ 64 ∧ m.calib_b < 2 ^ 64 ∧ m.calib_f < 2 ^ 64 ∧ m.calib_o < 2 ^ 64 ∧
  m.calib_tau_win < 2 ^ 64 ∧ m.calib_t_win < 2 ^ 64 ∧ m.calib_t_bg < 2 ^ 64 ∧
  m.calib_emissivity < 2 ^ 64 ∧
  m.jpeg_data_size < 2 ^ 32 ∧ m.value_min < 2 ^ 32 ∧ m.value_max < 2 ^ 32 ∧
  (m.attitude_reference_quat.length = 4 ∧ ∀ x ∈ m.attitude_reference_quat, x < 2 ^ 32) ∧
  m.cam_angles_count < 2 ^ 32 ∧
  (m.cam_angles.length = TMETA_CAMANGLES_MAXCOUNT * 4 ∧ ∀ x ∈ m.cam_angles, x < 2 ^ 32) ∧
  (m.cam_angles_timestamps.length = TMETA_CAMANGLES_MAXCOUNT ∧
    ∀ x ∈ m.cam_angles_timestamps, x < 2 ^ 64) ∧
  m.frame_state < 2 ^ 32 ∧
  m.fpa_temp < 2 ^ 64 ∧ m.housing_temp < 2 ^ 64 ∧ m.window_reflection < 2 ^ 64 ∧
  (m.thermal_to_visible_quat.length = 4 ∧ ∀ x ∈ m.thermal_to_visible_quat, x < 2 ^ 32)

instance (m : tmeta_data) : Decidable m.wf := by
  unfold tmeta_data.wf; infer_instance

/-- The macro `TMETA_BUF_SIZE(meta)`, computed in `size_t`. -/
def TMETA_BUF_SIZE (m : tmeta_data) : Nat :=
  (TMETA_SEI_UUID_SIZE + TMETA_VERSION_SIZE + TMETA_V0_1_HEADER_SIZE +
    4 * m.cam_angles_count * 4 + 8 * m.cam_angles_count + m.jpeg_data_size +
    TMETA_V0_2_DATA_SIZE + TMETA_V0_3_DATA_SIZE + TMETA_V0_4_DATA_SIZE) % 2 ^ 64

/-- The enumerator `TMETA_THERMAL_GAIN_MODE_FLIR_LOW_GAIN`. -/
def TMETA_THERMAL_GAIN_MODE_FLIR_LOW_GAIN : Nat := 0

/-- The enumerator `TMETA_THERMAL_GAIN_MODE_FLIR_HIGH_GAIN`. -/
def TMETA_THERMAL_GAIN_MODE_FLIR_HIGH_GAIN : Nat := 1

/-- The enumerator `TMETA_THERMAL_FRAME_STATE_VALID`. -/
def TMETA_THERMAL_FRAME_STATE_VALID : Nat := 0

/-- The enumerator `TMETA_THERMAL_FRAME_STATE_SHUTTER_DESIRED`. -/
def TMETA_THERMAL_FRAME_STATE_SHUTTER_DESIRED : Nat := 1

/-- The enumerator `TMETA_THERMAL_FRAME_STATE_SHUTTER_IN_PROGRESS`. -/
def TMETA_THERMAL_FRAME_STATE_SHUTTER_IN_PROGRESS : Nat := 2

/-- The enumerator `TMETA_THERMAL_FRAME_STATE_UNEXPECTED`. -/
def TMETA_THERMAL_FRAME_STATE_UNEXPECTED : Nat := 3

/-- The errno value `ENOMEM` (Linux). -/
def ENOMEM : Int := 12

/-! ## tmeta.c -/

/-- The loop of `serialize_thermal_metadata`, lines 136 to 140: `n` iterations
from index `i`. -/
def serialize_timestamps (le : Bool) (ts : List Nat) : Nat → Nat → Cursor → Res Cursor
  | 0, _, c => .ok c
  | n + 1, i, c =>
    match ts[i]? with
    | none => .overread
    | some t => (store64 le (htonll le t) c).bind (serialize_timestamps le ts n (i + 1))

/-- The function `serialize_thermal_metadata`: the cursor after the last write. -/
def serialize_thermal_metadata (le : Bool) (m : tmeta_data) (buf : List Byte) :
    Res Cursor := do
  let c : Cursor := { done := [], rest := buf }
  let c ← store32 le (htonl le TMETA_USER_DATA_SEI_UUID_0) c
  let c ← store32 le (htonl le TMETA_USER_DATA_SEI_UUID_1) c
  let c ← store32 le (htonl le TMETA_USER_DATA_SEI_UUID_2) c
  let c ← store32 le (htonl le TMETA_USER_DATA_SEI_UUID_3) c
  let c ← store32 le (htonl le TMETA_VERSION) c
  let c ← store32 le (htonl le (toUInt m.gain_mode)) c
  let c ← store64 le m.calib_r c
  let c ← store64 le m.calib_b c
  let c ← store64 le m.calib_f c
  let c ← store64 le m.calib_o c
  let c ← store64 le m.calib_tau_win c
  let c ← store64 le m.calib_t_win c
  let c ← store64 le m.calib_t_bg c
  let c ← store64 le m.calib_emissivity c
  let c ← store32 le (htonl le m.jpeg_data_size) c
  let c ← store32 le (htonl le (toUInt m.value_min)) c
  let c ← store32 le (htonl le (toUInt m.value_max)) c
  let c ← storeFloats le m.attitude_reference_quat 4 c
  let c ← store32 le (htonl le (toUInt m.cam_angles_count)) c
  let c ← storeFloats le m.cam_angles (m.cam_angles_count * 4) c
  let c ← serialize_timestamps le m.cam_angles_timestamps m.cam_angles_count 0 c
  let c ← storeBytes m.jpeg_data m.jpeg_data_size c
  let c ← store32 le (htonl le (toUInt m.frame_state)) c
  let c ← store64 le m.fpa_temp c
  let c ← store64 le m.housing_temp c
  let c ← store64 le m.window_reflection c
  storeFloats le m.thermal_to_visible_quat 4 c

/-- The loop of `deserialize_thermal_metadata`, lines 255 to 260: `n`
iterations from index `i`, on the state `(pb_buf, _buf_size, timestamps)`. -/
def deserialize_timestamps (le : Bool) :
    Nat → Nat → List Byte → Int → List Nat → Res (List Byte × Int × List Nat)
  | 0, _, pb_buf, _buf_size, ts => .ok (pb_buf, _buf_size, ts)
  | n + 1, i, pb_buf, _buf_size, ts =>
    (load64 le pb_buf).bind fun (v : Nat) =>
      if i < ts.length then
        deserialize_timestamps le n (i + 1) (pb_buf.drop 8) (_buf_size - 8)
          (ts.set i (ntohll le v))
      else .overflow

/-- The function `deserialize_thermal_metadata`: the value returned and the
record after the call. -/
def deserialize_thermal_metadata (le : Bool) (buf : List Byte) (m : tmeta_data) :
    Res (Int × tmeta_data) :=
  let pb_buf := buf
  let _buf_size : Int := toSsize buf.length
  if _buf_size < ((TMETA_SEI_UUID_SIZE + TMETA_VERSION_SIZE : Nat) : Int) then
    .ok (-1, m)
  else
  let pb_buf := pb_buf.drop TMETA_SEI_UUID_SIZE
  let _buf_size := _buf_size - TMETA_SEI_UUID_SIZE
  (load32 le pb_buf).bind fun (v : Nat) =>
  let m := m.set_version (ntohl le v)
  let pb_buf := pb_buf.drop 4
  let _buf_size := _buf_size - 4
  if TMETA_GET_MAJOR_VERSION m.version > TMETA_MAJOR_VERSION then .ok (-1, m) else
  if _buf_size < (TMETA_V0_1_HEADER_SIZE : Int) then .ok (-1, m) else
  (load32 le pb_buf).bind fun (v : Nat) =>
  let m := m.set_gain_mode (ntohl le v)
  let pb_buf := pb_buf.drop 4
  let _buf_size := _buf_size - 4
  (load64 le pb_buf).bind fun (v : Nat) =>
  let m := m.set_calib_r v
  let pb_buf := pb_buf.drop 8
  let _buf_size := _buf_size - 8
  (load64 le pb_buf).bind fun (v : Nat) =>
  let m := m.set_calib_b v
  let pb_buf := pb_buf.drop 8
  let _buf_size := _buf_size - 8
  (load64 le pb_buf).bind fun (v : Nat) =>
  let m := m.set_calib_f v
  let pb_buf := pb_buf.drop 8
  let _buf_size := _buf_size - 8
  (load64 le pb_buf).bind fun (v : Nat) =>
  let m := m.set_calib_o v
  let pb_buf := pb_buf.drop 8
  let _buf_size := _buf_size - 8
  (load64 le pb_buf).bind fun (v : Nat) =>
  let m := m.set_calib_tau_win v
  let pb_buf := pb_buf.drop 8
  let _buf_size := _buf_size - 8
  (load64 le pb_buf).bind fun (v : Nat) =>
  let m := m.set_calib_t_win v
  let pb_buf := pb_buf.drop 8
  let _buf_size := _buf_size - 8
  (load64 le pb_buf).bind fun (v : Nat) =>
  let m := m.set_calib_t_bg v
  let pb_buf := pb_buf.drop 8
  let _buf_size := _buf_size - 8
  (load64 le pb_buf).bind fun (v : Nat) =>
  let m := m.set_calib_emissivity v
  let pb_buf := pb_buf.drop 8
  let _buf_size := _buf_size - 8
  (load32 le pb_buf).bind fun (v : Nat) =>
  let m := m.set_jpeg_data_size (ntohl le v)
  let pb_buf := pb_buf.drop 4
  let _buf_size := _buf_size - 4
  (load32 le pb_buf).bind fun (v : Nat) =>
  let m := m.set_value_min (ntohl le v)
  let pb_buf := pb_buf.drop 4
  let _buf_size := _buf_size - 4
  (load32 le pb_buf).bind fun (v : Nat) =>
  let m := m.set_value_max (ntohl le v)
  let pb_buf := pb_buf.drop 4
  let _buf_size := _buf_size - 4
  (memcpyFloats le m.attitude_reference_quat pb_buf (4 * 4)).bind fun (q : List Nat) =>
  let m := m.set_attitude_reference_quat q
  let pb_buf := pb_buf.drop (4 * 4)
  let _buf_size := _buf_size - 4 * 4
  (load32 le pb_buf).bind fun (v : Nat) =>
  let m := m.set_cam_angles_count (ntohl le v)
  let pb_buf := pb_buf.drop 4
  let _buf_size := _buf_size - 4
  let cam_angles_size := toUInt (4 * m.cam_angles_count * 4)
  let cam_angles_timestamps_size := toUInt (m.cam_angles_count * 8)
  if _buf_size < ((toUInt (cam_angles_size + cam_angles_timestamps_size) : Nat) : Int) then
    .ok (-1, m)
  else
  (memcpyFloats le m.cam_angles pb_buf cam_angles_size).bind fun (a : List Nat) =>
  let m := m.set_cam_angles a
  let pb_buf := pb_buf.drop cam_angles_size
  let _buf_size := _buf_size - cam_angles_size
  (deserialize_timestamps le m.cam_angles_count 0 pb_buf _buf_size
    m.cam_angles_timestamps).bind fun (r : List Byte × Int × List Nat) =>
  let pb_buf := r.1
  let _buf_size := r.2.1
  let m := m.set_cam_angles_timestamps r.2.2
  if _buf_size < (m.jpeg_data_size : Int) then .ok (-1, m) else
  let m := m.set_jpeg_data pb_buf
  let pb_buf := pb_buf.drop m.jpeg_data_size
  let _buf_size := _buf_size - m.jpeg_data_size
  if TMETA_GET_MINOR_VERSION m.version < 2 then .ok (0, m) else
  if _buf_size < (TMETA_V0_2_DATA_SIZE : Int) then .ok (-1, m) else
  (load32 le pb_buf).bind fun (v : Nat) =>
  let m := m.set_frame_state (ntohl le v)
  let pb_buf := pb_buf.drop 4
  let _buf_size := _buf_size - 4
  if TMETA_GET_MINOR_VERSION m.version < 3 then .ok (0, m) else
  if _buf_size < (TMETA_V0_3_DATA_SIZE : Int) then .ok (-1, m) else
  (load64 le pb_buf).bind fun (v : Nat) =>
  let m := m.set_fpa_temp v
  let pb_buf := pb_buf.drop 8
  let _buf_size := _buf_size - 8
  (load64 le pb_buf).bind fun (v : Nat) =>
  let m := m.set_housing_temp v
  let pb_buf := pb_buf.drop 8
  let _buf_size := _buf_size - 8
  (load64 le pb_buf).bind fun (v : Nat) =>
  let m := m.set_window_reflection v
  let pb_buf := pb_buf.drop 8
  let _buf_size := _buf_size - 8
  if TMETA_GET_MINOR_VERSION m.version < 4 then .ok (0, m) else
  if _buf_size < (TMETA_V0_4_DATA_SIZE : Int) then .ok (-1, m) else
  (memcpyFloats le m.thermal_to_visible_quat pb_buf (4 * 4)).bind fun (q : List Nat) =>
  let m := m.set_thermal_to_visible_quat q
  .ok (0, m)

/-- The function `tmeta_is_thermal_metadata_user_data_sei`. -/
def tmeta_is_thermal_metadata_user_data_sei (le : Bool) (buf : Option (List Byte)) :
    Res Bool :=
  match buf with
  | none => .ok false
  | some buf =>
    if buf.length < TMETA_SEI_UUID_SIZE + TMETA_VERSION_SIZE then .ok false else
    (load32 le buf).bind fun (w0 : Nat) =>
    (load32 le (buf.drop 4)).bind fun (w1 : Nat) =>
    (load32 le (buf.drop 8)).bind fun (w2 : Nat) =>
    (load32 le (buf.drop 12)).bind fun (w3 : Nat) =>
    let uuid0 := ntohl le w0
    let uuid1 := ntohl le w1
    let uuid2 := ntohl le w2
    let uuid3 := ntohl le w3
    if uuid0 ≠ TMETA_USER_DATA_SEI_UUID_0 ∨ uuid1 ≠ TMETA_USER_DATA_SEI_UUID_1 ∨
        uuid2 ≠ TMETA_USER_DATA_SEI_UUID_2 ∨ uuid3 ≠ TMETA_USER_DATA_SEI_UUID_3 then
      .ok false
    else .ok true

/-- The function `tmeta_serialize_thermal_metadata_user_data_sei`: the value
returned, the destination after the call and the cell `*size` after the call
(`none` when `size` is `NULL`). -/
def tmeta_serialize_thermal_metadata_user_data_sei (le : Bool)
    (meta : Option tmeta_data) (buf : Option (List Byte)) (size : Option Nat) :
    Res (Int × Option (List Byte) × Option Nat) :=
  match meta, buf with
  | none, _ => .ok (-EINVAL, buf, size)
  | some _, none => .ok (-EINVAL, buf, size)
  | some m, some b =>
    let _size := TMETA_BUF_SIZE m
    if b.length < _size then .ok (-ENOBUFS, buf, size) else
    (serialize_thermal_metadata le m b).bind fun (c : Cursor) =>
    .ok (0, some c.buffer, size.map fun _ => _size)

/-- The function `tmeta_deserialize_thermal_metadata_user_data_sei`: the value
returned and the record `*meta` after the call (`none` when `meta` is `NULL`). -/
def tmeta_deserialize_thermal_metadata_user_data_sei (le : Bool)
    (buf : Option (List Byte)) (meta : Option tmeta_data) :
    Res (Int × Option tmeta_data) :=
  match buf, meta with
  | none, _ => .ok (-EINVAL, meta)
  | some _, none => .ok (-EINVAL, meta)
  | some b, some m =>
    (tmeta_is_thermal_metadata_user_data_sei le buf).bind fun (is_tmeta : Bool) =>
    if !is_tmeta then .ok (-ENOENT, meta) else
    (deserialize_thermal_metadata le b m).bind fun (r : Int × tmeta_data) =>
    .ok (r.1, some r.2)

/-- The function `tmeta_thermal_gain_mode_from_str`; the warning it logs for an
unknown string is not part of the model. -/
def tmeta_thermal_gain_mode_from_str (str : List Byte) : Res Nat :=
  (strcasecmp str (literal "FLIR_LOW_GAIN")).bind fun (c1 : Int) =>
  if c1 = 0 then .ok TMETA_THERMAL_GAIN_MODE_FLIR_LOW_GAIN else
  (strcasecmp str (literal "FLIR_HIGH_GAIN")).bind fun (c2 : Int) =>
  if c2 = 0 then .ok TMETA_THERMAL_GAIN_MODE_FLIR_HIGH_GAIN
  else .ok TMETA_THERMAL_GAIN_MODE_FLIR_LOW_GAIN

/-- The function `tmeta_thermal_frame_state_from_str`; the warning it logs for
an unknown string is not part of the model. -/
def tmeta_thermal_frame_state_from_str (str : List Byte) : Res Nat :=
  (strcasecmp str (literal "VALID")).bind fun (c1 : Int) =>
  if c1 = 0 then .ok TMETA_THERMAL_FRAME_STATE_VALID else
  (strcasecmp str (literal "SHUTTER_DESIRED")).bind fun (c2 : Int) =>
  if c2 = 0 then .ok TMETA_THERMAL_FRAME_STATE_SHUTTER_DESIRED else
  (strcasecmp str (literal "SHUTTER_IN_PROGRESS")).bind fun (c3 : Int) =>
  if c3 = 0 then .ok TMETA_THERMAL_FRAME_STATE_SHUTTER_IN_PROGRESS else
  (strcasecmp str (literal "UNEXPECTED")).bind fun (c4 : Int) =>
  if c4 = 0 then .ok TMETA_THERMAL_FRAME_STATE_UNEXPECTED
  else .ok TMETA_THERMAL_FRAME_STATE_UNEXPECTED

/-- The function `tmeta_thermal_gain_mode_to_str`, on every value an object of
the enumerated type can hold; the result is the string literal returned. -/
def tmeta_thermal_gain_mode_to_str (mode : Int) : List Byte :=
  if mode = (TMETA_THERMAL_GAIN_MODE_FLIR_LOW_GAIN : Nat) then literal "FLIR_LOW_GAIN"
  else if mode = (TMETA_THERMAL_GAIN_MODE_FLIR_HIGH_GAIN : Nat) then literal "FLIR_HIGH_GAIN"
  else literal "UNKNOWN"

/-- The function `tmeta_thermal_frame_state_to_str`, on every value an object
of the enumerated type can hold; the result is the string literal returned. -/
def tmeta_thermal_frame_state_to_str (state : Int) : List Byte :=
  if state = (TMETA_THERMAL_FRAME_STATE_VALID : Nat) then literal "VALID"
  else if state = (TMETA_THERMAL_FRAME_STATE_SHUTTER_DESIRED : Nat) then
    literal "SHUTTER_DESIRED"
  else if state = (TMETA_THERMAL_FRAME_STATE_SHUTTER_IN_PROGRESS : Nat) then
    literal "SHUTTER_IN_PROGRESS"
  else if state = (TMETA_THERMAL_FRAME_STATE_UNEXPECTED : Nat) then literal "UNEXPECTED"
  else literal "UNKNOWN"

/-- The function `tmeta_json_object_new_quaternion`, on the memory `quat`
points to. -/
def tmeta_json_object_new_quaternion (quat : List Nat) : Res json_object :=
  match quat[0]?, quat[1]?, quat[2]?, quat[3]? with
  | some q0, some q1, some q2, some q3 =>
    let jobj_val : List (String × json_object) := []
    let jobj_val := json_object_object_add jobj_val "x" (json_object_new_double (.ofFloat q0))
    let jobj_val := json_object_object_add jobj_val "y" (json_object_new_double (.ofFloat q1))
    let jobj_val := json_object_object_add jobj_val "z" (json_object_new_double (.ofFloat q2))
    let jobj_val := json_object_object_add jobj_val "w" (json_object_new_double (.ofFloat q3))
    .ok (.object jobj_val)
  | _, _, _, _ => .overread

/-- The loop of `tmeta_thermal_metadata_to_json`, lines 533 to 540: `n`
iterations from index `i`, on the items of the two arrays. -/
def to_json_cam_angles (m : tmeta_data) :
    Nat → Nat → List json_object → List json_object →
      Res (List json_object × List json_object)
  | 0, _, jcam_angles, jcam_angles_timestamps => .ok (jcam_angles, jcam_angles_timestamps)
  | n + 1, i, jcam_angles, jcam_angles_timestamps =>
    (tmeta_json_object_new_quaternion (m.cam_angles.drop (i * 4 % 2 ^ 32))).bind
      fun (q : json_object) =>
    match m.cam_angles_timestamps[i]? with
    | none => .overread
    | some t =>
      to_json_cam_angles m n (i + 1) (json_object_array_add jcam_angles q)
        (json_object_array_add jcam_angles_timestamps (json_object_new_int64 t))

/-- The function `tmeta_thermal_metadata_to_json`: the value returned and the
members of the object `jobj` after the call (`none` when `jobj` is `NULL`);
`mem1` and `mem2` tell whether the first and the second call of
`json_object_new_array` find memory. -/
def tmeta_thermal_metadata_to_json (meta : Option tmeta_data)
    (jobj : Option (List (String × json_object))) (mem1 mem2 : Bool) :
    Res (Int × Option (List (String × json_object))) :=
  match meta, jobj with
  | none, _ => .ok (-EINVAL, jobj)
  | some _, none => .ok (-EINVAL, jobj)
  | some m, some jobj =>
    let jobj := json_object_object_add jobj "version_major"
      (json_object_new_int (TMETA_GET_MAJOR_VERSION m.version))
    let jobj := json_object_object_add jobj "version_minor"
      (json_object_new_int (TMETA_GET_MINOR_VERSION m.version))
    let jobj := json_object_object_add jobj "gain_mode"
      (json_object_new_string (tmeta_thermal_gain_mode_to_str (m.gain_mode : Nat)))
    let jobj := json_object_object_add jobj "calib_r" (json_object_new_double (.ofBits m.calib_r))
    let jobj := json_object_object_add jobj "calib_b" (json_object_new_double (.ofBits m.calib_b))
    let jobj := json_object_object_add jobj "calib_f" (json_object_new_double (.ofBits m.calib_f))
    let jobj := json_object_object_add jobj "calib_o" (json_object_new_double (.ofBits m.calib_o))
    let jobj := json_object_object_add jobj "calib_tau_win"
      (json_object_new_double (.ofBits m.calib_tau_win))
    let jobj := json_object_object_add jobj "calib_t_win"
      (json_object_new_double (.ofBits m.calib_t_win))
    let jobj := json_object_object_add jobj "calib_t_bg"
      (json_object_new_double (.ofBits m.calib_t_bg))
    let jobj := json_object_object_add jobj "calib_emissivity"
      (json_object_new_double (.ofBits m.calib_emissivity))
    let jobj := json_object_object_add jobj "jpeg_data_size"
      (json_object_new_int m.jpeg_data_size)
    let jobj := json_object_object_add jobj "value_min" (json_object_new_int m.value_min)
    let jobj := json_object_object_add jobj "value_max" (json_object_new_int m.value_max)
    (tmeta_json_object_new_quaternion m.attitude_reference_quat).bind fun (q : json_object) =>
    let jobj := json_object_object_add jobj "attitude_reference_quat" q
    match json_object_new_array mem1 with
    | none => .ok (-ENOMEM, some jobj)
    | some jcam_angles =>
    match json_object_new_array mem2 with
    | none => .ok (-ENOMEM, some jobj)
    | some jcam_angles_timestamps =>
    (to_json_cam_angles m m.cam_angles_count 0 jcam_angles jcam_angles_timestamps).bind
      fun (r : List json_object × List json_object) =>
    let jobj := json_object_object_add jobj "cam_angles" (.array r.1)
    let jobj := json_object_object_add jobj "cam_angles_timestamps" (.array r.2)
    let jobj := json_object_object_add jobj "frame_state"
      (json_object_new_string (tmeta_thermal_frame_state_to_str (m.frame_state : Nat)))
    let jobj := json_object_object_add jobj "fpa_temp"
      (json_object_new_double (.ofBits m.fpa_temp))
    let jobj := json_object_object_add jobj "housing_temp"
      (json_object_new_double (.ofBits m.housing_temp))
    let jobj := json_object_object_add jobj "window_reflection"
      (json_object_new_double (.ofBits m.window_reflection))
    (tmeta_json_object_new_quaternion m.thermal_to_visible_quat).bind fun (q : json_object) =>
    let jobj := json_object_object_add jobj "thermal_to_visible_quat" q
    .ok (0, some jobj)

/-! ## Definitions used to state and prove the properties -/

/-- Big-endian form of an array of `w`-byte unsigned integers. -/
def beArr (w : Nat) : List Nat → List Byte
  | [] => []
  | v :: vs => beBytes w v ++ beArr w vs

/-- The first 120 bytes `serialize_thermal_metadata` writes: identity tag,
version and version 0.1 header. -/
def wireHeader (le : Bool) (m : tmeta_data) : List Byte :=
  beBytes 4 TMETA_USER_DATA_SEI_UUID_0 ++ (beBytes 4 TMETA_USER_DATA_SEI_UUID_1 ++
  (beBytes 4 TMETA_USER_DATA_SEI_UUID_2 ++ (beBytes 4 TMETA_USER_DATA_SEI_UUID_3 ++
  (beBytes 4 TMETA_VERSION ++ (beBytes 4 m.gain_mode ++
  (hostBytes le 8 m.calib_r ++ (hostBytes le 8 m.calib_b ++
  (hostBytes le 8 m.calib_f ++ (hostBytes le 8 m.calib_o ++
  (hostBytes le 8 m.calib_tau_win ++ (hostBytes le 8 m.calib_t_win ++
  (hostBytes le 8 m.calib_t_bg ++ (hostBytes le 8 m.calib_emissivity ++
  (beBytes 4 m.jpeg_data_size ++ (beBytes 4 m.value_min ++ (beBytes 4 m.value_max ++
  (arrBytes le 4 (m.attitude_reference_quat.take 4) ++
  beBytes 4 m.cam_angles_count)))))))))))))))))

/-- The bytes `serialize_thermal_metadata` writes after the blob: shutter
state, temperatures and alignment quaternion. -/
def wireTail (le : Bool) (m : tmeta_data) : List Byte :=
  beBytes 4 m.frame_state ++ (hostBytes le 8 m.fpa_temp ++
  (hostBytes le 8 m.housing_temp ++ (hostBytes le 8 m.window_reflection ++
  arrBytes le 4 (m.thermal_to_visible_quat.take 4))))

/-- The byte string `serialize_thermal_metadata` writes for `m`. -/
def wire (le : Bool) (m : tmeta_data) : List Byte :=
  wireHeader le m ++
  (arrBytes le 4 (m.cam_angles.take (m.cam_angles_count * 4)) ++
  (beArr 8 (m.cam_angles_timestamps.take m.cam_angles_count) ++
  (m.jpeg_data.take m.jpeg_data_size ++ wireTail le m)))

/-- Lines 269 to 306 of `deserialize_thermal_metadata`, run from the state
`(pb_buf, _buf_size, meta)`. -/
def deserialize_from_v0_2 (le : Bool) (pb_buf : List Byte) (_buf_size : Int)
    (m : tmeta_data) : Res (Int × tmeta_data) :=
  if TMETA_GET_MINOR_VERSION m.version < 2 then .ok (0, m) else
  if _buf_size < (TMETA_V0_2_DATA_SIZE : Int) then .ok (-1, m) else
  (load32 le pb_buf).bind fun (v : Nat) =>
  let m := m.set_frame_state (ntohl le v)
  let pb_buf := pb_buf.drop 4
  let _buf_size := _buf_size - 4
  if TMETA_GET_MINOR_VERSION m.version < 3 then .ok (0, m) else
  if _buf_size < (TMETA_V0_3_DATA_SIZE : Int) then .ok (-1, m) else
  (load64 le pb_buf).bind fun (v : Nat) =>
  let m := m.set_fpa_temp v
  let pb_buf := pb_buf.drop 8
  let _buf_size := _buf_size - 8
  (load64 le pb_buf).bind fun (v : Nat) =>
  let m := m.set_housing_temp v
  let pb_buf := pb_buf.drop 8
  let _buf_size := _buf_size - 8
  (load64 le pb_buf).bind fun (v : Nat) =>
  let m := m.set_window_reflection v
  let pb_buf := pb_buf.drop 8
  let _buf_size := _buf_size - 8
  if TMETA_GET_MINOR_VERSION m.version < 4 then .ok (0, m) else
  if _buf_size < (TMETA_V0_4_DATA_SIZE : Int) then .ok (-1, m) else
  (memcpyFloats le m.thermal_to_visible_quat pb_buf (4 * 4)).bind fun (q : List Nat) =>
  let m := m.set_thermal_to_visible_quat q
  .ok (0, m)

/-- Lines 262 to 306 of `deserialize_thermal_metadata`, run from the state
`(pb_buf, _buf_size, meta)`. -/
def deserialize_from_jpeg (le : Bool) (pb_buf : List Byte) (_buf_size : Int)
    (m : tmeta_data) : Res (Int × tmeta_data) :=
  if _buf_size < (m.jpeg_data_size : Int) then .ok (-1, m) else
  let m := m.set_jpeg_data pb_buf
  let pb_buf := pb_buf.drop m.jpeg_data_size
  let _buf_size := _buf_size - m.jpeg_data_size
  deserialize_from_v0_2 le pb_buf _buf_size m

/-- Lines 246 to 306 of `deserialize_thermal_metadata`, run from the state
`(pb_buf, _buf_size, meta)`. -/
def deserialize_from_cam_angles (le : Bool) (pb_buf : List Byte) (_buf_size : Int)
    (m : tmeta_data) : Res (Int × tmeta_data) :=
  let cam_angles_size := toUInt (4 * m.cam_angles_count * 4)
  let cam_angles_timestamps_size := toUInt (m.cam_angles_count * 8)
  if _buf_size < ((toUInt (cam_angles_size + cam_angles_timestamps_size) : Nat) : Int) then
    .ok (-1, m)
  else
  (memcpyFloats le m.cam_angles pb_buf cam_angles_size).bind fun (a : List Nat) =>
  let m := m.set_cam_angles a
  let pb_buf := pb_buf.drop cam_angles_size
  let _buf_size := _buf_size - cam_angles_size
  (deserialize_timestamps le m.cam_angles_count 0 pb_buf _buf_size
    m.cam_angles_timestamps).bind fun (r : List Byte × Int × List Nat) =>
  let pb_buf := r.1
  let _buf_size := r.2.1
  let m := m.set_cam_angles_timestamps r.2.2
  deserialize_from_jpeg le pb_buf _buf_size m

/-- Lines 197 to 306 of `deserialize_thermal_metadata`, run from the state
`(pb_buf, _buf_size, meta)`. -/
def deserialize_from_header (le : Bool) (pb_buf : List Byte) (_buf_size : Int)
    (m : tmeta_data) : Res (Int × tmeta_data) :=
  (load32 le pb_buf).bind fun (v : Nat) =>
  let m := m.set_gain_mode (ntohl le v)
  let pb_buf := pb_buf.drop 4
  let _buf_size := _buf_size - 4
  (load64 le pb_buf).bind fun (v : Nat) =>
  let m := m.set_calib_r v
  let pb_buf := pb_buf.drop 8
  let _buf_size := _buf_size - 8
  (load64 le pb_buf).bind fun (v : Nat) =>
  let m := m.set_calib_b v
  let pb_buf := pb_buf.drop 8
  let _buf_size := _buf_size - 8
  (load64 le pb_buf).bind fun (v : Nat) =>
  let m := m.set_calib_f v
  let pb_buf := pb_buf.drop 8
  let _buf_size := _buf_size - 8
  (load64 le pb_buf).bind fun (v : Nat) =>
  let m := m.set_calib_o v
  let pb_buf := pb_buf.drop 8
  let _buf_size := _buf_size - 8
  (load64 le pb_buf).bind fun (v : Nat) =>
  let m := m.set_calib_tau_win v
  let pb_buf := pb_buf.drop 8
  let _buf_size := _buf_size - 8
  (load64 le pb_buf).bind fun (v : Nat) =>
  let m := m.set_calib_t_win v
  let pb_buf := pb_buf.drop 8
  let _buf_size := _buf_size - 8
  (load64 le pb_buf).bind fun (v : Nat) =>
  let m := m.set_calib_t_bg v
  let pb_buf := pb_buf.drop 8
  let _buf_size := _buf_size - 8
  (load64 le pb_buf).bind fun (v : Nat) =>
  let m := m.set_calib_emissivity v
  let pb_buf := pb_buf.drop 8
  let _buf_size := _buf_size - 8
  (load32 le pb_buf).bind fun (v : Nat) =>
  let m := m.set_jpeg_data_size (ntohl le v)
  let pb_buf := pb_buf.drop 4
  let _buf_size := _buf_size - 4
  (load32 le pb_buf).bind fun (v : Nat) =>
  let m := m.set_value_min (ntohl le v)
  let pb_buf := pb_buf.drop 4
  let _buf_size := _buf_size - 4
  (load32 le pb_buf).bind fun (v : Nat) =>
  let m := m.set_value_max (ntohl le v)
  let pb_buf := pb_buf.drop 4
  let _buf_size := _buf_size - 4
  (memcpyFloats le m.attitude_reference_quat pb_buf (4 * 4)).bind fun (q : List Nat) =>
  let m := m.set_attitude_reference_quat q
  let pb_buf := pb_buf.drop (4 * 4)
  let _buf_size := _buf_size - 4 * 4
  (load32 le pb_buf).bind fun (v : Nat) =>
  let m := m.set_cam_angles_count (ntohl le v)
  let pb_buf := pb_buf.drop 4
  let _buf_size := _buf_size - 4
  deserialize_from_cam_angles le pb_buf _buf_size m

/-- Number of bytes the decoder consumes after the blob for a buffer of the
given minor version. -/
def tailSize (minor : Nat) : Nat :=
  if minor < 2 then 0 else if minor < 3 then 4 else if minor < 4 then 28 else 44

/-- The record after a successful run of lines 269 to 306 of
`deserialize_thermal_metadata` from the pointer `p`. -/
def tailRec (le : Bool) (p : List Byte) (m : tmeta_data) : tmeta_data :=
  if TMETA_GET_MINOR_VERSION m.version < 2 then m else
  let m := m.set_frame_state (beVal (p.take 4))
  if TMETA_GET_MINOR_VERSION m.version < 3 then m else
  let m := m.set_fpa_temp (hostVal le ((p.drop 4).take 8))
  let m := m.set_housing_temp (hostVal le ((p.drop 12).take 8))
  let m := m.set_window_reflection (hostVal le ((p.drop 20).take 8))
  if TMETA_GET_MINOR_VERSION m.version < 4 then m else
  m.set_thermal_to_visible_quat
    (arrVals le 4 4 ((p.drop 28).take 16) ++ m.thermal_to_visible_quat.drop 4)

/-- The `n` big-endian unsigned integers of `w` bytes each that start `bs`. -/
def beVals (w : Nat) : Nat → List Byte → List Nat
  | 0, _ => []
  | n + 1, bs => beVal (bs.take w) :: beVals w n (bs.drop w)

/-- The record after lines 197 to 244 of `deserialize_thermal_metadata`, run
from the pointer `p` (the version 0.1 header). -/
def headerRec (le : Bool) (p : List Byte) (m : tmeta_data) : tmeta_data :=
  let m := m.set_gain_mode (beVal (p.take 4))
  let m := m.set_calib_r (hostVal le ((p.drop 4).take 8))
  let m := m.set_calib_b (hostVal le ((p.drop 12).take 8))
  let m := m.set_calib_f (hostVal le ((p.drop 20).take 8))
  let m := m.set_calib_o (hostVal le ((p.drop 28).take 8))
  let m := m.set_calib_tau_win (hostVal le ((p.drop 36).take 8))
  let m := m.set_calib_t_win (hostVal le ((p.drop 44).take 8))
  let m := m.set_calib_t_bg (hostVal le ((p.drop 52).take 8))
  let m := m.set_calib_emissivity (hostVal le ((p.drop 60).take 8))
  let m := m.set_jpeg_data_size (beVal ((p.drop 68).take 4))
  let m := m.set_value_min (beVal ((p.drop 72).take 4))
  let m := m.set_value_max (beVal ((p.drop 76).take 4))
  let m := m.set_attitude_reference_quat
    (arrVals le 4 4 ((p.drop 80).take 16) ++ m.attitude_reference_quat.drop 4)
  m.set_cam_angles_count (beVal ((p.drop 96).take 4))

/-- The version field of a buffer: its bytes 16 to 19, big-endian. -/
def versionField (buf : List Byte) : Nat := beVal ((buf.drop 16).take 4)

/-- The blob length field of a buffer: its bytes 88 to 91, big-endian. -/
def jpegSizeField (buf : List Byte) : Nat := beVal ((buf.drop 88).take 4)

/-- The camera angles count field of a buffer: its bytes 116 to 119,
big-endian. -/
def countField (buf : List Byte) : Nat := beVal ((buf.drop 116).take 4)

/-- The identity tag: the UUID a4897b82-4415-4171-b46a-bc8cd524c77e. -/
def sei_uuid_bytes : List Byte :=
  [0xa4, 0x89, 0x7b, 0x82, 0x44, 0x15, 0x41, 0x71,
   0xb4, 0x6a, 0xbc, 0x8c, 0xd5, 0x24, 0xc7, 0x7e]

/-- Number of bytes the decoder needs to accept a buffer, as a function of the
buffer's version, count and blob length fields. -/
def neededSize (buf : List Byte) : Nat :=
  120 + 24 * countField buf + jpegSizeField buf +
    tailSize (TMETA_GET_MINOR_VERSION (versionField buf))

/-- The record after a successful `deserialize_thermal_metadata` of `buf` into
a record that held `m0`. -/
def decoded (le : Bool) (buf : List Byte) (m0 : tmeta_data) : tmeta_data :=
  let m := m0.set_version (versionField buf)
  let m := headerRec le (buf.drop 20) m
  let p := buf.drop 120
  let m := (m.set_cam_angles (arrVals le 4 (4 * m.cam_angles_count)
      (p.take (16 * m.cam_angles_count)) ++ m.cam_angles.drop (4 * m.cam_angles_count))
    ).set_cam_angles_timestamps
      (beVals 8 m.cam_angles_count (p.drop (16 * m.cam_angles_count)) ++
        m.cam_angles_timestamps.drop m.cam_angles_count)
  let p := p.drop (24 * m.cam_angles_count)
  let m := m.set_jpeg_data p
  tailRec le (p.drop m.jpeg_data_size) m

/-- The buffer starts with the identity tag and holds a version field. -/
def isTmeta (buf : List Byte) : Prop := 20 ≤ buf.length ∧ buf.take 16 = sei_uuid_bytes

instance (buf : List Byte) : Decidable (isTmeta buf) := by
  unfold isTmeta; infer_instance

/-- The record obtained by decoding the wire image of `r`, followed by the
bytes `x`, into a record that held `m0`. -/
def reread (le : Bool) (r m0 : tmeta_data) (x : List Byte) : tmeta_data :=
  { version := 4
    gain_mode := r.gain_mode
    calib_r := r.calib_r
    calib_b := r.calib_b
    calib_f := r.calib_f
    calib_o := r.calib_o
    calib_tau_win := r.calib_tau_win
    calib_t_win := r.calib_t_win
    calib_t_bg := r.calib_t_bg
    calib_emissivity := r.calib_emissivity
    jpeg_data_size := r.jpeg_data_size
    value_min := r.value_min
    value_max := r.value_max
    attitude_reference_quat := r.attitude_reference_quat
    cam_angles_count := r.cam_angles_count
    cam_angles := r.cam_angles.take (4 * r.cam_angles_count) ++
      m0.cam_angles.drop (4 * r.cam_angles_count)
    cam_angles_timestamps := r.cam_angles_timestamps.take r.cam_angles_count ++
      m0.cam_angles_timestamps.drop r.cam_angles_count
    jpeg_data := r.jpeg_data.take r.jpeg_data_size ++ (wireTail le r ++ x)
    frame_state := r.frame_state
    fpa_temp := r.fpa_temp
    housing_temp := r.housing_temp
    window_reflection := r.window_reflection
    thermal_to_visible_quat := r.thermal_to_visible_quat }

/-- The record `decoded le buf m0` written out field by field: what a
successful decode leaves in each field, from the bytes of `buf` and from the
record `m0` the output held before. -/
def decodedFields (le : Bool) (buf : List Byte) (m0 : tmeta_data) : tmeta_data :=
  { version := versionField buf
    gain_mode := beVal ((buf.drop 20).take 4)
    calib_r := hostVal le ((buf.drop 24).take 8)
    calib_b := hostVal le ((buf.drop 32).take 8)
    calib_f := hostVal le ((buf.drop 40).take 8)
    calib_o := hostVal le ((buf.drop 48).take 8)
    calib_tau_win := hostVal le ((buf.drop 56).take 8)
    calib_t_win := hostVal le ((buf.drop 64).take 8)
    calib_t_bg := hostVal le ((buf.drop 72).take 8)
    calib_emissivity := hostVal le ((buf.drop 80).take 8)
    jpeg_data_size := jpegSizeField buf
    value_min := beVal ((buf.drop 92).take 4)
    value_max := beVal ((buf.drop 96).take 4)
    attitude_reference_quat :=
      arrVals le 4 4 ((buf.drop 100).take 16) ++ m0.attitude_reference_quat.drop 4
    cam_angles_count := countField buf
    cam_angles :=
      arrVals le 4 (4 * countField buf) ((buf.drop 120).take (16 * countField buf)) ++
        m0.cam_angles.drop (4 * countField buf)
    cam_angles_timestamps :=
      beVals 8 (countField buf) (buf.drop (120 + 16 * countField buf)) ++
        m0.cam_angles_timestamps.drop (countField buf)
    jpeg_data := buf.drop (120 + 24 * countField buf)
    frame_state :=
      if TMETA_GET_MINOR_VERSION (versionField buf) < 2 then m0.frame_state
      else beVal ((buf.drop (120 + 24 * countField buf + jpegSizeField buf)).take 4)
    fpa_temp :=
      if TMETA_GET_MINOR_VERSION (versionField buf) < 3 then m0.fpa_temp
      else hostVal le ((buf.drop (120 + 24 * countField buf + jpegSizeField buf + 4)).take 8)
    housing_temp :=
      if TMETA_GET_MINOR_VERSION (versionField buf) < 3 then m0.housing_temp
      else hostVal le ((buf.drop (120 + 24 * countField buf + jpegSizeField buf + 12)).take 8)
    window_reflection :=
      if TMETA_GET_MINOR_VERSION (versionField buf) < 3 then m0.window_reflection
      else hostVal le ((buf.drop (120 + 24 * countField buf + jpegSizeField buf + 20)).take 8)
    thermal_to_visible_quat :=
      if TMETA_GET_MINOR_VERSION (versionField buf) < 4 then m0.thermal_to_visible_quat
      else arrVals le 4 4
          ((buf.drop (120 + 24 * countField buf + jpegSizeField buf + 28)).take 16) ++
        m0.thermal_to_visible_quat.drop 4 }

/-- A run of decoder code that, when it returns, returns 0 or -1. -/
def ReturnsZeroOrMinusOne (x : Res (Int × tmeta_data)) : Prop :=
  ∀ c m, x = .ok (c, m) → c = 0 ∨ c = -1

/-- A sample record: two camera angles and a three-byte blob. -/
def sampleRecord : tmeta_data :=
  { version := 7
    gain_mode := 1
    calib_r := 0x3ff0000000000000
    calib_b := 2
    calib_f := 3
    calib_o := 4
    calib_tau_win := 5
    calib_t_win := 6
    calib_t_bg := 7
    calib_emissivity := 8
    jpeg_data_size := 3
    value_min := 10
    value_max := 0xdeadbeef
    attitude_reference_quat := [1, 2, 3, 0x3f800000]
    cam_angles_count := 2
    cam_angles := [11, 12, 13, 14, 15, 16, 17, 18] ++ List.replicate 192 0
    cam_angles_timestamps := [0x0102030405060708, 99] ++ List.replicate 48 0
    jpeg_data := [0xff, 0xd8, 0xff]
    frame_state := 2
    fpa_temp := 21
    housing_temp := 22
    window_reflection := 23
    thermal_to_visible_quat := [31, 32, 33, 34] }

/-- A sample output record: every field holds a value that no encoding in the
examples carries. -/
def staleRecord : tmeta_data :=
  { version := 0x99
    gain_mode := 0x99
    calib_r := 0x99
    calib_b := 0x99
    calib_f := 0x99
    calib_o := 0x99
    calib_tau_win := 0x99
    calib_t_win := 0x99
    calib_t_bg := 0x99
    calib_emissivity := 0x99
    jpeg_data_size := 0x99
    value_min := 0x99
    value_max := 0x99
    attitude_reference_quat := List.replicate 4 0x99
    cam_angles_count := 0
    cam_angles := List.replicate 200 0x99
    cam_angles_timestamps := List.replicate 50 0x99
    jpeg_data := []
    frame_state := 0x99
    fpa_temp := 0x99
    housing_temp := 0x99
    window_reflection := 0x99
    thermal_to_visible_quat := List.replicate 4 0x99 }

/-- A buffer of 1344 bytes: identity tag, version 0.1, a zeroed header whose
count field is 51, then 51 * 24 zero bytes. -/
def count51Buffer : List Byte :=
  sei_uuid_bytes ++ [0, 0, 0, 1] ++ List.replicate 96 0 ++ [0, 0, 0, 51] ++
    List.replicate 1224 0

/-- A buffer of 120 bytes: identity tag, version 0.4 and a zeroed header whose
count field is 0x20000000. -/
def countWrapBuffer : List Byte :=
  sei_uuid_bytes ++ [0, 0, 0, 4] ++ List.replicate 96 0 ++ [0x20, 0, 0, 0]

/-- A buffer of 120 bytes: identity tag, version 0.1 and a zeroed header (no
camera angle, empty blob). -/
def v01Buffer : List Byte := sei_uuid_bytes ++ [0, 0, 0, 1] ++ List.replicate 100 0

/-- The buffer `buf` with its version field, bytes 16 to 19, replaced by
version 0.4. -/
def withVersion04 (buf : List Byte) : List Byte := buf.take 16 ++ [0, 0, 0, 4] ++ buf.drop 20

/-- The JSON object `tmeta_json_object_new_quaternion` builds from the four
floats at index `k` to `k + 3` of `q`. -/
def quaternionObject (q : List Nat) (k : Nat) : json_object :=
  .object [("x", .double (.ofFloat (q.getD k 0))), ("y", .double (.ofFloat (q.getD (k + 1) 0))),
    ("z", .double (.ofFloat (q.getD (k + 2) 0))), ("w", .double (.ofFloat (q.getD (k + 3) 0)))]

/-- A record whose timestamp 0 is `2 ^ 63` and whose count is 1. -/
def bigTimestampRecord : tmeta_data :=
  (sampleRecord.set_cam_angles_count 1).set_cam_angles_timestamps
    ([2 ^ 63] ++ List.replicate 49 0)

/-! ## Lemmas -/

@[simp] theorem Res.ok_bind {α β : Type} (a : α) (f : α → Res β) : (Res.ok a).bind f = f a := rfl
@[simp] theorem Res.overread_bind {α β : Type} (f : α → Res β) : (Res.overread : Res α).bind f = .overread := rfl
@[simp] theorem Res.overflow_bind {α β : Type} (f : α → Res β) : (Res.overflow : Res α).bind f = .overflow := rfl
@[simp] theorem Res.bind_eq {α β : Type} (x : Res α) (f : α → Res β) : (x >>= f) = x.bind f := rfl
@[simp] theorem Res.pure_eq {α : Type} (a : α) : (pure a : Res α) = .ok a := rfl

@[simp] theorem leBytes_length (w v : Nat) : (leBytes w v).length = w := by
  induction w generalizing v with
  | zero => rfl
  | succ w ih => simp [leBytes, ih]

theorem leVal_lt (bs : List Byte) : leVal bs < 256 ^ bs.length := by
  induction bs with
  | nil => simp [leVal]
  | cons b bs ih =>
    have hb := b.isLt
    simp only [leVal, List.length_cons, pow_succ]
    omega

theorem leVal_leBytes (w v : Nat) : leVal (leBytes w v) = v % 256 ^ w := by
  induction w generalizing v with
  | zero => simp [leBytes, leVal, Nat.mod_one]
  | succ w ih =>
    simp only [leBytes, leVal, ih, pow_succ]
    rw [Nat.mul_comm (256 ^ w) 256, Nat.mod_mul]

theorem leBytes_leVal (bs : List Byte) : leBytes bs.length (leVal bs) = bs := by
  induction bs with
  | nil => rfl
  | cons b bs ih =>
    have hb := b.isLt
    simp only [List.length_cons, leBytes, leVal]
    congr 1
    · apply Fin.ext; simp only; omega
    · have : (b.val + 256 * leVal bs) / 256 = leVal bs := by omega
      rw [this, ih]

theorem leBytes_mod (w v : Nat) : leBytes w (v % 256 ^ w) = leBytes w v := by
  have h := leBytes_leVal (leBytes w v)
  rw [leBytes_length, leVal_leBytes] at h
  exact h

@[simp] theorem beBytes_length (w v : Nat) : (beBytes w v).length = w := by
  simp [beBytes]

@[simp] theorem hostBytes_length (le : Bool) (w v : Nat) : (hostBytes le w v).length = w := by
  cases le <;> simp [hostBytes]

theorem beVal_beBytes (w v : Nat) : beVal (beBytes w v) = v % 256 ^ w := by
  simp [beVal, beBytes, leVal_leBytes]

theorem beBytes_beVal (bs : List Byte) : beBytes bs.length (beVal bs) = bs := by
  have h := leBytes_leVal bs.reverse
  rw [List.length_reverse] at h
  simp [beBytes, beVal, h]

theorem beVal_lt (bs : List Byte) : beVal bs < 256 ^ bs.length := by
  have h := leVal_lt bs.reverse
  rwa [List.length_reverse] at h

theorem hostVal_lt (le : Bool) (bs : List Byte) : hostVal le bs < 256 ^ bs.length := by
  cases le
  · exact beVal_lt bs
  · exact leVal_lt bs

theorem hostVal_hostBytes (le : Bool) (w v : Nat) :
    hostVal le (hostBytes le w v) = v % 256 ^ w := by
  cases le
  · exact beVal_beBytes w v
  · exact leVal_leBytes w v

theorem hostBytes_hostVal (le : Bool) (bs : List Byte) :
    hostBytes le bs.length (hostVal le bs) = bs := by
  cases le
  · exact beBytes_beVal bs
  · exact leBytes_leVal bs

theorem bswap32_lt (x : Nat) : bswap32 x < 2 ^ 32 := by
  have h := leVal_lt (leBytes 4 x).reverse
  simpa [bswap32] using h

theorem leBytes_bswap32 (x : Nat) : leBytes 4 (bswap32 x) = beBytes 4 x := by
  have h := leBytes_leVal (leBytes 4 x).reverse
  simpa [bswap32, beBytes] using h

theorem bswap32_leVal (bs : List Byte) (h : bs.length = 4) :
    bswap32 (leVal bs) = beVal bs := by
  have h2 := leBytes_leVal bs
  rw [h] at h2
  simp [bswap32, beVal, h2]

/-- What `htonl` leaves in memory is the big-endian form of its argument. -/
theorem hostBytes_htonl (le : Bool) (x : Nat) :
    hostBytes le 4 (htonl le x) = beBytes 4 x := by
  have hm : beBytes 4 (x % 2 ^ 32) = beBytes 4 x := by
    have := leBytes_mod 4 x
    simp only [beBytes]
    exact congrArg List.reverse this
  cases le
  · simpa [hostBytes, htonl] using hm
  · simp only [hostBytes, htonl, if_true, leBytes_bswap32]
    exact hm

/-- What `ntohl` makes of a word in memory is its big-endian value. -/
theorem ntohl_hostVal (le : Bool) (bs : List Byte) (h : bs.length = 4) :
    ntohl le (hostVal le bs) = beVal bs := by
  have e : (256 : Nat) ^ 4 = 2 ^ 32 := by norm_num
  cases le
  · have := beVal_lt bs
    rw [h, e] at this
    simp only [ntohl, hostVal, Bool.false_eq_true, if_false]
    exact Nat.mod_eq_of_lt this
  · have := leVal_lt bs
    rw [h, e] at this
    simp only [ntohl, hostVal, if_true]
    rw [Nat.mod_eq_of_lt this]
    exact bswap32_leVal bs h

theorem leVal_append (a b : List Byte) :
    leVal (a ++ b) = leVal a + 256 ^ a.length * leVal b := by
  induction a with
  | nil => simp [leVal]
  | cons x a ih =>
    rw [List.cons_append]
    simp only [leVal, List.length_cons, pow_succ]
    rw [ih]
    ring

theorem leBytes_add (w1 w2 v : Nat) :
    leBytes (w1 + w2) v = leBytes w1 v ++ leBytes w2 (v / 256 ^ w1) := by
  induction w1 generalizing v with
  | zero => simp [leBytes]
  | succ w ih =>
    have e : w + 1 + w2 = (w + w2) + 1 := by omega
    rw [e]
    simp only [leBytes, ih, List.cons_append, pow_succ]
    rw [Nat.div_div_eq_div_mul, Nat.mul_comm 256]

/-- The macro `bswapll` reverses the eight bytes of its argument. -/
theorem bswapll_eq (y : Nat) (hy : y < 2 ^ 64) :
    bswapll y = leVal (leBytes 8 y).reverse := by
  have h8 : leBytes 8 y = leBytes 4 y ++ leBytes 4 (y / 256 ^ 4) := leBytes_add 4 4 y
  rw [h8, List.reverse_append, leVal_append]
  have hlo : bswap32 (y % 2 ^ 32) = leVal (leBytes 4 y).reverse := by
    have := leBytes_mod 4 y
    have e : (256 : Nat) ^ 4 = 2 ^ 32 := by norm_num
    rw [e] at this
    unfold bswap32
    rw [this]
  have hhi := bswap32_lt (y / 2 ^ 32)
  have hlo2 := bswap32_lt (y % 2 ^ 32)
  have hd : y / 2 ^ 32 < 2 ^ 32 := by omega
  simp only [bswapll, ntohl, if_true, Nat.shiftRight_eq_div_pow, Nat.shiftLeft_eq, Nat.mod_mod]
  rw [Nat.mod_eq_of_lt hd, Nat.mul_comm, ← Nat.mul_add_lt_is_or hhi, hlo]
  have e2 : (256 : Nat) ^ 4 = 2 ^ 32 := by norm_num
  simp only [List.length_reverse, leBytes_length, e2]
  have : bswap32 (y / 2 ^ 32) = leVal (leBytes 4 (y / 2 ^ 32)).reverse := rfl
  rw [← this, ← hlo]
  have : 2 ^ 32 * bswap32 (y % 2 ^ 32) + bswap32 (y / 2 ^ 32) < 2 ^ 64 := by omega
  rw [Nat.mod_eq_of_lt this]
  omega

theorem bswapll_lt (y : Nat) : bswapll y < 2 ^ 64 := by
  unfold bswapll
  exact Nat.mod_lt _ (by norm_num)

/-- What `htonll` leaves in memory is the big-endian form of its argument. -/
theorem hostBytes_htonll (le : Bool) (y : Nat) :
    hostBytes le 8 (htonll le y) = beBytes 8 y := by
  have e : (256 : Nat) ^ 8 = 2 ^ 64 := by norm_num
  have hm : beBytes 8 (y % 2 ^ 64) = beBytes 8 y := by
    have := leBytes_mod 8 y
    rw [e] at this
    simp only [beBytes]
    exact congrArg List.reverse this
  cases le
  · simpa [hostBytes, htonll] using hm
  · simp only [hostBytes, htonll, if_true]
    rw [bswapll_eq _ (Nat.mod_lt _ (by norm_num))]
    have h := leBytes_leVal (leBytes 8 (y % 2 ^ 64)).reverse
    rw [List.length_reverse, leBytes_length] at h
    rw [h]
    exact hm

/-- What `ntohll` makes of a double word in memory is its big-endian value. -/
theorem ntohll_hostVal (le : Bool) (bs : List Byte) (h : bs.length = 8) :
    ntohll le (hostVal le bs) = beVal bs := by
  have e : (256 : Nat) ^ 8 = 2 ^ 64 := by norm_num
  cases le
  · have := beVal_lt bs
    rw [h, e] at this
    simp only [ntohll, hostVal, Bool.false_eq_true, if_false]
    exact Nat.mod_eq_of_lt this
  · have := leVal_lt bs
    rw [h, e] at this
    simp only [ntohll, hostVal, if_true]
    rw [Nat.mod_eq_of_lt this, bswapll_eq _ this]
    have h2 := leBytes_leVal bs
    rw [h] at h2
    rw [h2, beVal]

theorem beBytes_mod32 (x : Nat) : beBytes 4 (x % 2 ^ 32) = beBytes 4 x := by
  have := hostBytes_htonl false x
  simpa [hostBytes, htonl] using this

theorem beBytes_toUInt (x : Nat) : beBytes 4 (toUInt x) = beBytes 4 x := by
  rw [toUInt, beBytes_mod32]

/-- Two consecutive stores are one store of the concatenation. -/
theorem store_bind_store (a b : List Byte) (c : Cursor) :
    (store a c).bind (fun c1 => store b c1) = store (a ++ b) c := by
  unfold store
  by_cases h1 : a.length ≤ c.rest.length
  · by_cases h2 : a.length + b.length ≤ c.rest.length
    · have h3 : b.length ≤ c.rest.length - a.length := by omega
      simp [h1, h2, h3, List.drop_drop, Nat.add_comm]
    · have h3 : ¬ b.length ≤ c.rest.length - a.length := by omega
      simp [h1, h2, h3]
  · have h2 : ¬ a.length + b.length ≤ c.rest.length := by omega
    simp [h1, h2]

@[simp] theorem arrBytes_length (le : Bool) (w : Nat) (vs : List Nat) :
    (arrBytes le w vs).length = w * vs.length := by
  induction vs with
  | nil => rfl
  | cons v vs ih => simp [arrBytes, ih]; ring

@[simp] theorem beArr_length (w : Nat) (vs : List Nat) :
    (beArr w vs).length = w * vs.length := by
  induction vs with
  | nil => rfl
  | cons v vs ih => simp [beArr, ih]; ring

theorem serialize_timestamps_eq (le : Bool) (ts : List Nat) (n i : Nat) (c : Cursor)
    (h : i + n ≤ ts.length) :
    serialize_timestamps le ts n i c = store (beArr 8 ((ts.drop i).take n)) c := by
  induction n generalizing i c with
  | zero => simp [serialize_timestamps, beArr, store]
  | succ n ih =>
    have hi : i < ts.length := by omega
    have hd : ts.drop i = ts[i] :: ts.drop (i + 1) := List.drop_eq_getElem_cons hi
    simp only [serialize_timestamps, List.getElem?_eq_getElem hi, store64, hostBytes_htonll]
    rw [hd, List.take_succ_cons, beArr, ← store_bind_store]
    congr 1
    funext c1
    exact ih (i + 1) c1 (by omega)

theorem serialize_timestamps_zero (le : Bool) (ts : List Nat) (n : Nat)
    (h : n ≤ ts.length) :
    serialize_timestamps le ts n 0 = store (beArr 8 (ts.take n)) := by
  funext c
  rw [serialize_timestamps_eq le ts n 0 c (by omega), List.drop_zero]

/-- The encoder is a single store of the wire image of the record. -/
theorem serialize_eq_store (le : Bool) (m : tmeta_data) (buf : List Byte)
    (hq : 4 ≤ m.attitude_reference_quat.length)
    (ha : m.cam_angles_count * 4 ≤ m.cam_angles.length)
    (ht : m.cam_angles_count ≤ m.cam_angles_timestamps.length)
    (hj : m.jpeg_data_size ≤ m.jpeg_data.length)
    (hv : 4 ≤ m.thermal_to_visible_quat.length) :
    serialize_thermal_metadata le m buf = store (wire le m) { done := [], rest := buf } := by
  simp only [serialize_thermal_metadata, Res.bind_eq, store32, store64, storeFloats, storeBytes,
    if_pos hq, if_pos ha, if_pos hj, if_pos hv, hostBytes_htonl, beBytes_toUInt,
    serialize_timestamps_zero le _ _ ht, store_bind_store]
  simp only [wire, wireHeader, wireTail, List.append_assoc]

/-- The decoder is its lines 174 to 195 followed by the rest of its body. -/
theorem deserialize_thermal_metadata_eq (le : Bool) (buf : List Byte) (m : tmeta_data) :
    deserialize_thermal_metadata le buf m =
    (let pb_buf := buf
  let _buf_size : Int := toSsize buf.length
  if _buf_size < ((TMETA_SEI_UUID_SIZE + TMETA_VERSION_SIZE : Nat) : Int) then
    .ok (-1, m)
  else
  let pb_buf := pb_buf.drop TMETA_SEI_UUID_SIZE
  let _buf_size := _buf_size - TMETA_SEI_UUID_SIZE
  (load32 le pb_buf).bind fun (v : Nat) =>
  let m := m.set_version (ntohl le v)
  let pb_buf := pb_buf.drop 4
  let _buf_size := _buf_size - 4
  if TMETA_GET_MAJOR_VERSION m.version > TMETA_MAJOR_VERSION then .ok (-1, m) else
  if _buf_size < (TMETA_V0_1_HEADER_SIZE : Int) then .ok (-1, m) else
  deserialize_from_header le pb_buf _buf_size m) := rfl

theorem load_ok (k : Nat) (p : List Byte) (h : k ≤ p.length) : load k p = .ok (p.take k) := by
  simp [load, h]

theorem load32_ok (le : Bool) (p : List Byte) (h : 4 ≤ p.length) :
    load32 le p = .ok (hostVal le (p.take 4)) := by
  simp [load32, load_ok 4 p h]

theorem load64_ok (le : Bool) (p : List Byte) (h : 8 ≤ p.length) :
    load64 le p = .ok (hostVal le (p.take 8)) := by
  simp [load64, load_ok 8 p h]

theorem ntohl_take (le : Bool) (p : List Byte) (h : 4 ≤ p.length) :
    ntohl le (hostVal le (p.take 4)) = beVal (p.take 4) :=
  ntohl_hostVal le _ (by simp [h])

theorem ntohll_take (le : Bool) (p : List Byte) (h : 8 ≤ p.length) :
    ntohll le (hostVal le (p.take 8)) = beVal (p.take 8) :=
  ntohll_hostVal le _ (by simp [h])

theorem memcpyFloats_ok (le : Bool) (dst : List Nat) (p : List Byte) (n : Nat)
    (hp : 4 * n ≤ p.length) (hd : n ≤ dst.length) :
    memcpyFloats le dst p (4 * n) = .ok (arrVals le 4 n (p.take (4 * n)) ++ dst.drop n) := by
  have : 4 * n ≤ 4 * dst.length := by omega
  simp [memcpyFloats, load_ok _ p hp, this]

theorem tail_ok (le : Bool) (p : List Byte) (sz : Int) (m : tmeta_data)
    (hsz : sz = p.length) (hq : 4 ≤ m.thermal_to_visible_quat.length)
    (hlen : tailSize (TMETA_GET_MINOR_VERSION m.version) ≤ p.length) :
    deserialize_from_v0_2 le p sz m = .ok (0, tailRec le p m) := by
  subst hsz
  unfold deserialize_from_v0_2 tailRec
  by_cases h2 : TMETA_GET_MINOR_VERSION m.version < 2
  · simp [h2]
  by_cases h3 : TMETA_GET_MINOR_VERSION m.version < 3
  · have hl : 4 ≤ p.length := by simpa [tailSize, h2, h3] using hlen
    have hl2 : ¬ ((p.length : Int) < 4) := by omega
    simp [h2, h3, hl2, tmeta_data.set_frame_state, TMETA_V0_2_DATA_SIZE, load32_ok le p hl,
      ntohl_take le p hl]
  have e1 : (4 : Int) = ((4 : Nat) : Int) := rfl
  by_cases h4 : TMETA_GET_MINOR_VERSION m.version < 4
  · have hl : 28 ≤ p.length := by simpa [tailSize, h2, h3, h4] using hlen
    have hl2 : ¬ ((p.length : Int) < 4) := by omega
    have hl3 : ¬ ((p.length : Int) - 4 < 24) := by omega
    have a1 : 4 ≤ p.length := by omega
    have a2 : 8 ≤ (p.drop 4).length := by simp; omega
    have a3 : 8 ≤ (p.drop 12).length := by simp; omega
    have a4 : 8 ≤ (p.drop 20).length := by simp; omega
    simp [h2, h3, h4, hl2, hl3, tmeta_data.set_frame_state, tmeta_data.set_fpa_temp,
      tmeta_data.set_housing_temp, tmeta_data.set_window_reflection,
      TMETA_V0_2_DATA_SIZE, TMETA_V0_3_DATA_SIZE, load32_ok le p a1,
      ntohl_take le p a1, load64_ok le _ a2, load64_ok le _ a3, load64_ok le _ a4]
  · have hl : 44 ≤ p.length := by simpa [tailSize, h2, h3, h4] using hlen
    have hl2 : ¬ ((p.length : Int) < 4) := by omega
    have hl3 : ¬ ((p.length : Int) - 4 < 24) := by omega
    have hl4 : ¬ ((p.length : Int) - 4 - 8 - 8 - 8 < 16) := by omega
    have a1 : 4 ≤ p.length := by omega
    have a2 : 8 ≤ (p.drop 4).length := by simp; omega
    have a3 : 8 ≤ (p.drop 12).length := by simp; omega
    have a4 : 8 ≤ (p.drop 20).length := by simp; omega
    have a5 : 4 * 4 ≤ (p.drop 28).length := by simp; omega
    have a6 := memcpyFloats_ok le m.thermal_to_visible_quat (p.drop 28) 4 a5 hq
    simp only [Nat.reduceMul] at a6
    simp [h2, h3, h4, hl2, hl3, hl4, tmeta_data.set_frame_state, tmeta_data.set_fpa_temp,
      tmeta_data.set_housing_temp, tmeta_data.set_window_reflection,
      tmeta_data.set_thermal_to_visible_quat,
      TMETA_V0_2_DATA_SIZE, TMETA_V0_3_DATA_SIZE, TMETA_V0_4_DATA_SIZE, load32_ok le p a1,
      ntohl_take le p a1, load64_ok le _ a2, load64_ok le _ a3, load64_ok le _ a4, a6]

theorem tail_fail (le : Bool) (p : List Byte) (sz : Int) (m : tmeta_data)
    (hsz : sz = p.length)
    (hlen : p.length < tailSize (TMETA_GET_MINOR_VERSION m.version)) :
    ∃ m1, deserialize_from_v0_2 le p sz m = .ok (-1, m1) := by
  subst hsz
  unfold deserialize_from_v0_2
  by_cases h2 : TMETA_GET_MINOR_VERSION m.version < 2
  · simp [tailSize, h2] at hlen
  by_cases hl1 : p.length < 4
  · have hl2 : (p.length : Int) < 4 := by omega
    simp [h2, hl2, TMETA_V0_2_DATA_SIZE]
  have hl2 : ¬ ((p.length : Int) < 4) := by omega
  have a1 : 4 ≤ p.length := by omega
  by_cases h3 : TMETA_GET_MINOR_VERSION m.version < 3
  · simp [tailSize, h2, h3] at hlen; omega
  by_cases hl3 : p.length < 28
  · have hl4 : (p.length : Int) - 4 < 24 := by omega
    simp [h2, h3, hl2, hl4, tmeta_data.set_frame_state, TMETA_V0_2_DATA_SIZE,
      TMETA_V0_3_DATA_SIZE, load32_ok le p a1]
  have hl4 : ¬ ((p.length : Int) - 4 < 24) := by omega
  have a2 : 8 ≤ (p.drop 4).length := by simp; omega
  have a3 : 8 ≤ (p.drop 12).length := by simp; omega
  have a4 : 8 ≤ (p.drop 20).length := by simp; omega
  by_cases h4 : TMETA_GET_MINOR_VERSION m.version < 4
  · simp [tailSize, h2, h3, h4] at hlen; omega
  have hl5 : (p.length : Int) - 4 - 8 - 8 - 8 < 16 := by
    simp [tailSize, h2, h3, h4] at hlen; omega
  simp [h2, h3, h4, hl2, hl4, hl5, tmeta_data.set_frame_state,
    tmeta_data.set_fpa_temp, tmeta_data.set_housing_temp, tmeta_data.set_window_reflection,
    TMETA_V0_2_DATA_SIZE, TMETA_V0_3_DATA_SIZE, TMETA_V0_4_DATA_SIZE, load32_ok le p a1,
    load64_ok le _ a2, load64_ok le _ a3, load64_ok le _ a4]

theorem jpeg_ok (le : Bool) (p : List Byte) (sz : Int) (m : tmeta_data)
    (hsz : sz = p.length) (h : m.jpeg_data_size ≤ p.length) :
    deserialize_from_jpeg le p sz m =
      deserialize_from_v0_2 le (p.drop m.jpeg_data_size)
        ((p.drop m.jpeg_data_size).length) (m.set_jpeg_data p) := by
  subst hsz
  have h1 : ¬ ((p.length : Int) < (m.jpeg_data_size : Int)) := by omega
  have h2 : ((p.drop m.jpeg_data_size).length : Int) = (p.length : Int) - m.jpeg_data_size := by
    rw [List.length_drop]; omega
  simp only [deserialize_from_jpeg, if_neg h1, h2]
  rfl

theorem jpeg_fail (le : Bool) (p : List Byte) (sz : Int) (m : tmeta_data)
    (hsz : sz = p.length) (h : p.length < m.jpeg_data_size) :
    deserialize_from_jpeg le p sz m = .ok (-1, m) := by
  subst hsz
  have h1 : (p.length : Int) < (m.jpeg_data_size : Int) := by omega
  simp only [deserialize_from_jpeg, if_pos h1]

theorem set_take_succ (ts : List Nat) (i v : Nat) (h : i < ts.length) :
    (ts.set i v).take (i + 1) = ts.take i ++ [v] := by
  rw [List.set_eq_take_append_cons_drop, if_pos h, List.take_append_eq_append_take]
  have : (ts.take i).length = i := by simp; omega
  simp [this]

theorem deserialize_timestamps_eq (le : Bool) (n i : Nat) (p : List Byte) (sz : Int)
    (ts : List Nat) (hp : 8 * n ≤ p.length) (hi : i + n ≤ ts.length) :
    deserialize_timestamps le n i p sz ts =
      .ok (p.drop (8 * n), sz - 8 * n, ts.take i ++ (beVals 8 n p ++ ts.drop (i + n))) := by
  induction n generalizing i p sz ts with
  | zero => simp [deserialize_timestamps, beVals]
  | succ n ih =>
    have h8 : 8 ≤ p.length := by omega
    have hlt : i < ts.length := by omega
    have hp2 : 8 * n ≤ (p.drop 8).length := by rw [List.length_drop]; omega
    have hi2 : i + 1 + n ≤ (ts.set i (beVal (p.take 8))).length := by
      rw [List.length_set]; omega
    simp only [deserialize_timestamps, load64_ok le p h8, Res.ok_bind, if_pos hlt,
      ntohll_take le p h8]
    rw [ih (i + 1) (p.drop 8) (sz - 8) _ hp2 hi2, set_take_succ _ _ _ hlt,
      List.drop_set_of_lt _ _ (by omega : i < i + 1 + n), List.drop_drop]
    have e1 : 8 + 8 * n = 8 * (n + 1) := by ring
    have e2 : i + 1 + n = i + (n + 1) := by ring
    have e3 : sz - 8 - 8 * (n : Int) = sz - 8 * ((n + 1 : Nat) : Int) := by push_cast; ring
    simp only [e1, e2, beVals, List.append_assoc, List.singleton_append]
    rw [e3]
    rfl

theorem cam_angles_fail (le : Bool) (p : List Byte) (sz : Int) (m : tmeta_data)
    (hsz : sz = p.length) (hN : m.cam_angles_count ≤ TMETA_CAMANGLES_MAXCOUNT)
    (h : p.length < 24 * m.cam_angles_count) :
    deserialize_from_cam_angles le p sz m = .ok (-1, m) := by
  subst hsz
  have hN2 : m.cam_angles_count ≤ 50 := hN
  have h1 : (p.length : Int) <
      ((toUInt (toUInt (4 * m.cam_angles_count * 4) + toUInt (m.cam_angles_count * 8)) : Nat) :
        Int) := by
    simp only [toUInt]; omega
  simp only [deserialize_from_cam_angles, if_pos h1]

theorem cam_angles_ok (le : Bool) (p : List Byte) (sz : Int) (m : tmeta_data)
    (hsz : sz = p.length) (hN : m.cam_angles_count ≤ TMETA_CAMANGLES_MAXCOUNT)
    (ha : 4 * m.cam_angles_count ≤ m.cam_angles.length)
    (ht : m.cam_angles_count ≤ m.cam_angles_timestamps.length)
    (h : 24 * m.cam_angles_count ≤ p.length) :
    deserialize_from_cam_angles le p sz m =
      deserialize_from_jpeg le (p.drop (24 * m.cam_angles_count))
        ((p.drop (24 * m.cam_angles_count)).length)
        ((m.set_cam_angles (arrVals le 4 (4 * m.cam_angles_count)
            (p.take (16 * m.cam_angles_count)) ++ m.cam_angles.drop (4 * m.cam_angles_count))
          ).set_cam_angles_timestamps
          (beVals 8 m.cam_angles_count (p.drop (16 * m.cam_angles_count)) ++
            m.cam_angles_timestamps.drop m.cam_angles_count)) := by
  subst hsz
  have hN2 : m.cam_angles_count ≤ 50 := hN
  have h1 : ¬ ((p.length : Int) <
      ((toUInt (toUInt (4 * m.cam_angles_count * 4) + toUInt (m.cam_angles_count * 8)) : Nat) :
        Int)) := by
    simp only [toUInt]; omega
  have e1 : toUInt (4 * m.cam_angles_count * 4) = 4 * (4 * m.cam_angles_count) := by
    simp only [toUInt]; omega
  have hm := memcpyFloats_ok le m.cam_angles p (4 * m.cam_angles_count) (by omega) ha
  have e2 : 4 * (4 * m.cam_angles_count) = 16 * m.cam_angles_count := by ring
  have hl := deserialize_timestamps_eq le m.cam_angles_count 0
    (p.drop (16 * m.cam_angles_count)) ((p.length : Int) - ((16 * m.cam_angles_count : Nat) : Int))
    m.cam_angles_timestamps (by rw [List.length_drop]; omega) (by omega)
  have e3 : ((p.drop (24 * m.cam_angles_count)).length : Int) =
      (p.length : Int) - ((16 * m.cam_angles_count : Nat) : Int) - 8 * (m.cam_angles_count : Int) := by
    rw [List.length_drop]; omega
  have e4 : 16 * m.cam_angles_count + 8 * m.cam_angles_count = 24 * m.cam_angles_count := by ring
  simp only [deserialize_from_cam_angles, if_neg h1]
  simp only [e1, hm, Res.ok_bind]
  simp only [e2, tmeta_data.set_cam_angles, hl, Res.ok_bind, List.drop_drop, e4, e3,
    List.take_zero, List.nil_append, Nat.zero_add]

theorem header_ok (le : Bool) (p : List Byte) (sz : Int) (m : tmeta_data)
    (hsz : sz = p.length) (hq : 4 ≤ m.attitude_reference_quat.length)
    (h : 100 ≤ p.length) :
    deserialize_from_header le p sz m =
      deserialize_from_cam_angles le (p.drop 100) ((p.drop 100).length) (headerRec le p m) := by
  subst hsz
  have a0 : 4 ≤ p.length := by omega
  have a4 : 8 ≤ (p.drop 4).length := by rw [List.length_drop]; omega
  have a12 : 8 ≤ (p.drop 12).length := by rw [List.length_drop]; omega
  have a20 : 8 ≤ (p.drop 20).length := by rw [List.length_drop]; omega
  have a28 : 8 ≤ (p.drop 28).length := by rw [List.length_drop]; omega
  have a36 : 8 ≤ (p.drop 36).length := by rw [List.length_drop]; omega
  have a44 : 8 ≤ (p.drop 44).length := by rw [List.length_drop]; omega
  have a52 : 8 ≤ (p.drop 52).length := by rw [List.length_drop]; omega
  have a60 : 8 ≤ (p.drop 60).length := by rw [List.length_drop]; omega
  have a68 : 4 ≤ (p.drop 68).length := by rw [List.length_drop]; omega
  have a72 : 4 ≤ (p.drop 72).length := by rw [List.length_drop]; omega
  have a76 : 4 ≤ (p.drop 76).length := by rw [List.length_drop]; omega
  have a96 : 4 ≤ (p.drop 96).length := by rw [List.length_drop]; omega
  have a80 : 4 * 4 ≤ (p.drop 80).length := by rw [List.length_drop]; omega
  have hm := memcpyFloats_ok le m.attitude_reference_quat (p.drop 80) 4 a80 hq
  simp only [Nat.reduceMul] at hm
  have e : ((p.drop 100).length : Int) =
      (p.length : Int) - 4 - 8 - 8 - 8 - 8 - 8 - 8 - 8 - 8 - 4 - 4 - 4 - 4 * 4 - 4 := by
    rw [List.length_drop]; omega
  simp only [deserialize_from_header, headerRec, load32_ok le p a0, ntohl_take le p a0,
    Res.ok_bind, List.drop_drop, Nat.reduceAdd, Nat.reduceMul, load64_ok le _ a4, load64_ok le _ a12, load64_ok le _ a20, load64_ok le _ a28, load64_ok le _ a36, load64_ok le _ a44, load64_ok le _ a52, load64_ok le _ a60, load32_ok le _ a68, ntohl_take le _ a68, load32_ok le _ a72, ntohl_take le _ a72, load32_ok le _ a76, ntohl_take le _ a76, load32_ok le _ a96, ntohl_take le _ a96]
  simp only [tmeta_data.set_gain_mode, tmeta_data.set_calib_r, tmeta_data.set_calib_b,
    tmeta_data.set_calib_f, tmeta_data.set_calib_o, tmeta_data.set_calib_tau_win,
    tmeta_data.set_calib_t_win, tmeta_data.set_calib_t_bg, tmeta_data.set_calib_emissivity,
    tmeta_data.set_jpeg_data_size, tmeta_data.set_value_min, tmeta_data.set_value_max, hm,
    Res.ok_bind, tmeta_data.set_attitude_reference_quat, e]

theorem toSsize_of_lt (n : Nat) (h : n < 2 ^ 63) : toSsize n = (n : Int) := by
  have h1 : n % 2 ^ 64 = n := Nat.mod_eq_of_lt (by omega)
  simp only [toSsize, h1, if_pos h]

theorem minor_eq (v : Nat) : TMETA_GET_MINOR_VERSION v = v % 2 ^ 16 := by
  have := Nat.and_pow_two_sub_one_eq_mod v 16
  simpa [TMETA_GET_MINOR_VERSION] using this

theorem major_eq (v : Nat) : TMETA_GET_MAJOR_VERSION v = v / 2 ^ 16 % 2 ^ 16 := by
  have := Nat.and_pow_two_sub_one_eq_mod (v >>> 16) 16
  rw [Nat.shiftRight_eq_div_pow] at this
  simpa [TMETA_GET_MAJOR_VERSION, Nat.shiftRight_eq_div_pow] using this

theorem headerRec_version (le : Bool) (p : List Byte) (m : tmeta_data) :
    (headerRec le p m).version = m.version := rfl

theorem headerRec_count (le : Bool) (p : List Byte) (m : tmeta_data) :
    (headerRec le p m).cam_angles_count = beVal ((p.drop 96).take 4) := rfl

theorem headerRec_jpeg_data_size (le : Bool) (p : List Byte) (m : tmeta_data) :
    (headerRec le p m).jpeg_data_size = beVal ((p.drop 68).take 4) := rfl

theorem headerRec_cam_angles (le : Bool) (p : List Byte) (m : tmeta_data) :
    (headerRec le p m).cam_angles = m.cam_angles := rfl

theorem headerRec_cam_angles_timestamps (le : Bool) (p : List Byte) (m : tmeta_data) :
    (headerRec le p m).cam_angles_timestamps = m.cam_angles_timestamps := rfl

theorem headerRec_thermal_to_visible_quat (le : Bool) (p : List Byte) (m : tmeta_data) :
    (headerRec le p m).thermal_to_visible_quat = m.thermal_to_visible_quat := rfl

/-- Below 20 bytes the inner decoder gives up at once. -/
theorem deserialize_tiny (le : Bool) (buf : List Byte) (m0 : tmeta_data)
    (h : buf.length < 20) : deserialize_thermal_metadata le buf m0 = .ok (-1, m0) := by
  have hs := toSsize_of_lt buf.length (by omega)
  have h1 : (buf.length : Int) < ((TMETA_SEI_UUID_SIZE + TMETA_VERSION_SIZE : Nat) : Int) := by
    simp only [TMETA_SEI_UUID_SIZE, TMETA_VERSION_SIZE]; omega
  simp only [deserialize_thermal_metadata_eq, hs, if_pos h1]

/-- The decoder up to its test of the major version. -/
theorem deserialize_top (le : Bool) (buf : List Byte) (m0 : tmeta_data)
    (hlen : buf.length < 2 ^ 63) (h : 20 ≤ buf.length) :
    deserialize_thermal_metadata le buf m0 =
      if TMETA_GET_MAJOR_VERSION (versionField buf) > TMETA_MAJOR_VERSION then
        .ok (-1, m0.set_version (versionField buf))
      else if buf.length < 120 then .ok (-1, m0.set_version (versionField buf))
      else deserialize_from_header le (buf.drop 20) ((buf.drop 20).length)
        (m0.set_version (versionField buf)) := by
  have hs := toSsize_of_lt buf.length hlen
  have h1 : ¬ ((buf.length : Int) < ((TMETA_SEI_UUID_SIZE + TMETA_VERSION_SIZE : Nat) : Int)) := by
    simp only [TMETA_SEI_UUID_SIZE, TMETA_VERSION_SIZE]; omega
  have a16 : 4 ≤ (buf.drop 16).length := by rw [List.length_drop]; omega
  have e : ((buf.drop 20).length : Int) = (buf.length : Int) - 16 - 4 := by
    rw [List.length_drop]; omega
  have e2 : ((buf.length : Int) - 16 - 4 < 100) ↔ buf.length < 120 := by omega
  simp only [deserialize_thermal_metadata_eq, hs, if_neg h1]
  simp only [TMETA_SEI_UUID_SIZE, TMETA_V0_1_HEADER_SIZE, Nat.reduceMul, Nat.reduceAdd,
    load32_ok le _ a16, ntohl_take le _ a16, Res.ok_bind, List.drop_drop, Nat.cast_ofNat, e, e2,
    versionField]
  rfl

theorem wf_lengths (m : tmeta_data) (h : m.wf) :
    m.attitude_reference_quat.length = 4 ∧ m.cam_angles.length = 200 ∧
    m.cam_angles_timestamps.length = 50 ∧ m.thermal_to_visible_quat.length = 4 := by
  unfold tmeta_data.wf at h
  simp only [TMETA_CAMANGLES_MAXCOUNT] at h
  omega

/-- A buffer that is long enough for what its fields announce is decoded, and
the record is then `decoded`. -/
theorem deserialize_ok (le : Bool) (buf : List Byte) (m0 : tmeta_data)
    (hlen : buf.length < 2 ^ 63) (hmaj : TMETA_GET_MAJOR_VERSION (versionField buf) = 0)
    (hN : countField buf ≤ 50) (hwf : m0.wf) (hsize : neededSize buf ≤ buf.length) :
    deserialize_thermal_metadata le buf m0 = .ok (0, decoded le buf m0) := by
  obtain ⟨hq, ha, ht, hv⟩ := wf_lengths m0 hwf
  unfold neededSize at hsize
  have h1 : ¬ (TMETA_GET_MAJOR_VERSION (versionField buf) > TMETA_MAJOR_VERSION) := by
    rw [hmaj]; decide
  have h2 : ¬ (buf.length < 120) := by omega
  rw [deserialize_top le buf m0 hlen (by omega), if_neg h1, if_neg h2,
    header_ok le _ _ _ rfl (by show 4 ≤ m0.attitude_reference_quat.length; omega)
      (by rw [List.length_drop]; omega)]
  have hc : (headerRec le (buf.drop 20) (m0.set_version (versionField buf))).cam_angles_count =
      countField buf := by
    simp only [headerRec_count, countField, List.drop_drop]
  have hj : (headerRec le (buf.drop 20) (m0.set_version (versionField buf))).jpeg_data_size =
      jpegSizeField buf := by
    simp only [headerRec_jpeg_data_size, jpegSizeField, List.drop_drop]
  rw [cam_angles_ok le _ _ _ rfl (by rw [hc]; exact hN)
    (by rw [hc, headerRec_cam_angles]; show 4 * countField buf ≤ m0.cam_angles.length; omega)
    (by rw [hc, headerRec_cam_angles_timestamps]
        show countField buf ≤ m0.cam_angles_timestamps.length; omega)
    (by rw [hc]; simp only [List.length_drop]; omega)]
  rw [jpeg_ok le _ _ _ rfl (by
    show (headerRec le (buf.drop 20) (m0.set_version (versionField buf))).jpeg_data_size ≤ _
    rw [hj, hc]; simp only [List.length_drop]; omega)]
  rw [tail_ok le _ _ _ rfl (by
      show 4 ≤ m0.thermal_to_visible_quat.length; omega) (by
      show tailSize (TMETA_GET_MINOR_VERSION (versionField buf)) ≤ _
      simp only [tmeta_data.set_cam_angles, tmeta_data.set_cam_angles_timestamps,
        tmeta_data.set_jpeg_data, hc, hj, List.length_drop]
      omega)]
  simp only [decoded, List.drop_drop, Nat.reduceAdd]
  rfl

/-- A major version above 0 stops the decoder right after the version field. -/
theorem deserialize_major (le : Bool) (buf : List Byte) (m0 : tmeta_data)
    (hlen : buf.length < 2 ^ 63) (h : 20 ≤ buf.length)
    (hmaj : TMETA_GET_MAJOR_VERSION (versionField buf) > 0) :
    deserialize_thermal_metadata le buf m0 = .ok (-1, m0.set_version (versionField buf)) := by
  rw [deserialize_top le buf m0 hlen h, if_pos (by simpa [TMETA_MAJOR_VERSION] using hmaj)]

/-- Between 20 and 119 bytes the decoder stops before the header. -/
theorem deserialize_short (le : Bool) (buf : List Byte) (m0 : tmeta_data)
    (h : 20 ≤ buf.length) (h2 : buf.length < 120) :
    deserialize_thermal_metadata le buf m0 = .ok (-1, m0.set_version (versionField buf)) := by
  rw [deserialize_top le buf m0 (by omega) h, if_pos h2]
  split <;> rfl

/-- A buffer shorter than what its fields announce is refused with -1. -/
theorem deserialize_fail (le : Bool) (buf : List Byte) (m0 : tmeta_data)
    (hlen : buf.length < 2 ^ 63) (h120 : 120 ≤ buf.length)
    (hmaj : TMETA_GET_MAJOR_VERSION (versionField buf) = 0)
    (hN : countField buf ≤ 50) (hwf : m0.wf) (hsize : buf.length < neededSize buf) :
    ∃ m, deserialize_thermal_metadata le buf m0 = .ok (-1, m) := by
  obtain ⟨hq, ha, ht, hv⟩ := wf_lengths m0 hwf
  unfold neededSize at hsize
  have h1 : ¬ (TMETA_GET_MAJOR_VERSION (versionField buf) > TMETA_MAJOR_VERSION) := by
    rw [hmaj]; decide
  have h2 : ¬ (buf.length < 120) := by omega
  rw [deserialize_top le buf m0 hlen (by omega), if_neg h1, if_neg h2,
    header_ok le _ _ _ rfl (by show 4 ≤ m0.attitude_reference_quat.length; omega)
      (by rw [List.length_drop]; omega)]
  have hc : (headerRec le (buf.drop 20) (m0.set_version (versionField buf))).cam_angles_count =
      countField buf := by
    simp only [headerRec_count, countField, List.drop_drop]
  have hj : (headerRec le (buf.drop 20) (m0.set_version (versionField buf))).jpeg_data_size =
      jpegSizeField buf := by
    simp only [headerRec_jpeg_data_size, jpegSizeField, List.drop_drop]
  by_cases c1 : buf.length < 120 + 24 * countField buf
  · exact ⟨_, cam_angles_fail le _ _ _ rfl (by rw [hc]; exact hN)
      (by rw [hc]; simp only [List.length_drop]; omega)⟩
  rw [cam_angles_ok le _ _ _ rfl (by rw [hc]; exact hN)
    (by rw [hc, headerRec_cam_angles]; show 4 * countField buf ≤ m0.cam_angles.length; omega)
    (by rw [hc, headerRec_cam_angles_timestamps]
        show countField buf ≤ m0.cam_angles_timestamps.length; omega)
    (by rw [hc]; simp only [List.length_drop]; omega)]
  by_cases c2 : buf.length < 120 + 24 * countField buf + jpegSizeField buf
  · exact ⟨_, jpeg_fail le _ _ _ rfl (by
      show _ < (headerRec le (buf.drop 20) (m0.set_version (versionField buf))).jpeg_data_size
      rw [hj, hc]; simp only [List.length_drop]; omega)⟩
  rw [jpeg_ok le _ _ _ rfl (by
    show (headerRec le (buf.drop 20) (m0.set_version (versionField buf))).jpeg_data_size ≤ _
    rw [hj, hc]; simp only [List.length_drop]; omega)]
  exact tail_fail le _ _ _ rfl (by
      show _ < tailSize (TMETA_GET_MINOR_VERSION (versionField buf))
      simp only [tmeta_data.set_cam_angles, tmeta_data.set_cam_angles_timestamps,
        tmeta_data.set_jpeg_data, hc, hj, List.length_drop]
      omega)

theorem beVal_eq_iff (bs : List Byte) (w x : Nat) (h : bs.length = w) (hx : x < 256 ^ w) :
    beVal bs = x ↔ bs = beBytes w x := by
  constructor
  · intro e
    rw [← e, ← h, beBytes_beVal]
  · intro e
    rw [e, beVal_beBytes, Nat.mod_eq_of_lt hx]

theorem take16_split (buf : List Byte) :
    buf.take 16 = buf.take 4 ++ ((buf.drop 4).take 4 ++ ((buf.drop 8).take 4 ++
      (buf.drop 12).take 4)) := by
  have h1 : buf.take 16 = buf.take 4 ++ (buf.drop 4).take 12 := List.take_add buf 4 12
  have h2 : (buf.drop 4).take 12 = (buf.drop 4).take 4 ++ ((buf.drop 4).drop 4).take 8 :=
    List.take_add (buf.drop 4) 4 8
  have h3 : (buf.drop 8).take 8 = (buf.drop 8).take 4 ++ ((buf.drop 8).drop 4).take 4 :=
    List.take_add (buf.drop 8) 4 4
  rw [List.drop_drop] at h2 h3
  rw [h1, h2, h3]

theorem tag_iff (buf : List Byte) (h : 20 ≤ buf.length) :
    (beVal (buf.take 4) = TMETA_USER_DATA_SEI_UUID_0 ∧
     beVal ((buf.drop 4).take 4) = TMETA_USER_DATA_SEI_UUID_1 ∧
     beVal ((buf.drop 8).take 4) = TMETA_USER_DATA_SEI_UUID_2 ∧
     beVal ((buf.drop 12).take 4) = TMETA_USER_DATA_SEI_UUID_3) ↔
    buf.take 16 = sei_uuid_bytes := by
  have l0 : (buf.take 4).length = 4 := by rw [List.length_take]; omega
  have l1 : ((buf.drop 4).take 4).length = 4 := by
    rw [List.length_take, List.length_drop]; omega
  have l2 : ((buf.drop 8).take 4).length = 4 := by
    rw [List.length_take, List.length_drop]; omega
  have l3 : ((buf.drop 12).take 4).length = 4 := by
    rw [List.length_take, List.length_drop]; omega
  rw [beVal_eq_iff _ 4 _ l0 (by decide), beVal_eq_iff _ 4 _ l1 (by decide),
    beVal_eq_iff _ 4 _ l2 (by decide), beVal_eq_iff _ 4 _ l3 (by decide), take16_split]
  have e : sei_uuid_bytes = beBytes 4 TMETA_USER_DATA_SEI_UUID_0 ++
      (beBytes 4 TMETA_USER_DATA_SEI_UUID_1 ++ (beBytes 4 TMETA_USER_DATA_SEI_UUID_2 ++
        beBytes 4 TMETA_USER_DATA_SEI_UUID_3)) := by decide
  rw [e]
  constructor
  · rintro ⟨a, b, c, d⟩
    rw [a, b, c, d]
  · intro hh
    obtain ⟨a, hh⟩ := List.append_inj hh (by simp [l0])
    obtain ⟨b, hh⟩ := List.append_inj hh (by simp [l1])
    obtain ⟨c, d⟩ := List.append_inj hh (by simp [l2])
    exact ⟨a, b, c, d⟩

/-- The detector answers whether the buffer has 20 bytes and starts with the
identity tag. -/
theorem is_thermal_eq (le : Bool) (buf : List Byte) :
    tmeta_is_thermal_metadata_user_data_sei le (some buf) = .ok (decide (isTmeta buf)) := by
  unfold tmeta_is_thermal_metadata_user_data_sei
  by_cases h : buf.length < 20
  · have : ¬ isTmeta buf := fun hh => by unfold isTmeta at hh; omega
    simp [TMETA_SEI_UUID_SIZE, TMETA_VERSION_SIZE, h, this]
  · have h20 : 20 ≤ buf.length := by omega
    have a0 : 4 ≤ buf.length := by omega
    have a4 : 4 ≤ (buf.drop 4).length := by rw [List.length_drop]; omega
    have a8 : 4 ≤ (buf.drop 8).length := by rw [List.length_drop]; omega
    have a12 : 4 ≤ (buf.drop 12).length := by rw [List.length_drop]; omega
    have ht := tag_iff buf h20
    simp only [TMETA_SEI_UUID_SIZE, TMETA_VERSION_SIZE, Nat.reduceMul, Nat.reduceAdd, if_neg h,
      load32_ok le _ a0, load32_ok le _ a4, load32_ok le _ a8, load32_ok le _ a12, Res.ok_bind,
      ntohl_take le _ a0, ntohl_take le _ a4, ntohl_take le _ a8, ntohl_take le _ a12]
    by_cases hh : isTmeta buf
    · have hh2 := ht.mpr hh.2
      simp [hh, hh2.1, hh2.2.1, hh2.2.2.1, hh2.2.2.2]
    · have hh2 : ¬ (buf.take 16 = sei_uuid_bytes) := fun e => hh ⟨h20, e⟩
      rw [← ht] at hh2
      have : (beVal (buf.take 4) ≠ TMETA_USER_DATA_SEI_UUID_0 ∨
          beVal ((buf.drop 4).take 4) ≠ TMETA_USER_DATA_SEI_UUID_1 ∨
          beVal ((buf.drop 8).take 4) ≠ TMETA_USER_DATA_SEI_UUID_2 ∨
          beVal ((buf.drop 12).take 4) ≠ TMETA_USER_DATA_SEI_UUID_3) := by
        by_contra hc
        simp only [not_or, ne_eq, not_not] at hc
        exact hh2 hc
      rw [if_pos this]
      simp [hh]

/-- The public decoder refuses what the detector refuses and otherwise runs the
inner decoder. -/
theorem tmeta_deserialize_eq (le : Bool) (buf : List Byte) (m0 : tmeta_data) :
    tmeta_deserialize_thermal_metadata_user_data_sei le (some buf) (some m0) =
      if isTmeta buf then
        (deserialize_thermal_metadata le buf m0).bind fun (r : Int × tmeta_data) =>
          .ok (r.1, some r.2)
      else .ok (-ENOENT, some m0) := by
  unfold tmeta_deserialize_thermal_metadata_user_data_sei
  simp only [is_thermal_eq, Res.ok_bind]
  by_cases h : isTmeta buf <;> simp [h]

theorem drop_append_skip (a b : List Byte) (k : Nat) (h : a.length ≤ k) :
    (a ++ b).drop k = b.drop (k - a.length) := by
  rw [List.drop_append_eq_append_drop, List.drop_eq_nil_of_le h, List.nil_append]

theorem take_append_exact (a b : List Byte) (k : Nat) (h : a.length = k) :
    (a ++ b).take k = a := List.take_left' h

theorem wireHeader_length (le : Bool) (m : tmeta_data)
    (hq : m.attitude_reference_quat.length = 4) : (wireHeader le m).length = 120 := by
  simp [wireHeader, hq]

theorem wireTail_length (le : Bool) (m : tmeta_data)
    (hv : m.thermal_to_visible_quat.length = 4) : (wireTail le m).length = 44 := by
  simp [wireTail, hv]

/-- The wire image of a record is `164 + 24 * count + jpeg_data_size` bytes long. -/
theorem wire_length (le : Bool) (m : tmeta_data) (hwf : m.wf)
    (hN : m.cam_angles_count ≤ TMETA_CAMANGLES_MAXCOUNT)
    (hj : m.jpeg_data_size ≤ m.jpeg_data.length) :
    (wire le m).length = 164 + 24 * m.cam_angles_count + m.jpeg_data_size := by
  obtain ⟨hq, ha, ht, hv⟩ := wf_lengths m hwf
  have hN2 : m.cam_angles_count ≤ 50 := hN
  simp only [wire, List.length_append, wireHeader_length le m hq, wireTail_length le m hv,
    arrBytes_length, beArr_length, List.length_take, ha, ht]
  omega

theorem TMETA_BUF_SIZE_eq (m : tmeta_data) (hwf : m.wf) :
    TMETA_BUF_SIZE m = 164 + 24 * m.cam_angles_count + m.jpeg_data_size := by
  have h1 : m.cam_angles_count < 2 ^ 32 := hwf.2.2.2.2.2.2.2.2.2.2.2.2.2.2.1
  have h2 : m.jpeg_data_size < 2 ^ 32 := hwf.2.2.2.2.2.2.2.2.2.2.1
  simp only [TMETA_BUF_SIZE, TMETA_SEI_UUID_SIZE, TMETA_VERSION_SIZE, TMETA_V0_1_HEADER_SIZE,
    TMETA_V0_2_DATA_SIZE, TMETA_V0_3_DATA_SIZE, TMETA_V0_4_DATA_SIZE]
  omega

theorem beVal_beBytes32 (x : Nat) (h : x < 2 ^ 32) : beVal (beBytes 4 x) = x := by
  rw [beVal_beBytes]; exact Nat.mod_eq_of_lt (by omega)

theorem hostVal_hostBytes64 (le : Bool) (x : Nat) (h : x < 2 ^ 64) :
    hostVal le (hostBytes le 8 x) = x := by
  rw [hostVal_hostBytes]; exact Nat.mod_eq_of_lt (by omega)

theorem wire_versionField (le : Bool) (m : tmeta_data) (rest : List Byte) :
    versionField (wireHeader le m ++ rest) = 4 := by
  simp (disch := simp) only [versionField, wireHeader, List.append_assoc, drop_append_skip,
    take_append_exact, beBytes_length, hostBytes_length, Nat.reduceSub, List.drop_zero]
  decide

theorem arrVals_arrBytes (le : Bool) (w : Nat) (vs : List Nat) (rest : List Byte)
    (h : ∀ v ∈ vs, v < 256 ^ w) :
    arrVals le w vs.length (arrBytes le w vs ++ rest) = vs := by
  induction vs with
  | nil => rfl
  | cons v vs ih =>
    have hv : v < 256 ^ w := h v (by simp)
    have ih2 := ih (fun x hx => h x (by simp [hx]))
    simp only [List.length_cons, arrVals, arrBytes, List.append_assoc]
    rw [List.take_left' (hostBytes_length le w v), List.drop_left' (hostBytes_length le w v),
      hostVal_hostBytes, Nat.mod_eq_of_lt hv, ih2]

theorem arrVals_arrBytes_nil (le : Bool) (w : Nat) (vs : List Nat)
    (h : ∀ v ∈ vs, v < 256 ^ w) :
    arrVals le w vs.length (arrBytes le w vs) = vs := by
  have := arrVals_arrBytes le w vs [] h
  rwa [List.append_nil] at this

theorem beVals_beArr (w : Nat) (vs : List Nat) (rest : List Byte)
    (h : ∀ v ∈ vs, v < 256 ^ w) :
    beVals w vs.length (beArr w vs ++ rest) = vs := by
  induction vs with
  | nil => rfl
  | cons v vs ih =>
    have hv : v < 256 ^ w := h v (by simp)
    have ih2 := ih (fun x hx => h x (by simp [hx]))
    simp only [List.length_cons, beVals, beArr, List.append_assoc]
    rw [List.take_left' (beBytes_length w v), List.drop_left' (beBytes_length w v),
      beVal_beBytes, Nat.mod_eq_of_lt hv, ih2]

/-- The header of the wire image of `r` decodes to the header fields of `r`. -/
theorem headerRec_wire (le : Bool) (r m : tmeta_data) (rest : List Byte) (hwf : r.wf) :
    headerRec le ((wireHeader le r ++ rest).drop 20) m =
      ((((((((((((((m.set_gain_mode r.gain_mode).set_calib_r r.calib_r).set_calib_b r.calib_b
        ).set_calib_f r.calib_f).set_calib_o r.calib_o).set_calib_tau_win r.calib_tau_win
        ).set_calib_t_win r.calib_t_win).set_calib_t_bg r.calib_t_bg
        ).set_calib_emissivity r.calib_emissivity).set_jpeg_data_size r.jpeg_data_size
        ).set_value_min r.value_min).set_value_max r.value_max
        ).set_attitude_reference_quat
          (r.attitude_reference_quat ++ m.attitude_reference_quat.drop 4)
        ).set_cam_angles_count r.cam_angles_count) := by
  obtain ⟨h1, h2, h3, h4, h5, h6, h7, h8, h9, h10, h11, h12, h13, ⟨h14, h14b⟩, h15, -⟩ := hwf
  have hq : arrBytes le 4 (List.take 4 r.attitude_reference_quat) =
      arrBytes le 4 r.attitude_reference_quat := by
    rw [List.take_of_length_le (by omega)]
  have hq2 := arrVals_arrBytes_nil le 4 r.attitude_reference_quat
    (fun v hv => by have := h14b v hv; omega)
  rw [h14] at hq2
  simp (disch := simp [h14]) only [headerRec, wireHeader, List.append_assoc, drop_append_skip,
    take_append_exact, beBytes_length, hostBytes_length, arrBytes_length, Nat.reduceSub,
    List.drop_zero, List.drop_drop, Nat.reduceAdd, Nat.reduceMul, hq, h14]
  rw [beVal_beBytes32 _ h2, beVal_beBytes32 _ h11, beVal_beBytes32 _ h12, beVal_beBytes32 _ h13,
    beVal_beBytes32 _ h15, hostVal_hostBytes64 _ _ h3, hostVal_hostBytes64 _ _ h4,
    hostVal_hostBytes64 _ _ h5, hostVal_hostBytes64 _ _ h6, hostVal_hostBytes64 _ _ h7,
    hostVal_hostBytes64 _ _ h8, hostVal_hostBytes64 _ _ h9, hostVal_hostBytes64 _ _ h10, hq2]
  rfl

theorem version_set_frame_state (m : tmeta_data) (v : Nat) :
    (m.set_frame_state v).version = m.version := by
  cases m; rfl

theorem version_set_fpa_temp (m : tmeta_data) (v : Nat) :
    (m.set_fpa_temp v).version = m.version := by
  cases m; rfl

theorem version_set_housing_temp (m : tmeta_data) (v : Nat) :
    (m.set_housing_temp v).version = m.version := by
  cases m; rfl

theorem version_set_window_reflection (m : tmeta_data) (v : Nat) :
    (m.set_window_reflection v).version = m.version := by
  cases m; rfl

theorem quat_set_frame_state (m : tmeta_data) (v : Nat) :
    (m.set_frame_state v).thermal_to_visible_quat = m.thermal_to_visible_quat := by
  cases m; rfl

theorem quat_set_fpa_temp (m : tmeta_data) (v : Nat) :
    (m.set_fpa_temp v).thermal_to_visible_quat = m.thermal_to_visible_quat := by
  cases m; rfl

theorem quat_set_housing_temp (m : tmeta_data) (v : Nat) :
    (m.set_housing_temp v).thermal_to_visible_quat = m.thermal_to_visible_quat := by
  cases m; rfl

theorem quat_set_window_reflection (m : tmeta_data) (v : Nat) :
    (m.set_window_reflection v).thermal_to_visible_quat = m.thermal_to_visible_quat := by
  cases m; rfl

theorem tailRec_minor4 (le : Bool) (p : List Byte) (m : tmeta_data)
    (hmin : 4 ≤ TMETA_GET_MINOR_VERSION m.version) :
    tailRec le p m =
      ((((m.set_frame_state (beVal (p.take 4))).set_fpa_temp (hostVal le ((p.drop 4).take 8))
        ).set_housing_temp (hostVal le ((p.drop 12).take 8))).set_window_reflection
          (hostVal le ((p.drop 20).take 8))).set_thermal_to_visible_quat
          (arrVals le 4 4 ((p.drop 28).take 16) ++ m.thermal_to_visible_quat.drop 4) := by
  have c2 : ¬ TMETA_GET_MINOR_VERSION m.version < 2 := by omega
  have c3 : ¬ TMETA_GET_MINOR_VERSION m.version < 3 := by omega
  have c4 : ¬ TMETA_GET_MINOR_VERSION m.version < 4 := by omega
  simp only [tailRec, version_set_frame_state, version_set_fpa_temp, version_set_housing_temp,
    version_set_window_reflection, quat_set_frame_state, quat_set_fpa_temp,
    quat_set_housing_temp, quat_set_window_reflection, if_neg c2, if_neg c3, if_neg c4]

/-- The tail of the wire image of `r` decodes to the version 0.2 to 0.4 fields
of `r` when the minor version is at least 4. -/
theorem tailRec_wire (le : Bool) (r m : tmeta_data) (x : List Byte) (hwf : r.wf)
    (hmin : 4 ≤ TMETA_GET_MINOR_VERSION m.version) :
    tailRec le (wireTail le r ++ x) m =
      ((((m.set_frame_state r.frame_state).set_fpa_temp r.fpa_temp).set_housing_temp
        r.housing_temp).set_window_reflection r.window_reflection
        ).set_thermal_to_visible_quat
          (r.thermal_to_visible_quat ++ m.thermal_to_visible_quat.drop 4) := by
  have h18 : r.frame_state < 2 ^ 32 := hwf.2.2.2.2.2.2.2.2.2.2.2.2.2.2.2.2.2.1
  have h19 : r.fpa_temp < 2 ^ 64 := hwf.2.2.2.2.2.2.2.2.2.2.2.2.2.2.2.2.2.2.1
  have h20 : r.housing_temp < 2 ^ 64 := hwf.2.2.2.2.2.2.2.2.2.2.2.2.2.2.2.2.2.2.2.1
  have h21 : r.window_reflection < 2 ^ 64 := hwf.2.2.2.2.2.2.2.2.2.2.2.2.2.2.2.2.2.2.2.2.1
  obtain ⟨h22, h22b⟩ := hwf.2.2.2.2.2.2.2.2.2.2.2.2.2.2.2.2.2.2.2.2.2
  have hq : arrBytes le 4 (List.take 4 r.thermal_to_visible_quat) =
      arrBytes le 4 r.thermal_to_visible_quat := by
    rw [List.take_of_length_le (by omega)]
  have hq2 := arrVals_arrBytes_nil le 4 r.thermal_to_visible_quat
    (fun v hv => by have := h22b v hv; omega)
  rw [h22] at hq2
  rw [tailRec_minor4 le _ m hmin]
  simp (disch := simp [h22]) only [wireTail, List.append_assoc, drop_append_skip,
    take_append_exact, beBytes_length, hostBytes_length, arrBytes_length, Nat.reduceSub,
    List.drop_zero, List.drop_drop, Nat.reduceAdd, Nat.reduceMul, hq, h22]
  rw [beVal_beBytes32 _ h18, hostVal_hostBytes64 _ _ h19, hostVal_hostBytes64 _ _ h20,
    hostVal_hostBytes64 _ _ h21, hq2]

theorem version_set_cam_angles (m : tmeta_data) (v : List Nat) :
    (m.set_cam_angles v).version = m.version := by
  cases m; rfl

theorem jpeg_data_size_set_cam_angles (m : tmeta_data) (v : List Nat) :
    (m.set_cam_angles v).jpeg_data_size = m.jpeg_data_size := by
  cases m; rfl

theorem cam_angles_count_set_cam_angles (m : tmeta_data) (v : List Nat) :
    (m.set_cam_angles v).cam_angles_count = m.cam_angles_count := by
  cases m; rfl

theorem quat_set_cam_angles (m : tmeta_data) (v : List Nat) :
    (m.set_cam_angles v).thermal_to_visible_quat = m.thermal_to_visible_quat := by
  cases m; rfl

theorem version_set_cam_angles_timestamps (m : tmeta_data) (v : List Nat) :
    (m.set_cam_angles_timestamps v).version = m.version := by
  cases m; rfl

theorem jpeg_data_size_set_cam_angles_timestamps (m : tmeta_data) (v : List Nat) :
    (m.set_cam_angles_timestamps v).jpeg_data_size = m.jpeg_data_size := by
  cases m; rfl

theorem cam_angles_count_set_cam_angles_timestamps (m : tmeta_data) (v : List Nat) :
    (m.set_cam_angles_timestamps v).cam_angles_count = m.cam_angles_count := by
  cases m; rfl

theorem quat_set_cam_angles_timestamps (m : tmeta_data) (v : List Nat) :
    (m.set_cam_angles_timestamps v).thermal_to_visible_quat = m.thermal_to_visible_quat := by
  cases m; rfl

theorem version_set_jpeg_data (m : tmeta_data) (v : List Byte) :
    (m.set_jpeg_data v).version = m.version := by
  cases m; rfl

theorem jpeg_data_size_set_jpeg_data (m : tmeta_data) (v : List Byte) :
    (m.set_jpeg_data v).jpeg_data_size = m.jpeg_data_size := by
  cases m; rfl

theorem cam_angles_count_set_jpeg_data (m : tmeta_data) (v : List Byte) :
    (m.set_jpeg_data v).cam_angles_count = m.cam_angles_count := by
  cases m; rfl

theorem quat_set_jpeg_data (m : tmeta_data) (v : List Byte) :
    (m.set_jpeg_data v).thermal_to_visible_quat = m.thermal_to_visible_quat := by
  cases m; rfl

theorem quat_set_version (m : tmeta_data) (v : Nat) :
    (m.set_version v).thermal_to_visible_quat = m.thermal_to_visible_quat := by
  cases m; rfl

theorem cam_angles_set_version (m : tmeta_data) (v : Nat) :
    (m.set_version v).cam_angles = m.cam_angles := by
  cases m; rfl

theorem cam_angles_timestamps_set_version (m : tmeta_data) (v : Nat) :
    (m.set_version v).cam_angles_timestamps = m.cam_angles_timestamps := by
  cases m; rfl

theorem attitude_reference_quat_set_version (m : tmeta_data) (v : Nat) :
    (m.set_version v).attitude_reference_quat = m.attitude_reference_quat := by
  cases m; rfl

theorem frame_state_set_version (m : tmeta_data) (v : Nat) :
    (m.set_version v).frame_state = m.frame_state := by
  cases m; rfl

theorem fpa_temp_set_version (m : tmeta_data) (v : Nat) :
    (m.set_version v).fpa_temp = m.fpa_temp := by
  cases m; rfl

theorem housing_temp_set_version (m : tmeta_data) (v : Nat) :
    (m.set_version v).housing_temp = m.housing_temp := by
  cases m; rfl

theorem window_reflection_set_version (m : tmeta_data) (v : Nat) :
    (m.set_version v).window_reflection = m.window_reflection := by
  cases m; rfl

theorem version_set_version (m : tmeta_data) (v : Nat) : (m.set_version v).version = v := by
  cases m; rfl

/-- What the header of the wire image of `r` leaves in the fields the rest of
the decoder reads. -/
theorem headerRec_wire_fields (le : Bool) (r m : tmeta_data) (rest : List Byte) (hwf : r.wf) :
    (headerRec le ((wireHeader le r ++ rest).drop 20) m).cam_angles_count = r.cam_angles_count ∧
    (headerRec le ((wireHeader le r ++ rest).drop 20) m).jpeg_data_size = r.jpeg_data_size ∧
    (headerRec le ((wireHeader le r ++ rest).drop 20) m).cam_angles = m.cam_angles ∧
    (headerRec le ((wireHeader le r ++ rest).drop 20) m).cam_angles_timestamps =
      m.cam_angles_timestamps ∧
    (headerRec le ((wireHeader le r ++ rest).drop 20) m).version = m.version ∧
    (headerRec le ((wireHeader le r ++ rest).drop 20) m).thermal_to_visible_quat =
      m.thermal_to_visible_quat := by
  rw [headerRec_wire le r m rest hwf]
  simp only [tmeta_data.set_gain_mode, tmeta_data.set_calib_r, tmeta_data.set_calib_b,
    tmeta_data.set_calib_f, tmeta_data.set_calib_o, tmeta_data.set_calib_tau_win,
    tmeta_data.set_calib_t_win, tmeta_data.set_calib_t_bg, tmeta_data.set_calib_emissivity,
    tmeta_data.set_jpeg_data_size, tmeta_data.set_value_min, tmeta_data.set_value_max,
    tmeta_data.set_attitude_reference_quat, tmeta_data.set_cam_angles_count, and_self]

theorem drop_two (a b c : List Byte) (j k n : Nat) (ha : a.length = j) (hb : b.length = k)
    (hn : n = j + k) : (a ++ (b ++ c)).drop n = c := by
  subst hn
  rw [← List.drop_drop, List.drop_left' ha, List.drop_left' hb]

theorem wire_split (le : Bool) (r : tmeta_data) (x : List Byte) :
    wire le r ++ x = wireHeader le r ++
      (arrBytes le 4 (r.cam_angles.take (r.cam_angles_count * 4)) ++
      (beArr 8 (r.cam_angles_timestamps.take r.cam_angles_count) ++
      (r.jpeg_data.take r.jpeg_data_size ++ (wireTail le r ++ x)))) := by
  simp only [wire, List.append_assoc]

/-- Decoding the wire image of a record gives the record back. -/
theorem decoded_wire (le : Bool) (r m0 : tmeta_data) (x : List Byte) (hwf : r.wf)
    (hm0 : m0.wf) (hN : r.cam_angles_count ≤ TMETA_CAMANGLES_MAXCOUNT)
    (hj : r.jpeg_data_size ≤ r.jpeg_data.length) :
    decoded le (wire le r ++ x) m0 = reread le r m0 x := by
  obtain ⟨hq, ha, ht, hv⟩ := wf_lengths r hwf
  obtain ⟨hq0, ha0, ht0, hv0⟩ := wf_lengths m0 hm0
  have hN2 : r.cam_angles_count ≤ 50 := hN
  have hca : ∀ v ∈ r.cam_angles, v < 2 ^ 32 := hwf.2.2.2.2.2.2.2.2.2.2.2.2.2.2.2.1.2
  have hts : ∀ v ∈ r.cam_angles_timestamps, v < 2 ^ 64 :=
    hwf.2.2.2.2.2.2.2.2.2.2.2.2.2.2.2.2.1.2
  have lA : (arrBytes le 4 (r.cam_angles.take (r.cam_angles_count * 4))).length =
      16 * r.cam_angles_count := by
    rw [arrBytes_length, List.length_take, ha]; omega
  have lT : (beArr 8 (r.cam_angles_timestamps.take r.cam_angles_count)).length =
      8 * r.cam_angles_count := by
    rw [beArr_length, List.length_take, ht]; omega
  have lJ : (r.jpeg_data.take r.jpeg_data_size).length = r.jpeg_data_size := by
    rw [List.length_take]; omega
  have lca : (r.cam_angles.take (r.cam_angles_count * 4)).length = 4 * r.cam_angles_count := by
    rw [List.length_take, ha]; omega
  have lts : (r.cam_angles_timestamps.take r.cam_angles_count).length = r.cam_angles_count := by
    rw [List.length_take, ht]; omega
  have eA := arrVals_arrBytes_nil le 4 (r.cam_angles.take (r.cam_angles_count * 4))
    (fun v hv => by have := hca v (List.mem_of_mem_take hv); omega)
  rw [lca] at eA
  have eT := beVals_beArr 8 (r.cam_angles_timestamps.take r.cam_angles_count)
    (r.jpeg_data.take r.jpeg_data_size ++ (wireTail le r ++ x))
    (fun v hv => by have := hts v (List.mem_of_mem_take hv); omega)
  rw [lts] at eT
  have e4 : r.cam_angles_count * 4 = 4 * r.cam_angles_count := by ring
  obtain ⟨f1, f2, f3, f4, f5, f6⟩ := headerRec_wire_fields le r (m0.set_version 4)
    (arrBytes le 4 (r.cam_angles.take (r.cam_angles_count * 4)) ++
      (beArr 8 (r.cam_angles_timestamps.take r.cam_angles_count) ++
      (r.jpeg_data.take r.jpeg_data_size ++ (wireTail le r ++ x)))) hwf
  rw [wire_split]
  simp only [decoded, wire_versionField, List.drop_left' (wireHeader_length le r hq), f1, f2, f3,
    f4, jpeg_data_size_set_jpeg_data, jpeg_data_size_set_cam_angles_timestamps,
    jpeg_data_size_set_cam_angles, cam_angles_set_version, cam_angles_timestamps_set_version,
    cam_angles_count_set_cam_angles, cam_angles_count_set_cam_angles_timestamps]
  rw [List.take_left' lA, List.drop_left' lA,
    drop_two _ _ _ (16 * r.cam_angles_count) (8 * r.cam_angles_count)
      (24 * r.cam_angles_count) lA lT (by ring), List.drop_left' lJ, eT, eA]
  rw [tailRec_wire le r _ x hwf (by
    rw [version_set_jpeg_data, version_set_cam_angles_timestamps, version_set_cam_angles, f5,
      version_set_version]
    decide)]
  rw [headerRec_wire le r _ _ hwf]
  have e5 : m0.attitude_reference_quat.drop 4 = [] := List.drop_eq_nil_of_le (by omega)
  have e6 : m0.thermal_to_visible_quat.drop 4 = [] := List.drop_eq_nil_of_le (by omega)
  simp only [tmeta_data.set_version, tmeta_data.set_gain_mode, tmeta_data.set_calib_r,
    tmeta_data.set_calib_b, tmeta_data.set_calib_f, tmeta_data.set_calib_o,
    tmeta_data.set_calib_tau_win, tmeta_data.set_calib_t_win, tmeta_data.set_calib_t_bg,
    tmeta_data.set_calib_emissivity, tmeta_data.set_jpeg_data_size, tmeta_data.set_value_min,
    tmeta_data.set_value_max, tmeta_data.set_attitude_reference_quat,
    tmeta_data.set_cam_angles_count, tmeta_data.set_cam_angles,
    tmeta_data.set_cam_angles_timestamps, tmeta_data.set_jpeg_data, tmeta_data.set_frame_state,
    tmeta_data.set_fpa_temp, tmeta_data.set_housing_temp, tmeta_data.set_window_reflection,
    tmeta_data.set_thermal_to_visible_quat, reread, e4, e5, e6, List.append_nil]

theorem wire_countField (le : Bool) (r : tmeta_data) (rest : List Byte) (hwf : r.wf) :
    countField (wireHeader le r ++ rest) = r.cam_angles_count := by
  have h14 : r.attitude_reference_quat.length = 4 := (wf_lengths r hwf).1
  have h15 : r.cam_angles_count < 2 ^ 32 := hwf.2.2.2.2.2.2.2.2.2.2.2.2.2.2.1
  simp (disch := simp [h14]) only [countField, wireHeader, List.append_assoc, drop_append_skip,
    take_append_exact, beBytes_length, hostBytes_length, arrBytes_length, Nat.reduceSub,
    List.drop_zero, List.length_take, h14, Nat.reduceMul, Nat.min_self]
  exact beVal_beBytes32 _ h15

theorem wire_jpegSizeField (le : Bool) (r : tmeta_data) (rest : List Byte) (hwf : r.wf) :
    jpegSizeField (wireHeader le r ++ rest) = r.jpeg_data_size := by
  have h11 : r.jpeg_data_size < 2 ^ 32 := hwf.2.2.2.2.2.2.2.2.2.2.1
  simp (disch := simp) only [jpegSizeField, wireHeader, List.append_assoc, drop_append_skip,
    take_append_exact, beBytes_length, hostBytes_length, Nat.reduceSub, List.drop_zero]
  exact beVal_beBytes32 _ h11

theorem wire_tag (le : Bool) (r : tmeta_data) (rest : List Byte) :
    (wireHeader le r ++ rest).take 16 = sei_uuid_bytes := by
  have e : sei_uuid_bytes = beBytes 4 TMETA_USER_DATA_SEI_UUID_0 ++
      (beBytes 4 TMETA_USER_DATA_SEI_UUID_1 ++ (beBytes 4 TMETA_USER_DATA_SEI_UUID_2 ++
        beBytes 4 TMETA_USER_DATA_SEI_UUID_3)) := by decide
  rw [e]
  simp only [wireHeader, List.append_assoc]
  rw [← List.append_assoc, ← List.append_assoc, ← List.append_assoc]
  exact List.take_left' (by simp)

/-- The wire image of a record, whatever follows it, passes the detector. -/
theorem wire_isTmeta (le : Bool) (r : tmeta_data) (x : List Byte) (hwf : r.wf)
    (hN : r.cam_angles_count ≤ TMETA_CAMANGLES_MAXCOUNT)
    (hj : r.jpeg_data_size ≤ r.jpeg_data.length) : isTmeta (wire le r ++ x) := by
  refine ⟨?_, ?_⟩
  · rw [List.length_append, wire_length le r hwf hN hj]; omega
  · rw [wire_split]; exact wire_tag le r _

/-- The wire image of a record announces exactly its own length. -/
theorem wire_neededSize (le : Bool) (r : tmeta_data) (x : List Byte) (hwf : r.wf) :
    neededSize (wire le r ++ x) = 164 + 24 * r.cam_angles_count + r.jpeg_data_size := by
  rw [wire_split]
  simp only [neededSize, wire_countField le r _ hwf, wire_jpegSizeField le r _ hwf,
    wire_versionField]
  have : tailSize (TMETA_GET_MINOR_VERSION 4) = 44 := by decide
  rw [this]
  omega

/-- The public encoder either refuses for lack of room, leaving everything as
it was, or lays the wire image of the record over the start of the buffer. -/
theorem tmeta_serialize_eq (le : Bool) (r : tmeta_data) (b : List Byte) (size : Option Nat)
    (hwf : r.wf) (hN : r.cam_angles_count ≤ TMETA_CAMANGLES_MAXCOUNT)
    (hj : r.jpeg_data_size ≤ r.jpeg_data.length) :
    tmeta_serialize_thermal_metadata_user_data_sei le (some r) (some b) size =
      if b.length < TMETA_BUF_SIZE r then .ok (-ENOBUFS, some b, size)
      else .ok (0, some (wire le r ++ b.drop (TMETA_BUF_SIZE r)),
        size.map fun _ => TMETA_BUF_SIZE r) := by
  obtain ⟨hq, ha, ht, hv⟩ := wf_lengths r hwf
  have hN2 : r.cam_angles_count ≤ 50 := hN
  have hl := wire_length le r hwf hN hj
  have hs := TMETA_BUF_SIZE_eq r hwf
  simp only [tmeta_serialize_thermal_metadata_user_data_sei]
  by_cases h : b.length < TMETA_BUF_SIZE r
  · simp only [if_pos h]
  · have h2 : (wire le r).length ≤ b.length := by omega
    rw [if_neg h, if_neg h,
      serialize_eq_store le r b (by omega) (by omega) (by omega) hj (by omega)]
    rw [hl] at h2
    simp only [store, hl, if_pos h2, Res.ok_bind, Cursor.buffer, List.nil_append, hs]

/-- The tail of the decoder, with every test on the version of the record it
starts from. -/
theorem tailRec_cases (le : Bool) (p : List Byte) (m : tmeta_data) :
    tailRec le p m =
      if TMETA_GET_MINOR_VERSION m.version < 2 then m
      else if TMETA_GET_MINOR_VERSION m.version < 3 then m.set_frame_state (beVal (p.take 4))
      else if TMETA_GET_MINOR_VERSION m.version < 4 then
        (((m.set_frame_state (beVal (p.take 4))).set_fpa_temp (hostVal le ((p.drop 4).take 8))
          ).set_housing_temp (hostVal le ((p.drop 12).take 8))).set_window_reflection
            (hostVal le ((p.drop 20).take 8))
      else
        ((((m.set_frame_state (beVal (p.take 4))).set_fpa_temp (hostVal le ((p.drop 4).take 8))
          ).set_housing_temp (hostVal le ((p.drop 12).take 8))).set_window_reflection
            (hostVal le ((p.drop 20).take 8))).set_thermal_to_visible_quat
            (arrVals le 4 4 ((p.drop 28).take 16) ++ m.thermal_to_visible_quat.drop 4) := by
  by_cases c2 : TMETA_GET_MINOR_VERSION m.version < 2
  · simp only [tailRec, if_pos c2]
  by_cases c3 : TMETA_GET_MINOR_VERSION m.version < 3
  · simp only [tailRec, version_set_frame_state, if_neg c2, if_pos c3]
  by_cases c4 : TMETA_GET_MINOR_VERSION m.version < 4
  · simp only [tailRec, version_set_frame_state, version_set_fpa_temp, version_set_housing_temp,
      version_set_window_reflection, if_neg c2, if_neg c3, if_pos c4]
  · rw [if_neg c2, if_neg c3, if_neg c4]
    exact tailRec_minor4 le p m (by omega)

theorem decoded_eq (le : Bool) (buf : List Byte) (m0 : tmeta_data) :
    decoded le buf m0 = decodedFields le buf m0 := by
  have hc : (headerRec le (buf.drop 20) (m0.set_version (versionField buf))).cam_angles_count =
      countField buf := by
    simp only [headerRec_count, countField, List.drop_drop]
  have hj : (headerRec le (buf.drop 20) (m0.set_version (versionField buf))).jpeg_data_size =
      jpegSizeField buf := by
    simp only [headerRec_jpeg_data_size, jpegSizeField, List.drop_drop]
  have hv : (headerRec le (buf.drop 20) (m0.set_version (versionField buf))).version =
      versionField buf := by
    rw [headerRec_version, version_set_version]
  have e1 : 120 + 16 * countField buf + 8 * countField buf = 120 + 24 * countField buf := by
    omega
  simp only [decoded, tailRec_cases, hc, hj, hv, jpeg_data_size_set_jpeg_data,
    jpeg_data_size_set_cam_angles_timestamps, jpeg_data_size_set_cam_angles,
    cam_angles_count_set_cam_angles, cam_angles_count_set_cam_angles_timestamps,
    version_set_jpeg_data, version_set_cam_angles_timestamps, version_set_cam_angles,
    List.drop_drop]
  by_cases c2 : TMETA_GET_MINOR_VERSION (versionField buf) < 2
  · have c3 : TMETA_GET_MINOR_VERSION (versionField buf) < 3 := by omega
    have c4 : TMETA_GET_MINOR_VERSION (versionField buf) < 4 := by omega
    simp only [if_pos c2, if_pos c3, if_pos c4, decodedFields, headerRec, List.drop_drop,
      Nat.reduceAdd, tmeta_data.set_version, tmeta_data.set_gain_mode, tmeta_data.set_calib_r,
      tmeta_data.set_calib_b, tmeta_data.set_calib_f, tmeta_data.set_calib_o,
      tmeta_data.set_calib_tau_win, tmeta_data.set_calib_t_win, tmeta_data.set_calib_t_bg,
      tmeta_data.set_calib_emissivity, tmeta_data.set_jpeg_data_size, tmeta_data.set_value_min,
      tmeta_data.set_value_max, tmeta_data.set_attitude_reference_quat,
      tmeta_data.set_cam_angles_count, tmeta_data.set_cam_angles,
      tmeta_data.set_cam_angles_timestamps, tmeta_data.set_jpeg_data, tmeta_data.set_frame_state,
      tmeta_data.set_fpa_temp, tmeta_data.set_housing_temp, tmeta_data.set_window_reflection,
      tmeta_data.set_thermal_to_visible_quat]
    rfl
  by_cases c3 : TMETA_GET_MINOR_VERSION (versionField buf) < 3
  · have c4 : TMETA_GET_MINOR_VERSION (versionField buf) < 4 := by omega
    simp only [if_neg c2, if_pos c3, if_pos c4, decodedFields, headerRec, List.drop_drop,
      Nat.reduceAdd, tmeta_data.set_version, tmeta_data.set_gain_mode, tmeta_data.set_calib_r,
      tmeta_data.set_calib_b, tmeta_data.set_calib_f, tmeta_data.set_calib_o,
      tmeta_data.set_calib_tau_win, tmeta_data.set_calib_t_win, tmeta_data.set_calib_t_bg,
      tmeta_data.set_calib_emissivity, tmeta_data.set_jpeg_data_size, tmeta_data.set_value_min,
      tmeta_data.set_value_max, tmeta_data.set_attitude_reference_quat,
      tmeta_data.set_cam_angles_count, tmeta_data.set_cam_angles,
      tmeta_data.set_cam_angles_timestamps, tmeta_data.set_jpeg_data, tmeta_data.set_frame_state,
      tmeta_data.set_fpa_temp, tmeta_data.set_housing_temp, tmeta_data.set_window_reflection,
      tmeta_data.set_thermal_to_visible_quat]
    rfl
  by_cases c4 : TMETA_GET_MINOR_VERSION (versionField buf) < 4
  · simp only [if_neg c2, if_neg c3, if_pos c4, decodedFields, headerRec, List.drop_drop,
      Nat.reduceAdd, tmeta_data.set_version, tmeta_data.set_gain_mode, tmeta_data.set_calib_r,
      tmeta_data.set_calib_b, tmeta_data.set_calib_f, tmeta_data.set_calib_o,
      tmeta_data.set_calib_tau_win, tmeta_data.set_calib_t_win, tmeta_data.set_calib_t_bg,
      tmeta_data.set_calib_emissivity, tmeta_data.set_jpeg_data_size, tmeta_data.set_value_min,
      tmeta_data.set_value_max, tmeta_data.set_attitude_reference_quat,
      tmeta_data.set_cam_angles_count, tmeta_data.set_cam_angles,
      tmeta_data.set_cam_angles_timestamps, tmeta_data.set_jpeg_data, tmeta_data.set_frame_state,
      tmeta_data.set_fpa_temp, tmeta_data.set_housing_temp, tmeta_data.set_window_reflection,
      tmeta_data.set_thermal_to_visible_quat]
    rfl
  · simp only [if_neg c2, if_neg c3, if_neg c4, decodedFields, headerRec, List.drop_drop,
      Nat.reduceAdd, tmeta_data.set_version, tmeta_data.set_gain_mode, tmeta_data.set_calib_r,
      tmeta_data.set_calib_b, tmeta_data.set_calib_f, tmeta_data.set_calib_o,
      tmeta_data.set_calib_tau_win, tmeta_data.set_calib_t_win, tmeta_data.set_calib_t_bg,
      tmeta_data.set_calib_emissivity, tmeta_data.set_jpeg_data_size, tmeta_data.set_value_min,
      tmeta_data.set_value_max, tmeta_data.set_attitude_reference_quat,
      tmeta_data.set_cam_angles_count, tmeta_data.set_cam_angles,
      tmeta_data.set_cam_angles_timestamps, tmeta_data.set_jpeg_data, tmeta_data.set_frame_state,
      tmeta_data.set_fpa_temp, tmeta_data.set_housing_temp, tmeta_data.set_window_reflection,
      tmeta_data.set_thermal_to_visible_quat]
    rfl

/-! ## Round trip (C1) -/

set_option maxRecDepth 100000 in
theorem sampleRecord_wf : sampleRecord.wf := by decide

set_option maxRecDepth 100000 in
theorem staleRecord_wf : staleRecord.wf := by decide

/-- Decoding exactly the wire image of a record succeeds with `reread`. -/
theorem deserialize_wire (le : Bool) (r m0 : tmeta_data) (x : List Byte) (hwf : r.wf)
    (hm0 : m0.wf) (hN : r.cam_angles_count ≤ TMETA_CAMANGLES_MAXCOUNT)
    (hj : r.jpeg_data_size ≤ r.jpeg_data.length) (hx : (wire le r ++ x).length < 2 ^ 63) :
    tmeta_deserialize_thermal_metadata_user_data_sei le (some (wire le r ++ x)) (some m0) =
      .ok (0, some (reread le r m0 x)) := by
  have hl := wire_length le r hwf hN hj
  have hn := wire_neededSize le r x hwf
  have hmaj : TMETA_GET_MAJOR_VERSION (versionField (wire le r ++ x)) = 0 := by
    rw [wire_split, wire_versionField]; decide
  have hc : countField (wire le r ++ x) ≤ 50 := by
    rw [wire_split, wire_countField le r _ hwf]; exact hN
  rw [tmeta_deserialize_eq, if_pos (wire_isTmeta le r x hwf hN hj),
    deserialize_ok le _ m0 hx hmaj hc hm0 (by rw [hn, List.length_append, hl]; omega),
    decoded_wire le r m0 x hwf hm0 hN hj]
  rfl

/-- C1 (round trip): for every record `r` with `cam_angles_count ≤ 50`, any
`jpeg_data_size` with a blob of at least that many bytes, and every destination
of capacity at least `TMETA_BUF_SIZE r`, the public encoder returns 0 and
reports `TMETA_BUF_SIZE r`, and the public decoder applied to the bytes written
returns 0 with a record equal to `r` in every field: gain mode, the 8
calibration values, blob length, value_min, value_max, attitude quaternion,
count, the first `count` camera-angle quaternions and timestamps, frame state,
the 3 temperatures and the alignment quaternion (floating-point fields as bit
patterns, the blob by content), with version 0.4 whatever `r.version` was. -/
theorem C1_round_trip (le : Bool) (r m0 : tmeta_data) (dest : List Byte) (size : Option Nat)
    (hwf : r.wf) (hm0 : m0.wf) (hN : r.cam_angles_count ≤ TMETA_CAMANGLES_MAXCOUNT)
    (hj : r.jpeg_data_size ≤ r.jpeg_data.length) (hcap : TMETA_BUF_SIZE r ≤ dest.length) :
    ∃ out m,
      tmeta_serialize_thermal_metadata_user_data_sei le (some r) (some dest) size =
        .ok (0, some out, size.map fun _ => TMETA_BUF_SIZE r) ∧
      tmeta_deserialize_thermal_metadata_user_data_sei le
        (some (out.take (TMETA_BUF_SIZE r))) (some m0) = .ok (0, some m) ∧
      m.version = TMETA_VERSION ∧ TMETA_VERSION = 0x00000004 ∧
      m.gain_mode = r.gain_mode ∧
      m.calib_r = r.calib_r ∧ m.calib_b = r.calib_b ∧ m.calib_f = r.calib_f ∧
      m.calib_o = r.calib_o ∧ m.calib_tau_win = r.calib_tau_win ∧
      m.calib_t_win = r.calib_t_win ∧ m.calib_t_bg = r.calib_t_bg ∧
      m.calib_emissivity = r.calib_emissivity ∧
      m.jpeg_data_size = r.jpeg_data_size ∧
      m.value_min = r.value_min ∧ m.value_max = r.value_max ∧
      m.attitude_reference_quat = r.attitude_reference_quat ∧
      m.cam_angles_count = r.cam_angles_count ∧
      m.cam_angles.take (4 * r.cam_angles_count) =
        r.cam_angles.take (4 * r.cam_angles_count) ∧
      m.cam_angles_timestamps.take r.cam_angles_count =
        r.cam_angles_timestamps.take r.cam_angles_count ∧
      m.jpeg_data.take r.jpeg_data_size = r.jpeg_data.take r.jpeg_data_size ∧
      m.frame_state = r.frame_state ∧
      m.fpa_temp = r.fpa_temp ∧ m.housing_temp = r.housing_temp ∧
      m.window_reflection = r.window_reflection ∧
      m.thermal_to_visible_quat = r.thermal_to_visible_quat := by
  obtain ⟨hq, ha, ht, hv⟩ := wf_lengths r hwf
  have hN2 : r.cam_angles_count ≤ 50 := hN
  have hl := wire_length le r hwf hN hj
  have hs := TMETA_BUF_SIZE_eq r hwf
  have h11 : r.jpeg_data_size < 2 ^ 32 := hwf.2.2.2.2.2.2.2.2.2.2.1
  have htake : (wire le r ++ dest.drop (TMETA_BUF_SIZE r)).take (TMETA_BUF_SIZE r) =
      wire le r ++ [] := by
    rw [List.append_nil]
    exact List.take_left' (by rw [hl, hs])
  refine ⟨wire le r ++ dest.drop (TMETA_BUF_SIZE r), reread le r m0 [], ?_, ?_, rfl, by decide,
    rfl, rfl, rfl, rfl, rfl, rfl, rfl, rfl, rfl, rfl, rfl, rfl, rfl, rfl, ?_, ?_, ?_, rfl, rfl,
    rfl, rfl, rfl⟩
  · rw [tmeta_serialize_eq le r dest size hwf hN hj, if_neg (by omega)]
  · rw [htake]
    exact deserialize_wire le r m0 [] hwf hm0 hN hj (by
      rw [List.append_nil, hl]; omega)
  · show (r.cam_angles.take (4 * r.cam_angles_count) ++ _).take _ = _
    exact List.take_left' (by rw [List.length_take, ha]; omega)
  · show (r.cam_angles_timestamps.take r.cam_angles_count ++ _).take _ = _
    exact List.take_left' (by rw [List.length_take, ht]; omega)
  · show (r.jpeg_data.take r.jpeg_data_size ++ _).take _ = _
    exact List.take_left' (by rw [List.length_take]; omega)

set_option maxRecDepth 100000 in
/-- C1 at the sample record, encoded on a little-endian host into a zeroed
buffer of 300 bytes and decoded into the stale record. -/
theorem C1_round_trip_witness :
    sampleRecord.wf ∧ staleRecord.wf ∧
    sampleRecord.cam_angles_count ≤ TMETA_CAMANGLES_MAXCOUNT ∧
    sampleRecord.jpeg_data_size ≤ sampleRecord.jpeg_data.length ∧
    TMETA_BUF_SIZE sampleRecord ≤ (List.replicate 300 (0 : Byte)).length ∧
    ∃ out m,
      tmeta_serialize_thermal_metadata_user_data_sei true (some sampleRecord)
        (some (List.replicate 300 0)) (some 0) = .ok (0, some out, some 215) ∧
      tmeta_deserialize_thermal_metadata_user_data_sei true (some (out.take 215))
        (some staleRecord) = .ok (0, some m) ∧
      m.version = 4 ∧ m.value_max = 0xdeadbeef ∧
      m.cam_angles_timestamps.take 2 = [0x0102030405060708, 99] ∧
      m.jpeg_data.take 3 = [0xff, 0xd8, 0xff] :=
  have h := C1_round_trip true sampleRecord staleRecord (List.replicate 300 0) (some 0)
    sampleRecord_wf staleRecord_wf (by decide) (by decide) (by decide)
  ⟨sampleRecord_wf, staleRecord_wf, by decide, by decide, by decide,
    let ⟨out, m, h1, h2, h3, _, _, _, _, _, _, _, _, _, _, _, _, h16, _, _, _, h20, h21, _⟩ := h
    ⟨out, m, h1, h2, h3, h16, h20, h21⟩⟩

/-! ## Camera angle count above the capacity (C2) -/

/-- With more than 50 camera angles announced and present, the decoder copies
past the end of `cam_angles`. -/
theorem cam_angles_overflow (le : Bool) (p : List Byte) (sz : Int) (m : tmeta_data)
    (hsz : sz = p.length) (hN : TMETA_CAMANGLES_MAXCOUNT < m.cam_angles_count)
    (hN2 : m.cam_angles_count < 2 ^ 27) (ha : m.cam_angles.length = 200)
    (h : 24 * m.cam_angles_count ≤ p.length) :
    deserialize_from_cam_angles le p sz m = .overflow := by
  subst hsz
  have hN3 : 50 < m.cam_angles_count := hN
  have h1 : ¬ ((p.length : Int) <
      ((toUInt (toUInt (4 * m.cam_angles_count * 4) + toUInt (m.cam_angles_count * 8)) : Nat) :
        Int)) := by
    simp only [toUInt]; omega
  have e1 : toUInt (4 * m.cam_angles_count * 4) = 16 * m.cam_angles_count := by
    simp only [toUInt]; omega
  have h2 : ¬ (16 * m.cam_angles_count ≤ 4 * m.cam_angles.length) := by omega
  simp only [deserialize_from_cam_angles, if_neg h1]
  simp only [e1, memcpyFloats, load_ok _ p (by omega : 16 * m.cam_angles_count ≤ p.length),
    Res.ok_bind, if_neg h2, Res.overflow_bind]

/-- A buffer with the tag, major version 0 and a count field between 51 and
2^27 that holds all the camera angles it announces makes the decoder copy past
the end of the record's arrays instead of returning. -/
theorem deserialize_overflow (le : Bool) (buf : List Byte) (m0 : tmeta_data)
    (htag : isTmeta buf) (hlen : buf.length < 2 ^ 63)
    (hmaj : TMETA_GET_MAJOR_VERSION (versionField buf) = 0)
    (hN : TMETA_CAMANGLES_MAXCOUNT < countField buf) (hN2 : countField buf < 2 ^ 27)
    (hwf : m0.wf) (hsize : 120 + 24 * countField buf ≤ buf.length) :
    tmeta_deserialize_thermal_metadata_user_data_sei le (some buf) (some m0) = .overflow := by
  obtain ⟨hq, ha, ht, hv⟩ := wf_lengths m0 hwf
  have h1 : ¬ (TMETA_GET_MAJOR_VERSION (versionField buf) > TMETA_MAJOR_VERSION) := by
    rw [hmaj]; decide
  have h2 : ¬ (buf.length < 120) := by omega
  have hc : (headerRec le (buf.drop 20) (m0.set_version (versionField buf))).cam_angles_count =
      countField buf := by
    simp only [headerRec_count, countField, List.drop_drop]
  rw [tmeta_deserialize_eq, if_pos htag, deserialize_top le buf m0 hlen htag.1, if_neg h1,
    if_neg h2, header_ok le _ _ _ rfl (by show 4 ≤ m0.attitude_reference_quat.length; omega)
      (by rw [List.length_drop]; omega),
    cam_angles_overflow le _ _ _ rfl (by rw [hc]; exact hN) (by rw [hc]; exact hN2)
      (by rw [headerRec_cam_angles]; exact ha)
      (by rw [hc]; simp only [List.length_drop]; omega)]
  rfl

set_option maxRecDepth 100000 in
/-- C2 at its failing input: the 1344-byte buffer `count51Buffer` carries the
identity tag, major version 0, a count field of 51 and all 51 announced
entries, and the decoder does not return a negative value on it: it copies 816
bytes into the 800-byte array `cam_angles`. -/
theorem C2_count_51_not_rejected (le : Bool) :
    tmeta_is_thermal_metadata_user_data_sei le (some count51Buffer) = .ok true ∧
    TMETA_GET_MAJOR_VERSION (versionField count51Buffer) = 0 ∧
    countField count51Buffer = 51 ∧
    count51Buffer.length = 120 + 24 * 51 ∧
    tmeta_deserialize_thermal_metadata_user_data_sei le (some count51Buffer)
      (some staleRecord) = .overflow := by
  have htag : isTmeta count51Buffer := by decide
  refine ⟨?_, by decide, by decide, by decide, ?_⟩
  · rw [is_thermal_eq]; simp [htag]
  · exact deserialize_overflow le count51Buffer staleRecord htag (by decide) (by decide)
      (by decide) (by decide) staleRecord_wf (by decide)

/-! ## Camera angle count that wraps the size test (C3) -/

theorem deserialize_timestamps_overread (le : Bool) (n i : Nat) (p : List Byte) (sz : Int)
    (ts : List Nat) (hn : 0 < n) (hp : p.length < 8) :
    deserialize_timestamps le n i p sz ts = .overread := by
  cases n with
  | zero => omega
  | succ n =>
    have h : ¬ (8 ≤ p.length) := by omega
    simp only [deserialize_timestamps, load64, load, if_neg h, Res.overread_bind]

/-- A count field of 0x20000000 makes both array sizes wrap to 0 in
`unsigned int`; the size test then passes on an exhausted buffer and the loop
loads the first timestamp past its end. -/
theorem cam_angles_wrap_overread (le : Bool) (p : List Byte) (sz : Int) (m : tmeta_data)
    (hsz : sz = p.length) (hN : m.cam_angles_count = 0x20000000) (hp : p.length < 8) :
    deserialize_from_cam_angles le p sz m = .overread := by
  subst hsz
  have e1 : toUInt (4 * m.cam_angles_count * 4) = 0 := by rw [hN]; decide
  have e2 : toUInt (m.cam_angles_count * 8) = 0 := by rw [hN]; decide
  have e3 : toUInt (0 + 0) = 0 := by decide
  have h1 : ¬ ((p.length : Int) < ((0 : Nat) : Int)) := by omega
  simp only [deserialize_from_cam_angles, e1, e2, e3, if_neg h1, memcpyFloats,
    load_ok 0 p (Nat.zero_le _), Nat.zero_le, if_true, Res.ok_bind, List.drop_zero]
  rw [deserialize_timestamps_overread le _ _ _ _ _ (by
    rw [cam_angles_count_set_cam_angles, hN]; decide) hp]
  rfl

/-- A buffer with the tag, major version 0 and exactly 120 bytes whose count
field is 0x20000000 makes the decoder load past the end of the buffer. -/
theorem deserialize_wrap_overread (le : Bool) (buf : List Byte) (m0 : tmeta_data)
    (htag : isTmeta buf) (hmaj : TMETA_GET_MAJOR_VERSION (versionField buf) = 0)
    (hN : countField buf = 0x20000000) (hwf : m0.wf) (hsize : buf.length = 120) :
    tmeta_deserialize_thermal_metadata_user_data_sei le (some buf) (some m0) = .overread := by
  obtain ⟨hq, ha, ht, hv⟩ := wf_lengths m0 hwf
  have h1 : ¬ (TMETA_GET_MAJOR_VERSION (versionField buf) > TMETA_MAJOR_VERSION) := by
    rw [hmaj]; decide
  have h2 : ¬ (buf.length < 120) := by omega
  have hc : (headerRec le (buf.drop 20) (m0.set_version (versionField buf))).cam_angles_count =
      countField buf := by
    simp only [headerRec_count, countField, List.drop_drop]
  rw [tmeta_deserialize_eq, if_pos htag, deserialize_top le buf m0 (by omega) htag.1, if_neg h1,
    if_neg h2, header_ok le _ _ _ rfl (by show 4 ≤ m0.attitude_reference_quat.length; omega)
      (by rw [List.length_drop]; omega),
    cam_angles_wrap_overread le _ _ _ rfl (by rw [hc]; exact hN)
      (by simp only [List.length_drop]; omega)]
  rfl

set_option maxRecDepth 100000 in
/-- C3 at its failing input: on the 120-byte buffer `countWrapBuffer`, whose
count field is 0x20000000, the size test of the camera-angle section passes
with no byte left and the decoder loads the 8 bytes at offsets 120 to 127,
past the declared length. -/
theorem C3_count_wrap_overread (le : Bool) :
    tmeta_is_thermal_metadata_user_data_sei le (some countWrapBuffer) = .ok true ∧
    countWrapBuffer.length = 120 ∧
    countField countWrapBuffer = 0x20000000 ∧
    toUInt (toUInt (4 * 0x20000000 * 4) + toUInt (0x20000000 * 8)) = 0 ∧
    tmeta_deserialize_thermal_metadata_user_data_sei le (some countWrapBuffer)
      (some staleRecord) = .overread := by
  have htag : isTmeta countWrapBuffer := by decide
  refine ⟨?_, by decide, by decide, by decide, ?_⟩
  · rw [is_thermal_eq]; simp [htag]
  · exact deserialize_wrap_overread le countWrapBuffer staleRecord htag (by decide) (by decide)
      staleRecord_wf (by decide)

/-! ## Truncated encodings (C4) -/

/-- Decoding a proper prefix of the wire image of a record fails without
leaving the prefix: with `-ENOENT` below 20 bytes and with -1 from there on. -/
theorem deserialize_wire_truncated (le : Bool) (r m0 : tmeta_data) (L : Nat) (hwf : r.wf)
    (hm0 : m0.wf) (hN : r.cam_angles_count ≤ TMETA_CAMANGLES_MAXCOUNT)
    (hj : r.jpeg_data_size ≤ r.jpeg_data.length) (hL : L < (wire le r).length) :
    ∃ m, tmeta_deserialize_thermal_metadata_user_data_sei le (some ((wire le r).take L))
      (some m0) = .ok (if L < 20 then -ENOENT else -1, some m) := by
  have hl := wire_length le r hwf hN hj
  have hq := (wf_lengths r hwf).1
  have hlen : ((wire le r).take L).length = L := by
    rw [List.length_take]; omega
  have hN2 : r.cam_angles_count ≤ 50 := hN
  have h11 : r.jpeg_data_size < 2 ^ 32 := hwf.2.2.2.2.2.2.2.2.2.2.1
  rw [tmeta_deserialize_eq]
  by_cases h20 : L < 20
  · have : ¬ isTmeta ((wire le r).take L) := fun h => by
      have := h.1; omega
    rw [if_neg this, if_pos h20]
    exact ⟨m0, rfl⟩
  · have hw : wire le r = wire le r ++ [] := (List.append_nil _).symm
    have htag : isTmeta ((wire le r).take L) := by
      refine ⟨by omega, ?_⟩
      rw [List.take_take, Nat.min_eq_left (by omega), hw, wire_split]
      exact wire_tag le r _
    rw [if_pos htag, if_neg h20]
    by_cases h120 : L < 120
    · rw [deserialize_short le _ m0 (by omega) (by omega)]
      exact ⟨_, rfl⟩
    · have hsplit : (wire le r).take L = wireHeader le r ++
          (arrBytes le 4 (r.cam_angles.take (r.cam_angles_count * 4)) ++
          (beArr 8 (r.cam_angles_timestamps.take r.cam_angles_count) ++
          (r.jpeg_data.take r.jpeg_data_size ++ (wireTail le r ++ [])))).take (L - 120) := by
        conv_lhs => rw [hw, wire_split]
        rw [List.take_append_eq_append_take, wireHeader_length le r hq,
          List.take_of_length_le (by rw [wireHeader_length le r hq]; omega)]
      have hmaj : TMETA_GET_MAJOR_VERSION (versionField ((wire le r).take L)) = 0 := by
        rw [hsplit, wire_versionField]; decide
      have hc : countField ((wire le r).take L) = r.cam_angles_count := by
        rw [hsplit, wire_countField le r _ hwf]
      have hb : jpegSizeField ((wire le r).take L) = r.jpeg_data_size := by
        rw [hsplit, wire_jpegSizeField le r _ hwf]
      have hv : versionField ((wire le r).take L) = 4 := by
        rw [hsplit, wire_versionField]
      have ht : tailSize (TMETA_GET_MINOR_VERSION 4) = 44 := by decide
      obtain ⟨m, hm⟩ := deserialize_fail le ((wire le r).take L) m0 (by omega) (by omega) hmaj
        (by rw [hc]; exact hN2) hm0 (by
          simp only [neededSize, hc, hb, hv, ht]; omega)
      rw [hm]
      exact ⟨m, rfl⟩

/-- C4 as amended (truncation safety): for every record `r` with
`cam_angles_count ≤ 50` encoded by the public encoder, and every length `L`
strictly below the encoded length `TMETA_BUF_SIZE r`, the public decoder run on
the first `L` bytes returns (no load leaves those `L` bytes) and fails: with
`-ENOENT`, the not-this-format value, when `L < 20`, and with -1 when
`20 ≤ L`. -/
theorem C4_truncation (le : Bool) (r m0 : tmeta_data) (dest : List Byte) (size : Option Nat)
    (hwf : r.wf) (hm0 : m0.wf) (hN : r.cam_angles_count ≤ TMETA_CAMANGLES_MAXCOUNT)
    (hj : r.jpeg_data_size ≤ r.jpeg_data.length) (hcap : TMETA_BUF_SIZE r ≤ dest.length) :
    ∃ out,
      tmeta_serialize_thermal_metadata_user_data_sei le (some r) (some dest) size =
        .ok (0, some out, size.map fun _ => TMETA_BUF_SIZE r) ∧
      ∀ L, L < TMETA_BUF_SIZE r →
        ∃ m, tmeta_deserialize_thermal_metadata_user_data_sei le (some (out.take L))
          (some m0) = .ok (if L < 20 then -ENOENT else -1, some m) := by
  have hl := wire_length le r hwf hN hj
  have hs := TMETA_BUF_SIZE_eq r hwf
  refine ⟨wire le r ++ dest.drop (TMETA_BUF_SIZE r), ?_, ?_⟩
  · rw [tmeta_serialize_eq le r dest size hwf hN hj, if_neg (by omega)]
  · intro L hL
    have e : (wire le r ++ dest.drop (TMETA_BUF_SIZE r)).take L = (wire le r).take L :=
      List.take_append_of_le_length (by omega)
    rw [e]
    exact deserialize_wire_truncated le r m0 L hwf hm0 hN hj (by omega)

set_option maxRecDepth 100000 in
/-- C4 as amended, at the sample record encoded into a zeroed buffer of 300
bytes and cut to 19 and to 214 of its 215 bytes. -/
theorem C4_truncation_witness :
    sampleRecord.wf ∧ staleRecord.wf ∧
    sampleRecord.cam_angles_count ≤ TMETA_CAMANGLES_MAXCOUNT ∧
    sampleRecord.jpeg_data_size ≤ sampleRecord.jpeg_data.length ∧
    TMETA_BUF_SIZE sampleRecord ≤ (List.replicate 300 (0 : Byte)).length ∧
    ∃ out,
      tmeta_serialize_thermal_metadata_user_data_sei true (some sampleRecord)
        (some (List.replicate 300 0)) none = .ok (0, some out, none) ∧
      (∃ m, tmeta_deserialize_thermal_metadata_user_data_sei true (some (out.take 19))
        (some staleRecord) = .ok (-ENOENT, some m)) ∧
      (∃ m, tmeta_deserialize_thermal_metadata_user_data_sei true (some (out.take 214))
        (some staleRecord) = .ok (-1, some m)) :=
  have h := C4_truncation true sampleRecord staleRecord (List.replicate 300 0) none
    sampleRecord_wf staleRecord_wf (by decide) (by decide) (by decide)
  ⟨sampleRecord_wf, staleRecord_wf, by decide, by decide, by decide,
    let ⟨out, h1, h2⟩ := h
    ⟨out, h1, h2 19 (by decide), h2 214 (by decide)⟩⟩

set_option maxRecDepth 100000 in
/-- C4 as stated fails: the encoding of the sample record is 215 bytes long,
and the public decoder run on its first 19 bytes returns `-ENOENT`, the
not-this-format value, which is not -1. -/
theorem C4_cut_to_19_is_enoent :
    (19 < TMETA_BUF_SIZE sampleRecord ∧ sampleRecord.cam_angles_count ≤ 50) ∧
    ∃ out,
      tmeta_serialize_thermal_metadata_user_data_sei true (some sampleRecord)
        (some (List.replicate 300 0)) none = .ok (0, some out, none) ∧
      tmeta_deserialize_thermal_metadata_user_data_sei true (some (out.take 19))
        (some staleRecord) = .ok (-ENOENT, some staleRecord) ∧
      -ENOENT ≠ (-1 : Int) := by
  refine ⟨by decide, wire true sampleRecord ++ (List.replicate 300 0).drop
    (TMETA_BUF_SIZE sampleRecord), ?_, ?_, by decide⟩
  · rw [tmeta_serialize_eq true sampleRecord _ none sampleRecord_wf (by decide) (by decide),
      if_neg (by decide)]
    rfl
  · have hlen : ((wire true sampleRecord ++ (List.replicate 300 0).drop
        (TMETA_BUF_SIZE sampleRecord)).take 19).length ≤ 19 := List.length_take_le _ _
    have : ¬ isTmeta ((wire true sampleRecord ++ (List.replicate 300 0).drop
        (TMETA_BUF_SIZE sampleRecord)).take 19) := fun h => by
      have := h.1; omega
    rw [tmeta_deserialize_eq, if_neg this]

/-! ## Encoded size (C5) -/

/-- C5 (size formula exactness): for every record `r` with
`cam_angles_count = N ≤ 50` and a blob of `B = jpeg_data_size` bytes, and every
destination with room, the public encoder returns 0 and reports
`TMETA_BUF_SIZE r = 164 + 24 * N + B`, and `serialize_thermal_metadata` stops
with its write cursor at that offset: the bytes below the cursor are exactly
that many, all of them written by it, and the buffer keeps its length. -/
theorem C5_size_exact (le : Bool) (r : tmeta_data) (dest : List Byte) (s0 : Nat)
    (hwf : r.wf) (hN : r.cam_angles_count ≤ TMETA_CAMANGLES_MAXCOUNT)
    (hj : r.jpeg_data_size ≤ r.jpeg_data.length) (hcap : TMETA_BUF_SIZE r ≤ dest.length) :
    TMETA_BUF_SIZE r = 164 + 24 * r.cam_angles_count + r.jpeg_data_size ∧
    (∃ out, tmeta_serialize_thermal_metadata_user_data_sei le (some r) (some dest) (some s0) =
      .ok (0, some out, some (164 + 24 * r.cam_angles_count + r.jpeg_data_size))) ∧
    ∃ c, serialize_thermal_metadata le r dest = .ok c ∧
      c.done.length = 164 + 24 * r.cam_angles_count + r.jpeg_data_size ∧
      c.done = wire le r ∧
      c.rest = dest.drop (164 + 24 * r.cam_angles_count + r.jpeg_data_size) ∧
      c.buffer.length = dest.length := by
  obtain ⟨hq, ha, ht, hv⟩ := wf_lengths r hwf
  have hN2 : r.cam_angles_count ≤ 50 := hN
  have hl := wire_length le r hwf hN hj
  have hs := TMETA_BUF_SIZE_eq r hwf
  have h2 : (wire le r).length ≤ dest.length := by omega
  refine ⟨hs, ⟨wire le r ++ dest.drop (TMETA_BUF_SIZE r), ?_⟩, ⟨{ done := wire le r, rest := dest.drop (wire le r).length }, ?_, hl,
    rfl, by rw [hl], ?_⟩⟩
  · rw [tmeta_serialize_eq le r dest (some s0) hwf hN hj, if_neg (by omega), hs]
    rfl
  · rw [serialize_eq_store le r dest (by omega) (by omega) (by omega) hj (by omega)]
    simp only [store, if_pos h2, List.nil_append]
  · simp only [Cursor.buffer, List.length_append, List.length_drop]
    omega

set_option maxRecDepth 100000 in
/-- C5 at the sample record (2 camera angles, 3 blob bytes) and a zeroed
buffer of 300 bytes: 215 bytes. -/
theorem C5_size_exact_witness :
    sampleRecord.wf ∧ sampleRecord.cam_angles_count ≤ TMETA_CAMANGLES_MAXCOUNT ∧
    sampleRecord.jpeg_data_size ≤ sampleRecord.jpeg_data.length ∧
    TMETA_BUF_SIZE sampleRecord ≤ (List.replicate 300 (0 : Byte)).length ∧
    TMETA_BUF_SIZE sampleRecord = 215 ∧
    ∃ c, serialize_thermal_metadata false sampleRecord (List.replicate 300 0) = .ok c ∧
      c.done.length = 215 :=
  have h := C5_size_exact false sampleRecord (List.replicate 300 0) 0
    sampleRecord_wf (by decide) (by decide) (by decide)
  ⟨sampleRecord_wf, by decide, by decide, by decide, h.1,
    let ⟨c, h1, h2, _⟩ := h.2.2
    ⟨c, h1, h2⟩⟩

/-! ## Encoder out of space (C6) -/

/-- C6 (encoder out of space): for every record with `cam_angles_count ≤ 50`
and every destination, the public encoder returns `-ENOBUFS` exactly when the
capacity is below `TMETA_BUF_SIZE r`; it then leaves every byte of the
destination and the size output as they were; otherwise it returns 0. -/
theorem C6_out_of_space (le : Bool) (r : tmeta_data) (dest : List Byte) (size : Option Nat)
    (hwf : r.wf) (hN : r.cam_angles_count ≤ TMETA_CAMANGLES_MAXCOUNT)
    (hj : r.jpeg_data_size ≤ r.jpeg_data.length) :
    ∃ code out sz,
      tmeta_serialize_thermal_metadata_user_data_sei le (some r) (some dest) size =
        .ok (code, some out, sz) ∧
      (code = -ENOBUFS ↔ dest.length < TMETA_BUF_SIZE r) ∧
      (dest.length < TMETA_BUF_SIZE r → out = dest ∧ sz = size) ∧
      (¬ dest.length < TMETA_BUF_SIZE r → code = 0) := by
  rw [tmeta_serialize_eq le r dest size hwf hN hj]
  by_cases h : dest.length < TMETA_BUF_SIZE r
  · rw [if_pos h]
    exact ⟨_, _, _, rfl, ⟨fun _ => h, fun _ => rfl⟩, fun _ => ⟨rfl, rfl⟩, fun h2 => absurd h h2⟩
  · rw [if_neg h]
    exact ⟨_, _, _, rfl, ⟨fun h2 => absurd h2 (by decide), fun h2 => absurd h2 h⟩,
      fun h2 => absurd h2 h, fun _ => rfl⟩

set_option maxRecDepth 100000 in
/-- C6 at the sample record, which needs 215 bytes, and a destination of 214
bytes. -/
theorem C6_out_of_space_witness :
    sampleRecord.wf ∧ sampleRecord.cam_angles_count ≤ TMETA_CAMANGLES_MAXCOUNT ∧
    sampleRecord.jpeg_data_size ≤ sampleRecord.jpeg_data.length ∧
    tmeta_serialize_thermal_metadata_user_data_sei true (some sampleRecord)
      (some (List.replicate 214 0x55)) (some 7) =
      .ok (-ENOBUFS, some (List.replicate 214 0x55), some 7) :=
  have h := C6_out_of_space true sampleRecord (List.replicate 214 0x55) (some 7)
    sampleRecord_wf (by decide) (by decide)
  ⟨sampleRecord_wf, by decide, by decide,
    let ⟨_, _, _, h1, h2, h3, _⟩ := h
    have hlt : (List.replicate 214 (0x55 : Byte)).length < TMETA_BUF_SIZE sampleRecord := by
      decide
    by rw [h1, h2.mpr hlt, (h3 hlt).1, (h3 hlt).2]⟩

/-! ## Format detector (C7) -/

/-- C7 (format detector): for every buffer the detector returns true exactly
when the buffer has at least 20 bytes and its bytes 0 to 15 are
a4 89 7b 82 44 15 41 71 b4 6a bc 8c d5 24 c7 7e; it returns false on the empty
buffer; two buffers of the same length with the same first 16 bytes get the
same answer; and the tag followed by any 4 bytes or more is accepted. -/
theorem C7_detector (le : Bool) (buf : List Byte) :
    tmeta_is_thermal_metadata_user_data_sei le (some buf) =
      .ok (decide (20 ≤ buf.length ∧ buf.take 16 =
        [0xa4, 0x89, 0x7b, 0x82, 0x44, 0x15, 0x41, 0x71,
         0xb4, 0x6a, 0xbc, 0x8c, 0xd5, 0x24, 0xc7, 0x7e])) ∧
    tmeta_is_thermal_metadata_user_data_sei le (some []) = .ok false ∧
    (∀ buf2 : List Byte, buf2.length = buf.length → buf2.take 16 = buf.take 16 →
      tmeta_is_thermal_metadata_user_data_sei le (some buf2) =
        tmeta_is_thermal_metadata_user_data_sei le (some buf)) ∧
    (∀ x : List Byte, 4 ≤ x.length →
      tmeta_is_thermal_metadata_user_data_sei le (some (sei_uuid_bytes ++ x)) = .ok true) := by
  refine ⟨is_thermal_eq le buf, ?_, ?_, ?_⟩
  · rw [is_thermal_eq]; rfl
  · intro buf2 h1 h2
    rw [is_thermal_eq, is_thermal_eq]
    simp only [isTmeta, h1, h2]
  · intro x hx
    rw [is_thermal_eq]
    have : isTmeta (sei_uuid_bytes ++ x) := by
      refine ⟨?_, List.take_left' (by decide)⟩
      rw [List.length_append]
      have : sei_uuid_bytes.length = 16 := by decide
      omega
    simp [this]

/-- C7 at the tag followed by four arbitrary bytes. -/
theorem C7_detector_witness :
    4 ≤ ([9, 8, 7, 6] : List Byte).length ∧
    tmeta_is_thermal_metadata_user_data_sei true (some (sei_uuid_bytes ++ [9, 8, 7, 6])) =
      .ok true :=
  ⟨by decide, (C7_detector true []).2.2.2 [9, 8, 7, 6] (by decide)⟩

/-! ## Not this format (C8) -/

theorem rz_ok_zero (m : tmeta_data) : ReturnsZeroOrMinusOne (.ok (0, m)) := by
  intro c m2 h
  injection h with h
  injection h with h1 h2
  exact Or.inl h1.symm

theorem rz_ok_minus_one (m : tmeta_data) : ReturnsZeroOrMinusOne (.ok (-1, m)) := by
  intro c m2 h
  injection h with h
  injection h with h1 h2
  exact Or.inr h1.symm

theorem rz_overflow : ReturnsZeroOrMinusOne .overflow := by
  intro c m2 h
  cases h

theorem rz_ite (c : Prop) [Decidable c] (a b : Res (Int × tmeta_data))
    (ha : ReturnsZeroOrMinusOne a) (hb : ReturnsZeroOrMinusOne b) :
    ReturnsZeroOrMinusOne (if c then a else b) := by
  split
  · exact ha
  · exact hb

theorem rz_bind {α : Type} (x : Res α) (f : α → Res (Int × tmeta_data))
    (hf : ∀ a, ReturnsZeroOrMinusOne (f a)) : ReturnsZeroOrMinusOne (x.bind f) := by
  cases x with
  | ok a => exact hf a
  | overread => intro c m h; cases h
  | overflow => intro c m h; cases h

theorem rz_from_v0_2 (le : Bool) (p : List Byte) (sz : Int) (m : tmeta_data) :
    ReturnsZeroOrMinusOne (deserialize_from_v0_2 le p sz m) := by
  unfold deserialize_from_v0_2
  repeat' first
    | apply rz_ok_zero
    | apply rz_ok_minus_one
    | apply rz_ite
    | (apply rz_bind; intro _)

theorem rz_from_jpeg (le : Bool) (p : List Byte) (sz : Int) (m : tmeta_data) :
    ReturnsZeroOrMinusOne (deserialize_from_jpeg le p sz m) := by
  unfold deserialize_from_jpeg
  repeat' first
    | apply rz_from_v0_2
    | apply rz_ok_minus_one
    | apply rz_ite

theorem rz_from_cam_angles (le : Bool) (p : List Byte) (sz : Int) (m : tmeta_data) :
    ReturnsZeroOrMinusOne (deserialize_from_cam_angles le p sz m) := by
  unfold deserialize_from_cam_angles
  repeat' first
    | apply rz_from_jpeg
    | apply rz_ok_minus_one
    | apply rz_ite
    | (apply rz_bind; intro _)

theorem rz_from_header (le : Bool) (p : List Byte) (sz : Int) (m : tmeta_data) :
    ReturnsZeroOrMinusOne (deserialize_from_header le p sz m) := by
  simp only [deserialize_from_header]
  iterate 14 (refine rz_bind _ _ (fun _ => ?_))
  exact rz_from_cam_angles _ _ _ _

/-- Whenever the inner decoder returns, it returns 0 or -1. -/
theorem rz_deserialize (le : Bool) (buf : List Byte) (m : tmeta_data) :
    ReturnsZeroOrMinusOne (deserialize_thermal_metadata le buf m) := by
  simp only [deserialize_thermal_metadata_eq]
  refine rz_ite _ _ _ (rz_ok_minus_one _) (rz_bind _ _ (fun _ => ?_))
  refine rz_ite _ _ _ (rz_ok_minus_one _) (rz_ite _ _ _ (rz_ok_minus_one _) ?_)
  exact rz_from_header _ _ _ _

/-- C8 (not this format): when the detector answers false on a buffer, the
public decoder returns `-ENOENT` and leaves the output record as it was; and
`-ENOENT` is returned in that case only: on a buffer the detector accepts,
every return of the public decoder is 0 or -1, and -1 is not `-ENOENT`. -/
theorem C8_not_this_format (le : Bool) (buf : List Byte) (m0 : tmeta_data) :
    (tmeta_is_thermal_metadata_user_data_sei le (some buf) = .ok false →
      tmeta_deserialize_thermal_metadata_user_data_sei le (some buf) (some m0) =
        .ok (-ENOENT, some m0)) ∧
    (∀ c m, tmeta_deserialize_thermal_metadata_user_data_sei le (some buf) (some m0) =
        .ok (c, m) →
      (c = -ENOENT ↔ tmeta_is_thermal_metadata_user_data_sei le (some buf) = .ok false)) ∧
    (tmeta_is_thermal_metadata_user_data_sei le (some buf) = .ok true →
      ∀ c m, tmeta_deserialize_thermal_metadata_user_data_sei le (some buf) (some m0) =
        .ok (c, m) → c = 0 ∨ c = -1) ∧
    -ENOENT ≠ (-1 : Int) ∧ -ENOENT ≠ (0 : Int) := by
  have hret : isTmeta buf → ∀ c m,
      tmeta_deserialize_thermal_metadata_user_data_sei le (some buf) (some m0) = .ok (c, m) →
      c = 0 ∨ c = -1 := by
    intro ht c m h
    rw [tmeta_deserialize_eq, if_pos ht] at h
    cases hd : deserialize_thermal_metadata le buf m0 with
    | ok r =>
      rw [hd] at h
      simp only [Res.ok_bind] at h
      injection h with h
      injection h with h1 h2
      obtain ⟨c2, m2⟩ := r
      exact h1 ▸ rz_deserialize le buf m0 c2 m2 hd
    | overread => rw [hd] at h; cases h
    | overflow => rw [hd] at h; cases h
  rw [is_thermal_eq]
  by_cases ht : isTmeta buf
  · rw [show decide (isTmeta buf) = true from decide_eq_true ht]
    refine ⟨fun h => ?_, fun c m h => ?_, fun _ => hret ht, by decide, by decide⟩
    · injection h with h; cases h
    · constructor
      · intro hc
        rcases hret ht c m h with h0 | h1
        · rw [h0] at hc; exact absurd hc (by decide)
        · rw [h1] at hc; exact absurd hc (by decide)
      · intro h2; injection h2 with h2; cases h2
  · rw [show decide (isTmeta buf) = false from decide_eq_false ht]
    have hres : tmeta_deserialize_thermal_metadata_user_data_sei le (some buf) (some m0) =
        .ok (-ENOENT, some m0) := by
      rw [tmeta_deserialize_eq, if_neg ht]
    refine ⟨fun _ => hres, fun c m h => ?_, fun h => ?_, by decide, by decide⟩
    · rw [hres] at h
      injection h with h
      injection h with h1 h2
      exact ⟨fun _ => rfl, fun _ => h1.symm⟩
    · injection h with h; cases h

/-- C8 at a 20-byte buffer of zeros, which does not carry the tag. -/
theorem C8_not_this_format_witness :
    tmeta_is_thermal_metadata_user_data_sei true (some (List.replicate 20 0)) = .ok false ∧
    tmeta_deserialize_thermal_metadata_user_data_sei true (some (List.replicate 20 0))
      (some staleRecord) = .ok (-ENOENT, some staleRecord) :=
  have h : tmeta_is_thermal_metadata_user_data_sei true (some (List.replicate 20 0)) =
      .ok false := by decide
  ⟨h, (C8_not_this_format true (List.replicate 20 0) staleRecord).1 h⟩

/-! ## Unsupported major version (C9) -/

theorem versionField_take (buf : List Byte) : versionField (buf.take 20) = versionField buf := by
  simp only [versionField, List.drop_take, Nat.reduceSub, List.take_take, Nat.min_self]

theorem isTmeta_take (buf : List Byte) (h : isTmeta buf) : isTmeta (buf.take 20) := by
  refine ⟨?_, ?_⟩
  · rw [List.length_take]; have := h.1; omega
  · rw [List.take_take]; exact h.2

/-- C9 (unsupported major version): for every buffer of at least 20 bytes
(and less than 2^63, as every object is) that carries the identity tag and
whose version field has a major number above 0, the public decoder returns -1,
the output record is the record it received with only `version` replaced, and
the run on the first 20 bytes alone ends the same way, so nothing at offset 20
or beyond is read. -/
theorem C9_major_version (le : Bool) (buf : List Byte) (m0 : tmeta_data)
    (hlen : buf.length < 2 ^ 63) (htag : isTmeta buf)
    (hmaj : TMETA_GET_MAJOR_VERSION (versionField buf) > 0) :
    tmeta_deserialize_thermal_metadata_user_data_sei le (some buf) (some m0) =
      .ok (-1, some (m0.set_version (versionField buf))) ∧
    tmeta_deserialize_thermal_metadata_user_data_sei le (some (buf.take 20)) (some m0) =
      tmeta_deserialize_thermal_metadata_user_data_sei le (some buf) (some m0) ∧
    (buf.take 20).length = 20 := by
  have h20 := htag.1
  have hl : (buf.take 20).length = 20 := by rw [List.length_take]; omega
  have h1 : tmeta_deserialize_thermal_metadata_user_data_sei le (some buf) (some m0) =
      .ok (-1, some (m0.set_version (versionField buf))) := by
    rw [tmeta_deserialize_eq, if_pos htag, deserialize_major le buf m0 hlen h20 hmaj]
    rfl
  refine ⟨h1, ?_, hl⟩
  rw [h1, tmeta_deserialize_eq, if_pos (isTmeta_take buf htag),
    deserialize_major le _ m0 (by omega) (by omega) (by rw [versionField_take]; exact hmaj),
    versionField_take]
  rfl

set_option maxRecDepth 100000 in
/-- C9 at the tag followed by version 1.0 and 200 bytes of 0xff. -/
theorem C9_major_version_witness :
    (sei_uuid_bytes ++ [0, 1, 0, 0] ++ List.replicate 200 0xff).length < 2 ^ 63 ∧
    isTmeta (sei_uuid_bytes ++ [0, 1, 0, 0] ++ List.replicate 200 0xff) ∧
    TMETA_GET_MAJOR_VERSION
      (versionField (sei_uuid_bytes ++ [0, 1, 0, 0] ++ List.replicate 200 0xff)) > 0 ∧
    tmeta_deserialize_thermal_metadata_user_data_sei true
      (some (sei_uuid_bytes ++ [0, 1, 0, 0] ++ List.replicate 200 0xff)) (some staleRecord) =
      .ok (-1, some (staleRecord.set_version 0x10000)) :=
  ⟨by decide, by decide, by decide,
    (C9_major_version true (sei_uuid_bytes ++ [0, 1, 0, 0] ++ List.replicate 200 0xff)
      staleRecord (by decide) (by decide) (by decide)).1⟩

/-! ## Version gating (C10) -/

theorem jpegSizeField_lt (buf : List Byte) : jpegSizeField buf < 2 ^ 32 := by
  have h := beVal_lt ((buf.drop 88).take 4)
  have h2 : ((buf.drop 88).take 4).length ≤ 4 := List.length_take_le _ _
  have h3 : (256 : Nat) ^ ((buf.drop 88).take 4).length ≤ 256 ^ 4 :=
    Nat.pow_le_pow_right (by decide) h2
  have e : (256 : Nat) ^ 4 = 2 ^ 32 := by norm_num
  unfold jpegSizeField
  omega

/-- The public decoder accepts a buffer that carries the tag, major version 0,
at most 50 camera angles and as many bytes as its fields announce. -/
theorem tmeta_deserialize_ok (le : Bool) (buf : List Byte) (m0 : tmeta_data)
    (htag : isTmeta buf) (hlen : buf.length < 2 ^ 63)
    (hmaj : TMETA_GET_MAJOR_VERSION (versionField buf) = 0)
    (hN : countField buf ≤ 50) (hwf : m0.wf) (hsize : neededSize buf ≤ buf.length) :
    tmeta_deserialize_thermal_metadata_user_data_sei le (some buf) (some m0) =
      .ok (0, some (decodedFields le buf m0)) := by
  rw [tmeta_deserialize_eq, if_pos htag, deserialize_ok le buf m0 hlen hmaj hN hwf hsize,
    decoded_eq]
  rfl

/-- C10 (version gating): a buffer with the identity tag, major version 0,
minor version `k` equal to 1 or 2, a count field `N ≤ 50`, a blob length field
`B` and exactly `120 + 24 * N + B` bytes (plus 4 when `k = 2`) is decoded with
return value 0; the temperatures and the alignment quaternion of the output
record are those it held before the call; `frame_state` is the one it held
before the call when `k = 1` and the big-endian value of the last 4 bytes of
the buffer when `k = 2`. -/
theorem C10_version_gating (le : Bool) (buf : List Byte) (m0 : tmeta_data) (k : Nat)
    (htag : isTmeta buf) (hmaj : TMETA_GET_MAJOR_VERSION (versionField buf) = 0)
    (hmin : TMETA_GET_MINOR_VERSION (versionField buf) = k) (hk : k = 1 ∨ k = 2)
    (hN : countField buf ≤ TMETA_CAMANGLES_MAXCOUNT) (hwf : m0.wf)
    (hsize : buf.length =
      120 + 24 * countField buf + jpegSizeField buf + (if k = 1 then 0 else 4)) :
    ∃ m, tmeta_deserialize_thermal_metadata_user_data_sei le (some buf) (some m0) =
        .ok (0, some m) ∧
      (k = 1 → m.frame_state = m0.frame_state) ∧
      (k = 2 → m.frame_state =
        beVal (buf.drop (120 + 24 * countField buf + jpegSizeField buf))) ∧
      m.fpa_temp = m0.fpa_temp ∧ m.housing_temp = m0.housing_temp ∧
      m.window_reflection = m0.window_reflection ∧
      m.thermal_to_visible_quat = m0.thermal_to_visible_quat := by
  have hN2 : countField buf ≤ 50 := hN
  have hB := jpegSizeField_lt buf
  have c3 : TMETA_GET_MINOR_VERSION (versionField buf) < 3 := by omega
  have c4 : TMETA_GET_MINOR_VERSION (versionField buf) < 4 := by omega
  have hts : tailSize (TMETA_GET_MINOR_VERSION (versionField buf)) =
      if k = 1 then 0 else 4 := by
    rcases hk with h | h <;> rw [hmin, h] <;> decide
  have hlen : buf.length < 2 ^ 63 := by
    rw [hsize]; split <;> omega
  refine ⟨decodedFields le buf m0,
    tmeta_deserialize_ok le buf m0 htag hlen hmaj hN2 hwf (by
      unfold neededSize; rw [hts, hsize]), ?_, ?_, ?_, ?_, ?_, ?_⟩
  · intro h1
    have c2 : TMETA_GET_MINOR_VERSION (versionField buf) < 2 := by omega
    simp only [decodedFields, if_pos c2]
  · intro h2
    have c2 : ¬ TMETA_GET_MINOR_VERSION (versionField buf) < 2 := by omega
    have e : (buf.drop (120 + 24 * countField buf + jpegSizeField buf)).take 4 =
        buf.drop (120 + 24 * countField buf + jpegSizeField buf) :=
      List.take_of_length_le (by
        rw [List.length_drop, hsize, h2]; simp)
    simp only [decodedFields, if_neg c2, e]
  · simp only [decodedFields, if_pos c3]
  · simp only [decodedFields, if_pos c3]
  · simp only [decodedFields, if_pos c3]
  · simp only [decodedFields, if_pos c4]

set_option maxRecDepth 100000 in
/-- C10 at a 124-byte buffer: tag, version 0.2, a zeroed header (no camera
angle, empty blob) and the shutter state 3. -/
theorem C10_version_gating_witness :
    isTmeta (sei_uuid_bytes ++ [0, 0, 0, 2] ++ List.replicate 100 0 ++ [0, 0, 0, 3]) ∧
    TMETA_GET_MAJOR_VERSION (versionField
      (sei_uuid_bytes ++ [0, 0, 0, 2] ++ List.replicate 100 0 ++ [0, 0, 0, 3])) = 0 ∧
    TMETA_GET_MINOR_VERSION (versionField
      (sei_uuid_bytes ++ [0, 0, 0, 2] ++ List.replicate 100 0 ++ [0, 0, 0, 3])) = 2 ∧
    staleRecord.wf ∧
    ∃ m, tmeta_deserialize_thermal_metadata_user_data_sei true
        (some (sei_uuid_bytes ++ [0, 0, 0, 2] ++ List.replicate 100 0 ++ [0, 0, 0, 3]))
        (some staleRecord) = .ok (0, some m) ∧
      m.frame_state = 3 ∧ m.fpa_temp = 0x99 ∧ m.housing_temp = 0x99 ∧
      m.window_reflection = 0x99 ∧ m.thermal_to_visible_quat = [0x99, 0x99, 0x99, 0x99] :=
  have h := C10_version_gating true
    (sei_uuid_bytes ++ [0, 0, 0, 2] ++ List.replicate 100 0 ++ [0, 0, 0, 3]) staleRecord 2
    (by decide) (by decide) (by decide) (Or.inr rfl) (by decide) staleRecord_wf (by decide)
  ⟨by decide, by decide, by decide, staleRecord_wf,
    let ⟨m, h1, _, h3, h4, h5, h6, h7⟩ := h
    ⟨m, h1, h3 rfl, h4, h5, h6, h7⟩⟩

/-! ## Success of the decoder, inverted -/

theorem cam_angles_timestamps_set_cam_angles (m : tmeta_data) (v : List Nat) :
    (m.set_cam_angles v).cam_angles_timestamps = m.cam_angles_timestamps := by
  cases m; rfl

/-- The timestamp loop only completes when all the entries it stores lie inside
the array. -/
theorem deserialize_timestamps_ok_inv (le : Bool) (n i : Nat) (p : List Byte) (sz : Int)
    (ts : List Nat) (r : List Byte × Int × List Nat) (hi : i ≤ ts.length)
    (h : deserialize_timestamps le n i p sz ts = .ok r) : i + n ≤ ts.length := by
  induction n generalizing i p sz ts with
  | zero => exact hi
  | succ n ih =>
    simp only [deserialize_timestamps] at h
    cases hl : load64 le p with
    | ok v =>
      rw [hl, Res.ok_bind] at h
      by_cases hlt : i < ts.length
      · rw [if_pos hlt] at h
        have := ih (i + 1) _ _ _ (by rw [List.length_set]; omega) h
        rw [List.length_set] at this
        omega
      · rw [if_neg hlt] at h
        cases h
    | overread => rw [hl] at h; cases h
    | overflow => rw [hl] at h; cases h

/-- With more camera angles announced than the arrays hold, the decoder never
returns 0. -/
theorem cam_angles_big_not_ok (le : Bool) (p : List Byte) (sz : Int) (m m1 : tmeta_data)
    (hN : TMETA_CAMANGLES_MAXCOUNT < m.cam_angles_count)
    (ht : m.cam_angles_timestamps.length = 50) :
    deserialize_from_cam_angles le p sz m ≠ .ok (0, m1) := by
  have hN2 : 50 < m.cam_angles_count := hN
  intro h
  simp only [deserialize_from_cam_angles] at h
  split at h
  · injection h with h
    injection h with h1 h2
    exact absurd h1 (by decide)
  · cases hm : memcpyFloats le m.cam_angles p (toUInt (4 * m.cam_angles_count * 4)) with
    | ok a =>
      rw [hm, Res.ok_bind, cam_angles_count_set_cam_angles,
        cam_angles_timestamps_set_cam_angles] at h
      cases hl : deserialize_timestamps le m.cam_angles_count 0
          (List.drop (toUInt (4 * m.cam_angles_count * 4)) p)
          (sz - ↑(toUInt (4 * m.cam_angles_count * 4))) m.cam_angles_timestamps with
      | ok r =>
        have := deserialize_timestamps_ok_inv le _ _ _ _ _ r (Nat.zero_le _) hl
        omega
      | overread => rw [hl] at h; cases h
      | overflow => rw [hl] at h; cases h
    | overread => rw [hm] at h; cases h
    | overflow => rw [hm] at h; cases h

/-- The public decoder returns 0 only on a buffer that carries the tag, major
version 0, at most 50 camera angles and as many bytes as its fields announce;
the record is then `decodedFields`. -/
theorem tmeta_deserialize_ok_inv (le : Bool) (buf : List Byte) (m0 m : tmeta_data)
    (hlen : buf.length < 2 ^ 63) (hwf : m0.wf)
    (h : tmeta_deserialize_thermal_metadata_user_data_sei le (some buf) (some m0) =
      .ok (0, some m)) :
    isTmeta buf ∧ TMETA_GET_MAJOR_VERSION (versionField buf) = 0 ∧
    countField buf ≤ 50 ∧ neededSize buf ≤ buf.length ∧ m = decodedFields le buf m0 := by
  obtain ⟨hq, ha, ht, hv⟩ := wf_lengths m0 hwf
  have key : ∀ (c : Int) (m1 : tmeta_data), c ≠ 0 →
      (Res.ok (c, some m1) : Res (Int × Option tmeta_data)) ≠ .ok (0, some m) := by
    intro c m1 hc hh
    injection hh with hh
    injection hh with h1 h2
    exact hc h1
  by_cases htag : isTmeta buf
  swap
  · rw [tmeta_deserialize_eq, if_neg htag] at h
    exact absurd h (key (-ENOENT) _ (by decide))
  have h20 := htag.1
  by_cases hmaj : TMETA_GET_MAJOR_VERSION (versionField buf) > 0
  · rw [tmeta_deserialize_eq, if_pos htag, deserialize_major le buf m0 hlen h20 hmaj] at h
    exact absurd h (key (-1) _ (by decide))
  have hmaj0 : TMETA_GET_MAJOR_VERSION (versionField buf) = 0 := by omega
  by_cases h120 : buf.length < 120
  · rw [tmeta_deserialize_eq, if_pos htag, deserialize_short le buf m0 h20 h120] at h
    exact absurd h (key (-1) _ (by decide))
  by_cases hN : countField buf ≤ 50
  · by_cases hs : neededSize buf ≤ buf.length
    · rw [tmeta_deserialize_ok le buf m0 htag hlen hmaj0 hN hwf hs] at h
      injection h with h
      injection h with h1 h2
      injection h2 with h2
      exact ⟨htag, hmaj0, hN, hs, h2.symm⟩
    · obtain ⟨m1, hm1⟩ := deserialize_fail le buf m0 hlen (by omega) hmaj0 hN hwf (by omega)
      rw [tmeta_deserialize_eq, if_pos htag, hm1] at h
      exact absurd h (key (-1) _ (by decide))
  · exfalso
    have h1 : ¬ (TMETA_GET_MAJOR_VERSION (versionField buf) > TMETA_MAJOR_VERSION) := hmaj
    have hc : (headerRec le (buf.drop 20) (m0.set_version (versionField buf))).cam_angles_count
        = countField buf := by
      simp only [headerRec_count, countField, List.drop_drop]
    rw [tmeta_deserialize_eq, if_pos htag, deserialize_top le buf m0 hlen h20, if_neg h1,
      if_neg h120, header_ok le _ _ _ rfl (by show 4 ≤ m0.attitude_reference_quat.length; omega)
        (by rw [List.length_drop]; omega)] at h
    cases hd : deserialize_from_cam_angles le (List.drop 100 (List.drop 20 buf))
        (↑(List.drop 100 (List.drop 20 buf)).length)
        (headerRec le (List.drop 20 buf) (m0.set_version (versionField buf))) with
    | ok r =>
      rw [hd, Res.ok_bind] at h
      obtain ⟨c, m1⟩ := r
      injection h with h
      injection h with h1 h2
      have h3 : c = 0 := h1
      rw [h3] at hd
      exact cam_angles_big_not_ok le _ _ _ m1 (by rw [hc]; show 50 < countField buf; omega)
        (by rw [headerRec_cam_angles_timestamps, cam_angles_timestamps_set_version]; exact ht) hd
    | overread => rw [hd] at h; cases h
    | overflow => rw [hd] at h; cases h

/-! ## Absent sections keep their previous values (C11) -/

/-- C11 as amended (absent sections): after a successful decode of a buffer
whose minor version is below 2 (respectively 3, 4), the output record's
`frame_state` (respectively its three temperatures, its alignment quaternion)
is the value the output record held before the call; the decoder does not set
it to zero. -/
theorem C11_absent_sections_kept (le : Bool) (buf : List Byte) (m0 m : tmeta_data)
    (hlen : buf.length < 2 ^ 63) (hwf : m0.wf)
    (h : tmeta_deserialize_thermal_metadata_user_data_sei le (some buf) (some m0) =
      .ok (0, some m)) :
    (TMETA_GET_MINOR_VERSION (versionField buf) < 2 → m.frame_state = m0.frame_state) ∧
    (TMETA_GET_MINOR_VERSION (versionField buf) < 3 →
      m.fpa_temp = m0.fpa_temp ∧ m.housing_temp = m0.housing_temp ∧
      m.window_reflection = m0.window_reflection) ∧
    (TMETA_GET_MINOR_VERSION (versionField buf) < 4 →
      m.thermal_to_visible_quat = m0.thermal_to_visible_quat) := by
  obtain ⟨-, -, -, -, hm⟩ := tmeta_deserialize_ok_inv le buf m0 m hlen hwf h
  subst hm
  refine ⟨fun c => ?_, fun c => ⟨?_, ?_, ?_⟩, fun c => ?_⟩ <;>
    simp only [decodedFields, if_pos c]

set_option maxRecDepth 100000 in
/-- C11 as stated fails: the 120-byte buffer `v01Buffer` has minor version 1
and is decoded with return value 0 into a record whose fields all held 0x99;
afterwards `frame_state`, the three temperatures and the alignment quaternion
still hold 0x99, not zero. -/
theorem C11_stale_values_survive :
    TMETA_GET_MINOR_VERSION (versionField v01Buffer) = 1 ∧
    ∃ m, tmeta_deserialize_thermal_metadata_user_data_sei true (some v01Buffer)
        (some staleRecord) = .ok (0, some m) ∧
      m.frame_state = 0x99 ∧ m.fpa_temp = 0x99 ∧ m.housing_temp = 0x99 ∧
      m.window_reflection = 0x99 ∧
      m.thermal_to_visible_quat = [0x99, 0x99, 0x99, 0x99] := by
  have c2 : TMETA_GET_MINOR_VERSION (versionField v01Buffer) < 2 := by decide
  have c3 : TMETA_GET_MINOR_VERSION (versionField v01Buffer) < 3 := by decide
  have c4 : TMETA_GET_MINOR_VERSION (versionField v01Buffer) < 4 := by decide
  refine ⟨by decide, decodedFields true v01Buffer staleRecord,
    tmeta_deserialize_ok true v01Buffer staleRecord (by decide) (by decide) (by decide)
      (by decide) staleRecord_wf (by decide), ?_, ?_, ?_, ?_, ?_⟩ <;>
    simp only [decodedFields, if_pos c2, if_pos c3, if_pos c4] <;> rfl

set_option maxRecDepth 100000 in
/-- C11 as amended, at `v01Buffer` decoded into the stale record. -/
theorem C11_absent_sections_kept_witness :
    v01Buffer.length < 2 ^ 63 ∧ staleRecord.wf ∧
    tmeta_deserialize_thermal_metadata_user_data_sei true (some v01Buffer)
        (some staleRecord) = .ok (0, some (decodedFields true v01Buffer staleRecord)) ∧
    (decodedFields true v01Buffer staleRecord).frame_state = staleRecord.frame_state :=
  have h := tmeta_deserialize_ok true v01Buffer staleRecord (by decide) (by decide) (by decide)
      (by decide) staleRecord_wf (by decide)
  ⟨by decide, staleRecord_wf, h,
    (C11_absent_sections_kept true v01Buffer staleRecord _ (by decide) staleRecord_wf h).1
      (by decide)⟩

/-! ## Minor versions above 4 (C12) -/

theorem withVersion04_drop (buf : List Byte) (k : Nat) (h20 : 20 ≤ buf.length) (hk : 20 ≤ k) :
    (withVersion04 buf).drop k = buf.drop k := by
  have hl : (buf.take 16 ++ [0, 0, 0, 4]).length = 20 := by
    rw [List.length_append, List.length_take]; simp; omega
  unfold withVersion04
  rw [drop_append_skip _ _ k (by omega), hl, List.drop_drop]
  congr 1
  omega

theorem withVersion04_length (buf : List Byte) (h20 : 20 ≤ buf.length) :
    (withVersion04 buf).length = buf.length := by
  unfold withVersion04
  simp only [List.length_append, List.length_take, List.length_drop, List.length_cons,
    List.length_nil]
  omega

theorem withVersion04_versionField (buf : List Byte) (h20 : 20 ≤ buf.length) :
    versionField (withVersion04 buf) = 4 := by
  have hl : (buf.take 16).length = 16 := by rw [List.length_take]; omega
  unfold versionField withVersion04
  rw [List.append_assoc, List.drop_left' hl, List.take_left' (by rfl)]
  decide

theorem withVersion04_isTmeta (buf : List Byte) (h : isTmeta buf) :
    isTmeta (withVersion04 buf) := by
  have hl : (buf.take 16).length = 16 := by rw [List.length_take]; have := h.1; omega
  refine ⟨by rw [withVersion04_length buf h.1]; exact h.1, ?_⟩
  unfold withVersion04
  rw [List.append_assoc, List.take_left' hl]
  exact h.2

theorem withVersion04_countField (buf : List Byte) (h20 : 20 ≤ buf.length) :
    countField (withVersion04 buf) = countField buf := by
  unfold countField
  rw [withVersion04_drop buf 116 h20 (by omega)]

theorem withVersion04_jpegSizeField (buf : List Byte) (h20 : 20 ≤ buf.length) :
    jpegSizeField (withVersion04 buf) = jpegSizeField buf := by
  unfold jpegSizeField
  rw [withVersion04_drop buf 88 h20 (by omega)]

theorem tailSize_of_ge (k : Nat) (h : 4 ≤ k) : tailSize k = 44 := by
  unfold tailSize
  rw [if_neg (by omega), if_neg (by omega), if_neg (by omega)]

/-- From minor version 4 on, the decoded record depends on the version field
for its `version` only. -/
theorem decodedFields_withVersion04 (le : Bool) (buf : List Byte) (m0 : tmeta_data)
    (h20 : 20 ≤ buf.length) (hmin : 4 ≤ TMETA_GET_MINOR_VERSION (versionField buf)) :
    decodedFields le (withVersion04 buf) m0 = (decodedFields le buf m0).set_version 4 := by
  have c2 : ¬ TMETA_GET_MINOR_VERSION (versionField buf) < 2 := by omega
  have c3 : ¬ TMETA_GET_MINOR_VERSION (versionField buf) < 3 := by omega
  have c4 : ¬ TMETA_GET_MINOR_VERSION (versionField buf) < 4 := by omega
  have d2 : ¬ TMETA_GET_MINOR_VERSION 4 < 2 := by decide
  have d3 : ¬ TMETA_GET_MINOR_VERSION 4 < 3 := by decide
  have d4 : ¬ TMETA_GET_MINOR_VERSION 4 < 4 := by decide
  have hd : ∀ k, 20 ≤ k → (withVersion04 buf).drop k = buf.drop k :=
    fun k hk => withVersion04_drop buf k h20 hk
  simp (disch := omega) only [decodedFields, tmeta_data.set_version,
    withVersion04_versionField buf h20, withVersion04_countField buf h20,
    withVersion04_jpegSizeField buf h20, if_neg c2, if_neg c3, if_neg c4, if_neg d2, if_neg d3,
    if_neg d4, hd]


theorem withVersion04_neededSize (buf : List Byte) (h20 : 20 ≤ buf.length)
    (hmin : 4 ≤ TMETA_GET_MINOR_VERSION (versionField buf)) :
    neededSize (withVersion04 buf) = neededSize buf := by
  have d : tailSize (TMETA_GET_MINOR_VERSION 4) = 44 := by decide
  simp only [neededSize, withVersion04_versionField buf h20, withVersion04_countField buf h20,
    withVersion04_jpegSizeField buf h20, tailSize_of_ge _ hmin, d]

/-- C12 (forward-compatible minor versions): for every buffer with the identity
tag, major version 0 and a minor number above 4, the public decoder returns 0
exactly when it returns 0 on the same buffer with the version field replaced by
0.4, and the two records then agree in every field except `version`: the second
is the first with `version` set to 4. -/
theorem C12_forward_minor (le : Bool) (buf : List Byte) (m0 : tmeta_data)
    (hlen : buf.length < 2 ^ 63) (htag : isTmeta buf)
    (hmaj : TMETA_GET_MAJOR_VERSION (versionField buf) = 0)
    (hmin : 4 < TMETA_GET_MINOR_VERSION (versionField buf)) (hwf : m0.wf) :
    ((∃ m, tmeta_deserialize_thermal_metadata_user_data_sei le (some buf) (some m0) =
        .ok (0, some m)) ↔
      (∃ m, tmeta_deserialize_thermal_metadata_user_data_sei le (some (withVersion04 buf))
        (some m0) = .ok (0, some m))) ∧
    (∀ m m2, tmeta_deserialize_thermal_metadata_user_data_sei le (some buf) (some m0) =
        .ok (0, some m) →
      tmeta_deserialize_thermal_metadata_user_data_sei le (some (withVersion04 buf))
        (some m0) = .ok (0, some m2) →
      m2 = m.set_version 4) := by
  have h20 := htag.1
  have hmin4 : 4 ≤ TMETA_GET_MINOR_VERSION (versionField buf) := by omega
  have hl := withVersion04_length buf h20
  have hn := withVersion04_neededSize buf h20 hmin4
  have hc := withVersion04_countField buf h20
  have hv := withVersion04_versionField buf h20
  have hmaj2 : TMETA_GET_MAJOR_VERSION (versionField (withVersion04 buf)) = 0 := by
    rw [hv]; decide
  refine ⟨⟨fun ⟨m, h⟩ => ?_, fun ⟨m, h⟩ => ?_⟩, fun m m2 h h2 => ?_⟩
  · obtain ⟨_, _, hN, hs, _⟩ := tmeta_deserialize_ok_inv le buf m0 m hlen hwf h
    exact ⟨_, tmeta_deserialize_ok le _ m0 (withVersion04_isTmeta buf htag) (by omega) hmaj2
      (by rw [hc]; exact hN) hwf (by rw [hn, hl]; exact hs)⟩
  · obtain ⟨_, _, hN, hs, _⟩ := tmeta_deserialize_ok_inv le _ m0 m (by omega) hwf h
    exact ⟨_, tmeta_deserialize_ok le buf m0 htag hlen hmaj (by rw [← hc]; exact hN) hwf
      (by rw [← hn, ← hl]; exact hs)⟩
  · obtain ⟨_, _, _, _, e1⟩ := tmeta_deserialize_ok_inv le buf m0 m hlen hwf h
    obtain ⟨_, _, _, _, e2⟩ := tmeta_deserialize_ok_inv le _ m0 m2 (by omega) hwf h2
    rw [e1, e2]
    exact decodedFields_withVersion04 le buf m0 h20 hmin4

set_option maxRecDepth 100000 in
/-- C12 at the wire image of the sample record with its version field set to
0.9. -/
theorem C12_forward_minor_witness :
    (sei_uuid_bytes ++ [0, 0, 0, 9] ++ (wire true sampleRecord).drop 20).length < 2 ^ 63 ∧
    isTmeta (sei_uuid_bytes ++ [0, 0, 0, 9] ++ (wire true sampleRecord).drop 20) ∧
    4 < TMETA_GET_MINOR_VERSION (versionField
      (sei_uuid_bytes ++ [0, 0, 0, 9] ++ (wire true sampleRecord).drop 20)) ∧
    ((∃ m, tmeta_deserialize_thermal_metadata_user_data_sei true
        (some (sei_uuid_bytes ++ [0, 0, 0, 9] ++ (wire true sampleRecord).drop 20))
        (some staleRecord) = .ok (0, some m)) ↔
      (∃ m, tmeta_deserialize_thermal_metadata_user_data_sei true
        (some (withVersion04 (sei_uuid_bytes ++ [0, 0, 0, 9] ++
          (wire true sampleRecord).drop 20)))
        (some staleRecord) = .ok (0, some m))) :=
  ⟨by decide, by decide, by decide,
    (C12_forward_minor true (sei_uuid_bytes ++ [0, 0, 0, 9] ++ (wire true sampleRecord).drop 20)
      staleRecord (by decide) (by decide) (by decide) (by decide) staleRecord_wf).1⟩

/-! ## Trailing bytes (C13) -/

theorem slice_append (b x : List Byte) (k w : Nat) (h : k + w ≤ b.length) :
    ((b ++ x).drop k).take w = (b.drop k).take w := by
  rw [List.drop_append_of_le_length (by omega),
    List.take_append_of_le_length (by rw [List.length_drop]; omega)]

theorem beVals_append (w n : Nat) (p x : List Byte) (h : w * n ≤ p.length) :
    beVals w n (p ++ x) = beVals w n p := by
  induction n generalizing p with
  | zero => rfl
  | succ n ih =>
    have h1 : w ≤ p.length := by
      have : w * (n + 1) = w * n + w := by ring
      omega
    have h2 : w * n ≤ (p.drop w).length := by
      have : w * (n + 1) = w * n + w := by ring
      rw [List.length_drop]; omega
    simp only [beVals]
    rw [List.take_append_of_le_length h1, List.drop_append_of_le_length h1, ih _ h2]

theorem versionField_append (b x : List Byte) (h : 20 ≤ b.length) :
    versionField (b ++ x) = versionField b := by
  unfold versionField; rw [slice_append b x 16 4 (by omega)]

theorem countField_append (b x : List Byte) (h : 120 ≤ b.length) :
    countField (b ++ x) = countField b := by
  unfold countField; rw [slice_append b x 116 4 (by omega)]

theorem jpegSizeField_append (b x : List Byte) (h : 120 ≤ b.length) :
    jpegSizeField (b ++ x) = jpegSizeField b := by
  unfold jpegSizeField; rw [slice_append b x 88 4 (by omega)]

theorem isTmeta_append (b x : List Byte) (h : isTmeta b) : isTmeta (b ++ x) := by
  refine ⟨by rw [List.length_append]; have := h.1; omega, ?_⟩
  rw [List.take_append_of_le_length (by have := h.1; omega)]
  exact h.2

/-- Bytes after the last section the decoder reads do not change the decoded
record, apart from lengthening the view `jpeg_data` has of the buffer. -/
theorem decodedFields_append (le : Bool) (b x : List Byte) (m0 : tmeta_data)
    (hs : neededSize b ≤ b.length) :
    decodedFields le (b ++ x) m0 =
      (decodedFields le b m0).set_jpeg_data ((decodedFields le b m0).jpeg_data ++ x) := by
  have h120 : 120 ≤ b.length := by unfold neededSize at hs; omega
  have hv := versionField_append b x (by omega)
  have hc := countField_append b x h120
  have hj := jpegSizeField_append b x h120
  have hts : beVals 8 (countField b) (List.drop (120 + 16 * countField b) (b ++ x)) =
      beVals 8 (countField b) (List.drop (120 + 16 * countField b) b) := by
    unfold neededSize at hs
    rw [List.drop_append_of_le_length (by omega),
      beVals_append _ _ _ _ (by rw [List.length_drop]; omega)]
  have hjd : List.drop (120 + 24 * countField b) (b ++ x) =
      List.drop (120 + 24 * countField b) b ++ x := by
    unfold neededSize at hs
    rw [List.drop_append_of_le_length (by omega)]
  have hsl : ∀ k w, k + w ≤ b.length → ((b ++ x).drop k).take w = (b.drop k).take w :=
    fun k w h => slice_append b x k w h
  unfold neededSize at hs
  by_cases c2 : TMETA_GET_MINOR_VERSION (versionField b) < 2
  · have c3 : TMETA_GET_MINOR_VERSION (versionField b) < 3 := by omega
    have c4 : TMETA_GET_MINOR_VERSION (versionField b) < 4 := by omega
    simp (disch := omega) only [decodedFields, tmeta_data.set_jpeg_data, hv, hc, hj, hts, hjd,
      if_pos c2, if_pos c3, if_pos c4, hsl]
  by_cases c3 : TMETA_GET_MINOR_VERSION (versionField b) < 3
  · have c4 : TMETA_GET_MINOR_VERSION (versionField b) < 4 := by omega
    simp only [tailSize, if_neg c2, if_pos c3] at hs
    simp (disch := omega) only [decodedFields, tmeta_data.set_jpeg_data, hv, hc, hj, hts, hjd,
      if_neg c2, if_pos c3, if_pos c4, hsl]
  by_cases c4 : TMETA_GET_MINOR_VERSION (versionField b) < 4
  · simp only [tailSize, if_neg c2, if_neg c3, if_pos c4] at hs
    simp (disch := omega) only [decodedFields, tmeta_data.set_jpeg_data, hv, hc, hj, hts, hjd,
      if_neg c2, if_neg c3, if_pos c4, hsl]
  · simp only [tailSize, if_neg c2, if_neg c3, if_neg c4] at hs
    simp (disch := omega) only [decodedFields, tmeta_data.set_jpeg_data, hv, hc, hj, hts, hjd,
      if_neg c2, if_neg c3, if_neg c4, hsl]

theorem neededSize_append (b x : List Byte) (h : 120 ≤ b.length) :
    neededSize (b ++ x) = neededSize b := by
  unfold neededSize
  rw [versionField_append b x (by omega), countField_append b x h, jpegSizeField_append b x h]

theorem decodedFields_cam_angles_count (le : Bool) (buf : List Byte) (m0 : tmeta_data) :
    (decodedFields le buf m0).cam_angles_count = countField buf := rfl

theorem decodedFields_jpeg_data (le : Bool) (buf : List Byte) (m0 : tmeta_data) :
    (decodedFields le buf m0).jpeg_data = buf.drop (120 + 24 * countField buf) := rfl

theorem decodedFields_jpeg_data_size (le : Bool) (buf : List Byte) (m0 : tmeta_data) :
    (decodedFields le buf m0).jpeg_data_size = jpegSizeField buf := rfl

/-- C13 (trailing bytes are ignored): when the public decoder returns 0 on a
buffer `b` with record `m`, it returns 0 on `b ++ x` for every byte sequence
`x`, and the record is `m` with the view `jpeg_data` lengthened by `x`: every
other field is equal, the blob starts at the same offset `120 + 24 * count` of
the buffer, has the same length `jpeg_data_size`, and the same content. -/
theorem C13_trailing_bytes_ignored (le : Bool) (b x : List Byte) (m0 m : tmeta_data)
    (hlen : (b ++ x).length < 2 ^ 63) (hwf : m0.wf)
    (h : tmeta_deserialize_thermal_metadata_user_data_sei le (some b) (some m0) =
      .ok (0, some m)) :
    tmeta_deserialize_thermal_metadata_user_data_sei le (some (b ++ x)) (some m0) =
      .ok (0, some (m.set_jpeg_data (m.jpeg_data ++ x))) ∧
    m.jpeg_data = b.drop (120 + 24 * m.cam_angles_count) ∧
    m.jpeg_data ++ x = (b ++ x).drop (120 + 24 * m.cam_angles_count) ∧
    (m.set_jpeg_data (m.jpeg_data ++ x)).jpeg_data_size = m.jpeg_data_size ∧
    (m.jpeg_data ++ x).take m.jpeg_data_size = m.jpeg_data.take m.jpeg_data_size := by
  have hlb : b.length < 2 ^ 63 := by rw [List.length_append] at hlen; omega
  obtain ⟨htag, hmaj, hN, hs, hm⟩ := tmeta_deserialize_ok_inv le b m0 m hlb hwf h
  have h120 : 120 ≤ b.length := by unfold neededSize at hs; omega
  have e := decodedFields_append le b x m0 hs
  have hd := tmeta_deserialize_ok le (b ++ x) m0 (isTmeta_append b x htag) hlen
    (by rw [versionField_append b x (by omega)]; exact hmaj)
    (by rw [countField_append b x h120]; exact hN) hwf
    (by rw [neededSize_append b x h120, List.length_append]; omega)
  rw [e, ← hm] at hd
  have hc : m.cam_angles_count = countField b := by
    rw [hm]; exact decodedFields_cam_angles_count le b m0
  have hj : m.jpeg_data = b.drop (120 + 24 * countField b) := by
    rw [hm]; exact decodedFields_jpeg_data le b m0
  have hz : m.jpeg_data_size = jpegSizeField b := by
    rw [hm]; exact decodedFields_jpeg_data_size le b m0
  refine ⟨hd, by rw [hc]; exact hj, ?_, by cases m; rfl, ?_⟩
  · unfold neededSize at hs
    rw [hc, hj, List.drop_append_of_le_length (by omega)]
  · unfold neededSize at hs
    rw [List.take_append_of_le_length (by rw [hj, hz, List.length_drop]; omega)]

set_option maxRecDepth 100000 in
/-- C13 at the wire image of the sample record followed by three bytes. -/
theorem C13_trailing_bytes_ignored_witness :
    (wire true sampleRecord ++ [1, 2, 3]).length < 2 ^ 63 ∧ staleRecord.wf ∧
    tmeta_deserialize_thermal_metadata_user_data_sei true (some (wire true sampleRecord))
      (some staleRecord) =
      .ok (0, some (decodedFields true (wire true sampleRecord) staleRecord)) ∧
    tmeta_deserialize_thermal_metadata_user_data_sei true
      (some (wire true sampleRecord ++ [1, 2, 3])) (some staleRecord) =
      .ok (0, some ((decodedFields true (wire true sampleRecord) staleRecord).set_jpeg_data
        ((decodedFields true (wire true sampleRecord) staleRecord).jpeg_data ++ [1, 2, 3]))) :=
  have h := tmeta_deserialize_ok true (wire true sampleRecord) staleRecord (by decide)
    (by decide) (by decide) (by decide) staleRecord_wf (by decide)
  ⟨by decide, staleRecord_wf, h,
    (C13_trailing_bytes_ignored true (wire true sampleRecord) [1, 2, 3] staleRecord _
      (by decide) staleRecord_wf h).1⟩

/-! ## The encoder does not read the version (C14) -/

theorem TMETA_BUF_SIZE_set_version (r : tmeta_data) (v : Nat) :
    TMETA_BUF_SIZE (r.set_version v) = TMETA_BUF_SIZE r := by cases r; rfl

theorem serialize_set_version (le : Bool) (r : tmeta_data) (v : Nat) (b : List Byte) :
    serialize_thermal_metadata le (r.set_version v) b = serialize_thermal_metadata le r b := by
  cases r; rfl

/-- The public encoder does not read the field `version` of the record. -/
theorem tmeta_serialize_set_version (le : Bool) (r : tmeta_data) (v : Nat)
    (dest : Option (List Byte)) (size : Option Nat) :
    tmeta_serialize_thermal_metadata_user_data_sei le (some (r.set_version v)) dest size =
      tmeta_serialize_thermal_metadata_user_data_sei le (some r) dest size := by
  cases dest with
  | none => rfl
  | some b =>
    simp only [tmeta_serialize_thermal_metadata_user_data_sei, TMETA_BUF_SIZE_set_version,
      serialize_set_version]

/-- A return value of 0 from the public encoder means that the buffer was large
enough and now starts with the wire image of the record. -/
theorem tmeta_serialize_ok_inv (le : Bool) (r : tmeta_data) (b out : List Byte)
    (size sz : Option Nat) (hwf : r.wf) (hN : r.cam_angles_count ≤ TMETA_CAMANGLES_MAXCOUNT)
    (hj : r.jpeg_data_size ≤ r.jpeg_data.length)
    (h : tmeta_serialize_thermal_metadata_user_data_sei le (some r) (some b) size =
      .ok (0, some out, sz)) :
    TMETA_BUF_SIZE r ≤ b.length ∧ out = wire le r ++ b.drop (TMETA_BUF_SIZE r) ∧
    sz = size.map fun _ => TMETA_BUF_SIZE r := by
  rw [tmeta_serialize_eq le r b size hwf hN hj] at h
  by_cases c : b.length < TMETA_BUF_SIZE r
  · rw [if_pos c] at h
    have h1 := congrArg (fun (x : Res (Int × Option (List Byte) × Option Nat)) =>
      match x with
      | .ok (c, _, _) => c
      | _ => 0) h
    simp only [ENOBUFS] at h1
    omega
  · rw [if_neg c] at h
    injection h with h
    injection h with _ h
    injection h with h1 h2
    injection h1 with h1
    exact ⟨by omega, h1.symm, h2.symm⟩

theorem wire_version_bytes (le : Bool) (r : tmeta_data) (x : List Byte) :
    ((wire le r ++ x).drop 16).take 4 = [0, 0, 0, 4] := by
  rw [wire_split]
  simp (disch := simp) only [wireHeader, List.append_assoc, drop_append_skip,
    take_append_exact, beBytes_length, hostBytes_length, Nat.reduceSub, List.drop_zero]
  decide

/-- C14 (the encoder ignores the record's version): two records that differ
only in `version` give the same result of the public encoder, on every
destination, and in every output of a call that returns 0 the bytes 16 to 19
are 00 00 00 04, the big-endian image of version 0.4; such a call exists as
soon as the destination has `TMETA_BUF_SIZE` bytes. -/
theorem C14_version_ignored (le : Bool) (r : tmeta_data) (v : Nat)
    (dest : Option (List Byte)) (size : Option Nat) (hwf : r.wf)
    (hN : r.cam_angles_count ≤ TMETA_CAMANGLES_MAXCOUNT)
    (hj : r.jpeg_data_size ≤ r.jpeg_data.length) :
    tmeta_serialize_thermal_metadata_user_data_sei le (some (r.set_version v)) dest size =
      tmeta_serialize_thermal_metadata_user_data_sei le (some r) dest size ∧
    (∀ b out sz, tmeta_serialize_thermal_metadata_user_data_sei le (some r) (some b) size =
        .ok (0, some out, sz) →
      (out.drop 16).take 4 = [0, 0, 0, 4] ∧ beVal ((out.drop 16).take 4) = TMETA_VERSION ∧
      TMETA_GET_MAJOR_VERSION TMETA_VERSION = 0 ∧ TMETA_GET_MINOR_VERSION TMETA_VERSION = 4) ∧
    (∀ b : List Byte, TMETA_BUF_SIZE r ≤ b.length →
      ∃ out sz, tmeta_serialize_thermal_metadata_user_data_sei le (some r) (some b) size =
        .ok (0, some out, sz)) := by
  refine ⟨tmeta_serialize_set_version le r v dest size, fun b out sz h => ?_, fun b hb => ?_⟩
  · obtain ⟨_, ho, _⟩ := tmeta_serialize_ok_inv le r b out size sz hwf hN hj h
    rw [ho, wire_version_bytes]
    exact ⟨rfl, by decide, by decide, by decide⟩
  · rw [tmeta_serialize_eq le r b size hwf hN hj, if_neg (by omega)]
    exact ⟨_, _, rfl⟩

set_option maxRecDepth 100000 in
/-- C14 at the sample record, with `version` replaced by 7 and a destination
of 300 bytes. -/
theorem C14_version_ignored_witness :
    sampleRecord.wf ∧ sampleRecord.cam_angles_count ≤ TMETA_CAMANGLES_MAXCOUNT ∧
    sampleRecord.jpeg_data_size ≤ sampleRecord.jpeg_data.length ∧
    tmeta_serialize_thermal_metadata_user_data_sei true (some (sampleRecord.set_version 7))
        (some (List.replicate 300 0)) (some 0) =
      tmeta_serialize_thermal_metadata_user_data_sei true (some sampleRecord)
        (some (List.replicate 300 0)) (some 0) :=
  ⟨sampleRecord_wf, by decide, by decide,
    (C14_version_ignored true sampleRecord 7 (some (List.replicate 300 0)) (some 0)
      sampleRecord_wf (by decide) (by decide)).1⟩

/-! ## Wire layout of the integer fields (C15) -/

theorem drop_append_add (a b : List Byte) (n k : Nat) (h : a.length = n) :
    (a ++ b).drop (n + k) = b.drop k := by
  rw [drop_append_skip a b (n + k) (by omega)]
  congr 1; omega

theorem slice_append_left (a b : List Byte) (n : Nat) (h : a.length = n) :
    (a ++ b).take n = a := List.take_left' h

/-- Entry `i` of an array of 64-bit integers laid out big-endian. -/
theorem beArr_slice (ts : List Nat) (rest : List Byte) (i : Nat) (hi : i < ts.length) :
    ((beArr 8 ts ++ rest).drop (8 * i)).take 8 = beBytes 8 (ts.getD i 0) := by
  induction ts generalizing i with
  | nil => simp at hi
  | cons t ts ih =>
    cases i with
    | zero =>
      simp only [beArr, List.append_assoc, Nat.mul_zero, List.drop_zero]
      exact List.take_left' (beBytes_length 8 t)
    | succ i =>
      have e : 8 * (i + 1) = 8 + 8 * i := by ring
      simp only [beArr, List.append_assoc]
      rw [e, drop_append_add _ _ 8 _ (beBytes_length 8 t)]
      rw [ih i (by simpa using hi)]
      simp

theorem wire_after_header (le : Bool) (r : tmeta_data) (x : List Byte) (k : Nat) (hwf : r.wf) :
    (wire le r ++ x).drop (120 + k) =
      (arrBytes le 4 (r.cam_angles.take (r.cam_angles_count * 4)) ++
        (beArr 8 (r.cam_angles_timestamps.take r.cam_angles_count) ++
          (r.jpeg_data.take r.jpeg_data_size ++ (wireTail le r ++ x)))).drop k := by
  rw [wire_split, drop_append_add _ _ 120 k (wireHeader_length le r (wf_lengths r hwf).1)]

theorem wire_after_angles (le : Bool) (r : tmeta_data) (x : List Byte) (k : Nat) (hwf : r.wf)
    (hN : r.cam_angles_count ≤ TMETA_CAMANGLES_MAXCOUNT) :
    (wire le r ++ x).drop (120 + 16 * r.cam_angles_count + k) =
      (beArr 8 (r.cam_angles_timestamps.take r.cam_angles_count) ++
        (r.jpeg_data.take r.jpeg_data_size ++ (wireTail le r ++ x))).drop k := by
  have hN2 : r.cam_angles_count ≤ 50 := hN
  rw [Nat.add_assoc, wire_after_header le r x _ hwf,
    drop_append_add _ _ (16 * r.cam_angles_count) k
      (by rw [arrBytes_length, List.length_take, (wf_lengths r hwf).2.1]; omega)]

theorem wire_after_timestamps (le : Bool) (r : tmeta_data) (x : List Byte) (k : Nat)
    (hwf : r.wf) (hN : r.cam_angles_count ≤ TMETA_CAMANGLES_MAXCOUNT) :
    (wire le r ++ x).drop (120 + 24 * r.cam_angles_count + k) =
      (r.jpeg_data.take r.jpeg_data_size ++ (wireTail le r ++ x)).drop k := by
  have hN2 : r.cam_angles_count ≤ 50 := hN
  have e : 120 + 24 * r.cam_angles_count + k =
      120 + 16 * r.cam_angles_count + (8 * r.cam_angles_count + k) := by omega
  rw [e, wire_after_angles le r x _ hwf hN,
    drop_append_add _ _ (8 * r.cam_angles_count) k
      (by rw [beArr_length, List.length_take, (wf_lengths r hwf).2.2.1]; omega)]

theorem wire_after_blob (le : Bool) (r : tmeta_data) (x : List Byte) (k : Nat)
    (hwf : r.wf) (hN : r.cam_angles_count ≤ TMETA_CAMANGLES_MAXCOUNT)
    (hj : r.jpeg_data_size ≤ r.jpeg_data.length) :
    (wire le r ++ x).drop (120 + 24 * r.cam_angles_count + r.jpeg_data_size + k) =
      (wireTail le r ++ x).drop k := by
  rw [Nat.add_assoc, wire_after_timestamps le r x _ hwf hN,
    drop_append_add _ _ r.jpeg_data_size k (by rw [List.length_take]; omega)]

/-- The integer fields of the fixed header in the wire image. -/
theorem wire_header_ints (le : Bool) (r : tmeta_data) (x : List Byte) (hwf : r.wf) :
    ((wire le r ++ x).drop 20).take 4 = beBytes 4 r.gain_mode ∧
    ((wire le r ++ x).drop 88).take 4 = beBytes 4 r.jpeg_data_size ∧
    ((wire le r ++ x).drop 92).take 4 = beBytes 4 r.value_min ∧
    ((wire le r ++ x).drop 96).take 4 = beBytes 4 r.value_max ∧
    ((wire le r ++ x).drop 116).take 4 = beBytes 4 r.cam_angles_count := by
  have h14 : r.attitude_reference_quat.length = 4 := (wf_lengths r hwf).1
  rw [wire_split]
  refine ⟨?_, ?_, ?_, ?_, ?_⟩ <;>
    simp (disch := simp [h14]) only [wireHeader, List.append_assoc, drop_append_skip,
      take_append_exact, beBytes_length, hostBytes_length, arrBytes_length, Nat.reduceSub,
      List.drop_zero, List.length_take, h14, Nat.reduceMul, Nat.min_self]

theorem wire_timestamp (le : Bool) (r : tmeta_data) (x : List Byte) (i : Nat) (hwf : r.wf)
    (hN : r.cam_angles_count ≤ TMETA_CAMANGLES_MAXCOUNT) (hi : i < r.cam_angles_count) :
    ((wire le r ++ x).drop (120 + 16 * r.cam_angles_count + 8 * i)).take 8 =
      beBytes 8 (r.cam_angles_timestamps.getD i 0) := by
  have hN2 : r.cam_angles_count ≤ 50 := hN
  have ht := (wf_lengths r hwf).2.2.1
  rw [wire_after_angles le r x _ hwf hN,
    beArr_slice _ _ i (by rw [List.length_take, ht]; omega)]
  congr 1
  simp only [List.getD_eq_getElem?_getD, List.getElem?_take, if_pos hi]

theorem wire_blob (le : Bool) (r : tmeta_data) (x : List Byte) (hwf : r.wf)
    (hN : r.cam_angles_count ≤ TMETA_CAMANGLES_MAXCOUNT)
    (hj : r.jpeg_data_size ≤ r.jpeg_data.length) :
    ((wire le r ++ x).drop (120 + 24 * r.cam_angles_count)).take r.jpeg_data_size =
      r.jpeg_data.take r.jpeg_data_size := by
  have h := wire_after_timestamps le r x 0 hwf hN
  rw [Nat.add_zero, List.drop_zero] at h
  rw [h]
  exact List.take_left' (by rw [List.length_take]; omega)

theorem wire_frame_state (le : Bool) (r : tmeta_data) (x : List Byte) (hwf : r.wf)
    (hN : r.cam_angles_count ≤ TMETA_CAMANGLES_MAXCOUNT)
    (hj : r.jpeg_data_size ≤ r.jpeg_data.length) :
    ((wire le r ++ x).drop (120 + 24 * r.cam_angles_count + r.jpeg_data_size)).take 4 =
      beBytes 4 r.frame_state := by
  have h := wire_after_blob le r x 0 hwf hN hj
  rw [Nat.add_zero, List.drop_zero] at h
  rw [h]
  simp only [wireTail, List.append_assoc]
  exact List.take_left' (beBytes_length 4 _)

/-- With room in the destination the public encoder returns 0 and the
destination then starts with the wire image of the record. -/
theorem tmeta_serialize_ok (le : Bool) (r : tmeta_data) (dest : List Byte) (size : Option Nat)
    (hwf : r.wf) (hN : r.cam_angles_count ≤ TMETA_CAMANGLES_MAXCOUNT)
    (hj : r.jpeg_data_size ≤ r.jpeg_data.length) (hcap : TMETA_BUF_SIZE r ≤ dest.length) :
    tmeta_serialize_thermal_metadata_user_data_sei le (some r) (some dest) size =
      .ok (0, some (wire le r ++ dest.drop (TMETA_BUF_SIZE r)),
        size.map fun _ => TMETA_BUF_SIZE r) := by
  rw [tmeta_serialize_eq le r dest size hwf hN hj, if_neg (by omega)]

/-- C15 (wire layout of the integer fields): for every record with
`cam_angles_count = N ≤ 50` and a blob of `B = jpeg_data_size` bytes, the public
encoder, given room, returns 0 and the output holds, big-endian, `gain_mode` at
bytes 20 to 23, `jpeg_data_size` at 88 to 91, `value_min` at 92 to 95,
`value_max` at 96 to 99, `cam_angles_count` at 116 to 119, timestamp `i` as 8
bytes from `120 + 16 * N + 8 * i` for every `i < N`, `frame_state` as 4 bytes
from `120 + 24 * N + B`, and the `B` blob bytes unchanged from `120 + 24 * N`. -/
theorem C15_integer_layout (le : Bool) (r : tmeta_data) (dest : List Byte) (size : Option Nat)
    (hwf : r.wf) (hN : r.cam_angles_count ≤ TMETA_CAMANGLES_MAXCOUNT)
    (hj : r.jpeg_data_size ≤ r.jpeg_data.length) (hcap : TMETA_BUF_SIZE r ≤ dest.length) :
    ∃ out sz, tmeta_serialize_thermal_metadata_user_data_sei le (some r) (some dest) size =
        .ok (0, some out, sz) ∧
      (out.drop 20).take 4 = beBytes 4 r.gain_mode ∧
      (out.drop 88).take 4 = beBytes 4 r.jpeg_data_size ∧
      (out.drop 92).take 4 = beBytes 4 r.value_min ∧
      (out.drop 96).take 4 = beBytes 4 r.value_max ∧
      (out.drop 116).take 4 = beBytes 4 r.cam_angles_count ∧
      (∀ i, i < r.cam_angles_count →
        (out.drop (120 + 16 * r.cam_angles_count + 8 * i)).take 8 =
          beBytes 8 (r.cam_angles_timestamps.getD i 0)) ∧
      (out.drop (120 + 24 * r.cam_angles_count + r.jpeg_data_size)).take 4 =
        beBytes 4 r.frame_state ∧
      (out.drop (120 + 24 * r.cam_angles_count)).take r.jpeg_data_size =
        r.jpeg_data.take r.jpeg_data_size := by
  obtain ⟨h1, h2, h3, h4, h5⟩ := wire_header_ints le r (dest.drop (TMETA_BUF_SIZE r)) hwf
  exact ⟨_, _, tmeta_serialize_ok le r dest size hwf hN hj hcap, h1, h2, h3, h4, h5,
    fun i hi => wire_timestamp le r _ i hwf hN hi, wire_frame_state le r _ hwf hN hj,
    wire_blob le r _ hwf hN hj⟩

set_option maxRecDepth 100000 in
/-- C15 at the sample record and a zeroed destination of 300 bytes, on a
little-endian host: the count field holds 00 00 00 02. -/
theorem C15_integer_layout_witness :
    sampleRecord.wf ∧ sampleRecord.cam_angles_count ≤ TMETA_CAMANGLES_MAXCOUNT ∧
    sampleRecord.jpeg_data_size ≤ sampleRecord.jpeg_data.length ∧
    TMETA_BUF_SIZE sampleRecord ≤ (List.replicate 300 (0 : Byte)).length ∧
    ∃ out sz, tmeta_serialize_thermal_metadata_user_data_sei true (some sampleRecord)
        (some (List.replicate 300 0)) (some 0) = .ok (0, some out, sz) ∧
      (out.drop 116).take 4 = [0, 0, 0, 2] :=
  have h := C15_integer_layout true sampleRecord (List.replicate 300 0) (some 0)
    sampleRecord_wf (by decide) (by decide) (by decide)
  ⟨sampleRecord_wf, by decide, by decide, by decide,
    let ⟨out, sz, h1, _, _, _, _, h6, _⟩ := h
    ⟨out, sz, h1, h6.trans (by decide)⟩⟩

/-! ## Byte order of the floating-point fields (C16) -/

/-- The floating-point fields of the fixed header in the wire image. -/
theorem wire_header_floats (le : Bool) (r : tmeta_data) (x : List Byte) (hwf : r.wf) :
    ((wire le r ++ x).drop 24).take 8 = hostBytes le 8 r.calib_r ∧
    ((wire le r ++ x).drop 32).take 8 = hostBytes le 8 r.calib_b ∧
    ((wire le r ++ x).drop 40).take 8 = hostBytes le 8 r.calib_f ∧
    ((wire le r ++ x).drop 48).take 8 = hostBytes le 8 r.calib_o ∧
    ((wire le r ++ x).drop 56).take 8 = hostBytes le 8 r.calib_tau_win ∧
    ((wire le r ++ x).drop 64).take 8 = hostBytes le 8 r.calib_t_win ∧
    ((wire le r ++ x).drop 72).take 8 = hostBytes le 8 r.calib_t_bg ∧
    ((wire le r ++ x).drop 80).take 8 = hostBytes le 8 r.calib_emissivity ∧
    ((wire le r ++ x).drop 100).take 16 = arrBytes le 4 r.attitude_reference_quat := by
  have h14 : r.attitude_reference_quat.length = 4 := (wf_lengths r hwf).1
  have e : r.attitude_reference_quat.take 4 = r.attitude_reference_quat :=
    List.take_of_length_le (by omega)
  rw [wire_split]
  refine ⟨?_, ?_, ?_, ?_, ?_, ?_, ?_, ?_, ?_⟩ <;>
    simp (disch := simp [h14]) only [wireHeader, List.append_assoc, drop_append_skip,
      take_append_exact, beBytes_length, hostBytes_length, arrBytes_length, Nat.reduceSub,
      List.drop_zero, List.length_take, h14, Nat.reduceMul, Nat.min_self, e]

theorem wire_cam_angles (le : Bool) (r : tmeta_data) (x : List Byte) (hwf : r.wf)
    (hN : r.cam_angles_count ≤ TMETA_CAMANGLES_MAXCOUNT) :
    ((wire le r ++ x).drop 120).take (16 * r.cam_angles_count) =
      arrBytes le 4 (r.cam_angles.take (4 * r.cam_angles_count)) := by
  have hN2 : r.cam_angles_count ≤ 50 := hN
  have h := wire_after_header le r x 0 hwf
  rw [Nat.add_zero, List.drop_zero] at h
  rw [h, Nat.mul_comm 4 r.cam_angles_count]
  exact List.take_left'
    (by rw [arrBytes_length, List.length_take, (wf_lengths r hwf).2.1]; omega)

/-- The floating-point fields of the last sections in the wire image. -/
theorem wire_tail_floats (le : Bool) (r : tmeta_data) (x : List Byte) (hwf : r.wf)
    (hN : r.cam_angles_count ≤ TMETA_CAMANGLES_MAXCOUNT)
    (hj : r.jpeg_data_size ≤ r.jpeg_data.length) :
    ((wire le r ++ x).drop (120 + 24 * r.cam_angles_count + r.jpeg_data_size + 4)).take 8 =
      hostBytes le 8 r.fpa_temp ∧
    ((wire le r ++ x).drop (120 + 24 * r.cam_angles_count + r.jpeg_data_size + 12)).take 8 =
      hostBytes le 8 r.housing_temp ∧
    ((wire le r ++ x).drop (120 + 24 * r.cam_angles_count + r.jpeg_data_size + 20)).take 8 =
      hostBytes le 8 r.window_reflection ∧
    ((wire le r ++ x).drop (120 + 24 * r.cam_angles_count + r.jpeg_data_size + 28)).take 16 =
      arrBytes le 4 r.thermal_to_visible_quat := by
  have h4 : r.thermal_to_visible_quat.length = 4 := (wf_lengths r hwf).2.2.2
  have e : r.thermal_to_visible_quat.take 4 = r.thermal_to_visible_quat :=
    List.take_of_length_le (by omega)
  simp only [wire_after_blob le r x _ hwf hN hj]
  refine ⟨?_, ?_, ?_, ?_⟩ <;>
    simp (disch := simp [h4]) only [wireTail, List.append_assoc, drop_append_skip,
      take_append_exact, beBytes_length, hostBytes_length, arrBytes_length, Nat.reduceSub,
      List.drop_zero, List.length_take, h4, Nat.reduceMul, Nat.min_self, e]

/-- C16 as amended (floating-point fields use the host byte order): for every
record with `cam_angles_count = N ≤ 50` and a blob of `B` bytes, the public
encoder, given room, returns 0 and the output holds each double (the 8
calibration values at bytes 24 to 87, the 3 temperatures from
`120 + 24 * N + B + 4`) and each float (attitude quaternion at 100 to 115,
camera-angle quaternions from 120, alignment quaternion from
`120 + 24 * N + B + 28`) as its bit pattern in the byte order of the host:
most significant byte first on a big-endian host, least significant byte first
on a little-endian host. -/
theorem C16_float_host_order (le : Bool) (r : tmeta_data) (dest : List Byte)
    (size : Option Nat) (hwf : r.wf) (hN : r.cam_angles_count ≤ TMETA_CAMANGLES_MAXCOUNT)
    (hj : r.jpeg_data_size ≤ r.jpeg_data.length) (hcap : TMETA_BUF_SIZE r ≤ dest.length) :
    (∀ w v, hostBytes le w v = if le then (beBytes w v).reverse else beBytes w v) ∧
    ∃ out sz, tmeta_serialize_thermal_metadata_user_data_sei le (some r) (some dest) size =
        .ok (0, some out, sz) ∧
      (out.drop 24).take 8 = hostBytes le 8 r.calib_r ∧
      (out.drop 32).take 8 = hostBytes le 8 r.calib_b ∧
      (out.drop 40).take 8 = hostBytes le 8 r.calib_f ∧
      (out.drop 48).take 8 = hostBytes le 8 r.calib_o ∧
      (out.drop 56).take 8 = hostBytes le 8 r.calib_tau_win ∧
      (out.drop 64).take 8 = hostBytes le 8 r.calib_t_win ∧
      (out.drop 72).take 8 = hostBytes le 8 r.calib_t_bg ∧
      (out.drop 80).take 8 = hostBytes le 8 r.calib_emissivity ∧
      (out.drop 100).take 16 = arrBytes le 4 r.attitude_reference_quat ∧
      (out.drop 120).take (16 * r.cam_angles_count) =
        arrBytes le 4 (r.cam_angles.take (4 * r.cam_angles_count)) ∧
      (out.drop (120 + 24 * r.cam_angles_count + r.jpeg_data_size + 4)).take 8 =
        hostBytes le 8 r.fpa_temp ∧
      (out.drop (120 + 24 * r.cam_angles_count + r.jpeg_data_size + 12)).take 8 =
        hostBytes le 8 r.housing_temp ∧
      (out.drop (120 + 24 * r.cam_angles_count + r.jpeg_data_size + 20)).take 8 =
        hostBytes le 8 r.window_reflection ∧
      (out.drop (120 + 24 * r.cam_angles_count + r.jpeg_data_size + 28)).take 16 =
        arrBytes le 4 r.thermal_to_visible_quat := by
  refine ⟨fun w v => ?_, ?_⟩
  · cases le
    · rfl
    · simp only [hostBytes, beBytes, List.reverse_reverse, if_true]
  · obtain ⟨a1, a2, a3, a4, a5, a6, a7, a8, a9⟩ :=
      wire_header_floats le r (dest.drop (TMETA_BUF_SIZE r)) hwf
    obtain ⟨b1, b2, b3, b4⟩ := wire_tail_floats le r (dest.drop (TMETA_BUF_SIZE r)) hwf hN hj
    exact ⟨_, _, tmeta_serialize_ok le r dest size hwf hN hj hcap, a1, a2, a3, a4, a5, a6, a7,
      a8, a9, wire_cam_angles le r _ hwf hN, b1, b2, b3, b4⟩

set_option maxRecDepth 100000 in
/-- C16 as stated fails on a little-endian host: the sample record, whose
`calib_r` is the double 1.0 (bit pattern 3ff0000000000000) and whose attitude
quaternion ends with the float 1.0 (bit pattern 3f800000), is encoded with
return value 0, and bytes 24 to 31 are 00 00 00 00 00 00 f0 3f, bytes 112 to
115 are 00 00 80 3f: least significant byte first, not the big-endian order of
the integer fields (`value_max` = deadbeef is at 96 to 99 as de ad be ef). -/
theorem C16_little_endian_host_not_network_order :
    ∃ out sz, tmeta_serialize_thermal_metadata_user_data_sei true (some sampleRecord)
        (some (List.replicate 300 0)) (some 0) = .ok (0, some out, sz) ∧
      (out.drop 24).take 8 = [0, 0, 0, 0, 0, 0, 0xf0, 0x3f] ∧
      (out.drop 24).take 8 ≠ beBytes 8 sampleRecord.calib_r ∧
      (out.drop 112).take 4 = [0, 0, 0x80, 0x3f] ∧
      (out.drop 112).take 4 ≠ beBytes 4 (sampleRecord.attitude_reference_quat.getD 3 0) ∧
      (out.drop 96).take 4 = [0xde, 0xad, 0xbe, 0xef] :=
  ⟨_, _, tmeta_serialize_ok true sampleRecord (List.replicate 300 0) (some 0) sampleRecord_wf
    (by decide) (by decide) (by decide), by decide, by decide, by decide, by decide, by decide⟩

set_option maxRecDepth 100000 in
/-- C16 as amended, at the sample record on a little-endian host. -/
theorem C16_float_host_order_witness :
    sampleRecord.wf ∧ sampleRecord.cam_angles_count ≤ TMETA_CAMANGLES_MAXCOUNT ∧
    sampleRecord.jpeg_data_size ≤ sampleRecord.jpeg_data.length ∧
    TMETA_BUF_SIZE sampleRecord ≤ (List.replicate 300 (0 : Byte)).length ∧
    ∃ out sz, tmeta_serialize_thermal_metadata_user_data_sei true (some sampleRecord)
        (some (List.replicate 300 0)) (some 0) = .ok (0, some out, sz) ∧
      (out.drop 24).take 8 = [0, 0, 0, 0, 0, 0, 0xf0, 0x3f] :=
  have h := (C16_float_host_order true sampleRecord (List.replicate 300 0) (some 0)
    sampleRecord_wf (by decide) (by decide) (by decide)).2
  ⟨sampleRecord_wf, by decide, by decide, by decide,
    let ⟨out, sz, h1, h2, _⟩ := h
    ⟨out, sz, h1, h2.trans (by decide)⟩⟩

/-! ## Blob view (C17) -/

/-- C17 (blob view): when the public decoder returns 0 on a buffer, with
`N = cam_angles_count ≤ 50` in the record, the record's `jpeg_data` is the
input buffer from offset `120 + 24 * N` on (a view of the input, not a copy),
`jpeg_data_size` is the big-endian value of bytes 88 to 91, and the range from
`120 + 24 * N` of `jpeg_data_size` bytes lies inside the input buffer. -/
theorem C17_blob_view (le : Bool) (buf : List Byte) (m0 m : tmeta_data)
    (hlen : buf.length < 2 ^ 63) (hwf : m0.wf)
    (h : tmeta_deserialize_thermal_metadata_user_data_sei le (some buf) (some m0) =
      .ok (0, some m)) :
    m.cam_angles_count = beVal ((buf.drop 116).take 4) ∧
    m.cam_angles_count ≤ TMETA_CAMANGLES_MAXCOUNT ∧
    m.jpeg_data = buf.drop (120 + 24 * m.cam_angles_count) ∧
    m.jpeg_data_size = beVal ((buf.drop 88).take 4) ∧
    120 + 24 * m.cam_angles_count + m.jpeg_data_size ≤ buf.length ∧
    m.jpeg_data_size ≤ m.jpeg_data.length ∧
    m.jpeg_data.take m.jpeg_data_size =
      (buf.drop (120 + 24 * m.cam_angles_count)).take m.jpeg_data_size := by
  obtain ⟨_, _, hN, hs, hm⟩ := tmeta_deserialize_ok_inv le buf m0 m hlen hwf h
  have hc : m.cam_angles_count = countField buf := by
    rw [hm]; exact decodedFields_cam_angles_count le buf m0
  have hj : m.jpeg_data = buf.drop (120 + 24 * countField buf) := by
    rw [hm]; exact decodedFields_jpeg_data le buf m0
  have hz : m.jpeg_data_size = jpegSizeField buf := by
    rw [hm]; exact decodedFields_jpeg_data_size le buf m0
  unfold neededSize at hs
  refine ⟨hc, by rw [hc]; exact hN, by rw [hc]; exact hj, hz, by rw [hc, hz]; omega, ?_, ?_⟩
  · rw [hj, hz, List.length_drop]; omega
  · rw [hc, hj]

set_option maxRecDepth 100000 in
/-- C17 at the wire image of the sample record: the blob ff d8 ff is at offset
168 = 120 + 24 * 2. -/
theorem C17_blob_view_witness :
    (wire true sampleRecord).length < 2 ^ 63 ∧ staleRecord.wf ∧
    tmeta_deserialize_thermal_metadata_user_data_sei true (some (wire true sampleRecord))
      (some staleRecord) =
      .ok (0, some (decodedFields true (wire true sampleRecord) staleRecord)) ∧
    (decodedFields true (wire true sampleRecord) staleRecord).jpeg_data =
      (wire true sampleRecord).drop
        (120 + 24 * (decodedFields true (wire true sampleRecord) staleRecord).cam_angles_count) :=
  have h := tmeta_deserialize_ok true (wire true sampleRecord) staleRecord (by decide)
    (by decide) (by decide) (by decide) staleRecord_wf (by decide)
  ⟨by decide, staleRecord_wf, h,
    (C17_blob_view true (wire true sampleRecord) staleRecord _ (by decide) staleRecord_wf
      h).2.2.1⟩

/-! ## The encoder output is recognised (C18) -/

/-- C18 (the encoder output is recognised): for every record with
`cam_angles_count ≤ 50` the public encoder, given room, returns 0 and reports
`TMETA_BUF_SIZE`; the first 16 bytes of the output are
a4 89 7b 82 44 15 41 71 b4 6a bc 8c d5 24 c7 7e, and the detector returns true
on the output cut to the reported size, as on the whole destination. -/
theorem C18_output_recognised (le : Bool) (r : tmeta_data) (dest : List Byte) (s0 : Nat)
    (hwf : r.wf) (hN : r.cam_angles_count ≤ TMETA_CAMANGLES_MAXCOUNT)
    (hj : r.jpeg_data_size ≤ r.jpeg_data.length) (hcap : TMETA_BUF_SIZE r ≤ dest.length) :
    ∃ out n, tmeta_serialize_thermal_metadata_user_data_sei le (some r) (some dest) (some s0) =
        .ok (0, some out, some n) ∧
      out.take 16 = [0xa4, 0x89, 0x7b, 0x82, 0x44, 0x15, 0x41, 0x71, 0xb4, 0x6a, 0xbc, 0x8c,
        0xd5, 0x24, 0xc7, 0x7e] ∧
      tmeta_is_thermal_metadata_user_data_sei le (some (out.take n)) = .ok true ∧
      tmeta_is_thermal_metadata_user_data_sei le (some out) = .ok true := by
  have hl : (wire le r).length = TMETA_BUF_SIZE r := by
    rw [wire_length le r hwf hN hj, TMETA_BUF_SIZE_eq r hwf]
  have ht : (wire le r ++ dest.drop (TMETA_BUF_SIZE r)).take (TMETA_BUF_SIZE r) = wire le r :=
    List.take_left' hl
  have i1 : isTmeta (wire le r) := by
    have := wire_isTmeta le r [] hwf hN hj
    rwa [List.append_nil] at this
  have i2 := wire_isTmeta le r (dest.drop (TMETA_BUF_SIZE r)) hwf hN hj
  refine ⟨_, _, tmeta_serialize_ok le r dest (some s0) hwf hN hj hcap, ?_, ?_, ?_⟩
  · exact i2.2
  · rw [ht, is_thermal_eq, decide_eq_true i1]
  · rw [is_thermal_eq, decide_eq_true i2]

set_option maxRecDepth 100000 in
/-- C18 at the sample record and a destination of 300 bytes on a big-endian
host: the reported size is 215. -/
theorem C18_output_recognised_witness :
    sampleRecord.wf ∧ sampleRecord.cam_angles_count ≤ TMETA_CAMANGLES_MAXCOUNT ∧
    sampleRecord.jpeg_data_size ≤ sampleRecord.jpeg_data.length ∧
    TMETA_BUF_SIZE sampleRecord ≤ (List.replicate 300 (0x55 : Byte)).length ∧
    ∃ out n, tmeta_serialize_thermal_metadata_user_data_sei false (some sampleRecord)
        (some (List.replicate 300 0x55)) (some 0) = .ok (0, some out, some n) ∧
      tmeta_is_thermal_metadata_user_data_sei false (some (out.take n)) = .ok true :=
  have h := C18_output_recognised false sampleRecord (List.replicate 300 0x55) 0
    sampleRecord_wf (by decide) (by decide) (by decide)
  ⟨sampleRecord_wf, by decide, by decide, by decide,
    let ⟨out, n, h1, _, h3, _⟩ := h
    ⟨out, n, h1, h3⟩⟩

/-! ## String lookups (C19, C20) -/

theorem tolower_eq_zero (c : Byte) : tolower c = 0 ↔ c = 0 := by
  unfold tolower
  split
  · rename_i h
    simp only [Fin.ext_iff, Fin.val_zero]
    omega
  · rfl

/-- On two strings with their terminating zero, `strcasecmp` returns, and it
returns 0 exactly when the two strings are equal after `tolower`. -/
theorem strcasecmp_spec (s t r1 r2 : List Byte) (hs : ∀ c ∈ s, c ≠ 0) (ht : ∀ c ∈ t, c ≠ 0) :
    ∃ c, strcasecmp (s ++ 0 :: r1) (t ++ 0 :: r2) = .ok c ∧
      (c = 0 ↔ s.map tolower = t.map tolower) := by
  induction s generalizing t with
  | nil =>
    cases t with
    | nil => exact ⟨0, by simp [strcasecmp], by simp⟩
    | cons b t =>
      have hb : b ≠ 0 := ht b (by simp)
      have hb2 : tolower b ≠ 0 := fun h => hb ((tolower_eq_zero b).mp h)
      have h0 : tolower 0 = 0 := (tolower_eq_zero 0).mpr rfl
      have hne : tolower 0 ≠ tolower b := by rw [h0]; exact fun h => hb2 h.symm
      refine ⟨((tolower 0).val : Int) - ((tolower b).val : Int),
        by simp only [List.nil_append, List.cons_append, strcasecmp, if_pos hne], ?_⟩
      simp only [List.map_nil, List.map_cons, List.nil_eq, reduceCtorEq, iff_false]
      intro h
      apply hne
      apply Fin.ext
      omega
  | cons a s ih =>
    have ha : a ≠ 0 := hs a (by simp)
    have hs2 : ∀ c ∈ s, c ≠ 0 := fun c hc => hs c (by simp [hc])
    cases t with
    | nil =>
      have ha2 : tolower a ≠ 0 := fun h => ha ((tolower_eq_zero a).mp h)
      have h0 : tolower 0 = 0 := (tolower_eq_zero 0).mpr rfl
      have hne : tolower a ≠ tolower 0 := by rw [h0]; exact ha2
      refine ⟨((tolower a).val : Int) - ((tolower 0).val : Int),
        by simp only [List.nil_append, List.cons_append, strcasecmp, if_pos hne], ?_⟩
      simp only [List.map_nil, List.map_cons, reduceCtorEq, iff_false]
      intro h
      apply hne
      apply Fin.ext
      omega
    | cons b t =>
      have ht2 : ∀ c ∈ t, c ≠ 0 := fun c hc => ht c (by simp [hc])
      by_cases hne : tolower a ≠ tolower b
      · refine ⟨((tolower a).val : Int) - ((tolower b).val : Int),
          by simp only [List.cons_append, strcasecmp, if_pos hne], ?_⟩
        constructor
        · intro h
          exfalso
          apply hne
          apply Fin.ext
          omega
        · intro h
          simp only [List.map_cons, List.cons.injEq] at h
          exact absurd h.1 hne
      · obtain ⟨c, hc1, hc2⟩ := ih t hs2 ht2
        have heq : tolower a = tolower b := not_not.mp hne
        refine ⟨c, by simp only [List.cons_append, strcasecmp, if_neg hne, if_neg ha]; exact hc1, ?_⟩
        rw [hc2]
        simp only [List.map_cons, List.cons.injEq, heq, true_and]

/-- A test `strcasecmp(str, "...") == 0` of the source, on a string with its
terminating zero, is the comparison of the two strings after `tolower`. -/
theorem strcasecmp_test (s rest : List Byte) (t : String) (x y : Res Nat)
    (hs : ∀ c ∈ s, c ≠ 0) (ht : ∀ c ∈ chars t, c ≠ 0) :
    ((strcasecmp (s ++ 0 :: rest) (literal t)).bind fun (c : Int) => if c = 0 then x else y) =
      if s.map tolower = (chars t).map tolower then x else y := by
  obtain ⟨c, h, e⟩ := strcasecmp_spec s (chars t) rest [] hs ht
  have h2 : strcasecmp (s ++ 0 :: rest) (literal t) = .ok c := h
  rw [h2, Res.ok_bind]
  by_cases hc : c = 0
  · rw [if_pos hc, if_pos (e.mp hc)]
  · rw [if_neg hc, if_neg (fun h3 => hc (e.mpr h3))]

set_option maxRecDepth 100000 in
theorem gain_mode_from_str_eq (s rest : List Byte) (hs : ∀ c ∈ s, c ≠ 0) :
    tmeta_thermal_gain_mode_from_str (s ++ 0 :: rest) =
      if s.map tolower = (chars "FLIR_LOW_GAIN").map tolower then
        .ok TMETA_THERMAL_GAIN_MODE_FLIR_LOW_GAIN
      else if s.map tolower = (chars "FLIR_HIGH_GAIN").map tolower then
        .ok TMETA_THERMAL_GAIN_MODE_FLIR_HIGH_GAIN
      else .ok TMETA_THERMAL_GAIN_MODE_FLIR_LOW_GAIN := by
  unfold tmeta_thermal_gain_mode_from_str
  rw [strcasecmp_test s rest "FLIR_HIGH_GAIN" _ _ hs (by decide),
    strcasecmp_test s rest "FLIR_LOW_GAIN" _ _ hs (by decide)]

set_option maxRecDepth 100000 in
/-- C19 (gain-mode string lookup): on every string `s` (bytes other than zero,
followed by the terminating zero) `tmeta_thermal_gain_mode_from_str` returns
`FLIR_HIGH_GAIN` when `s` equals "FLIR_HIGH_GAIN" up to ASCII letter case,
`FLIR_LOW_GAIN` when it equals "FLIR_LOW_GAIN" up to case, and `FLIR_LOW_GAIN`
for every other string; "flir_high_gain", "FLIR_HIGH_GAIN" and
"Flir_High_Gain" all give `FLIR_HIGH_GAIN`. -/
theorem C19_gain_mode_from_str (s rest : List Byte) (hs : ∀ c ∈ s, c ≠ 0) :
    (s.map tolower = (chars "FLIR_HIGH_GAIN").map tolower →
      tmeta_thermal_gain_mode_from_str (s ++ 0 :: rest) =
        .ok TMETA_THERMAL_GAIN_MODE_FLIR_HIGH_GAIN) ∧
    (s.map tolower = (chars "FLIR_LOW_GAIN").map tolower →
      tmeta_thermal_gain_mode_from_str (s ++ 0 :: rest) =
        .ok TMETA_THERMAL_GAIN_MODE_FLIR_LOW_GAIN) ∧
    (s.map tolower ≠ (chars "FLIR_HIGH_GAIN").map tolower →
      tmeta_thermal_gain_mode_from_str (s ++ 0 :: rest) =
        .ok TMETA_THERMAL_GAIN_MODE_FLIR_LOW_GAIN) ∧
    tmeta_thermal_gain_mode_from_str (literal "flir_high_gain") =
      .ok TMETA_THERMAL_GAIN_MODE_FLIR_HIGH_GAIN ∧
    tmeta_thermal_gain_mode_from_str (literal "FLIR_HIGH_GAIN") =
      .ok TMETA_THERMAL_GAIN_MODE_FLIR_HIGH_GAIN ∧
    tmeta_thermal_gain_mode_from_str (literal "Flir_High_Gain") =
      .ok TMETA_THERMAL_GAIN_MODE_FLIR_HIGH_GAIN ∧
    TMETA_THERMAL_GAIN_MODE_FLIR_HIGH_GAIN ≠ TMETA_THERMAL_GAIN_MODE_FLIR_LOW_GAIN := by
  have hd : (chars "FLIR_HIGH_GAIN").map tolower ≠ (chars "FLIR_LOW_GAIN").map tolower := by
    decide
  rw [gain_mode_from_str_eq s rest hs]
  refine ⟨fun h => ?_, fun h => ?_, fun h => ?_, by decide, by decide, by decide, by decide⟩
  · rw [if_neg (by rw [h]; exact hd), if_pos h]
  · rw [if_pos h]
  · rw [if_neg h]
    exact ite_self _

set_option maxRecDepth 100000 in
/-- C19 at the string "fLiR_hIgH_gAiN" followed by its terminating zero and
two more bytes of memory. -/
theorem C19_gain_mode_from_str_witness :
    (∀ c ∈ chars "fLiR_hIgH_gAiN", c ≠ 0) ∧
    tmeta_thermal_gain_mode_from_str (chars "fLiR_hIgH_gAiN" ++ 0 :: [7, 7]) =
      .ok TMETA_THERMAL_GAIN_MODE_FLIR_HIGH_GAIN :=
  ⟨by decide,
    (C19_gain_mode_from_str (chars "fLiR_hIgH_gAiN") [7, 7] (by decide)).1 (by decide)⟩

set_option maxRecDepth 100000 in
theorem frame_state_from_str_eq (s rest : List Byte) (hs : ∀ c ∈ s, c ≠ 0) :
    tmeta_thermal_frame_state_from_str (s ++ 0 :: rest) =
      if s.map tolower = (chars "VALID").map tolower then
        .ok TMETA_THERMAL_FRAME_STATE_VALID
      else if s.map tolower = (chars "SHUTTER_DESIRED").map tolower then
        .ok TMETA_THERMAL_FRAME_STATE_SHUTTER_DESIRED
      else if s.map tolower = (chars "SHUTTER_IN_PROGRESS").map tolower then
        .ok TMETA_THERMAL_FRAME_STATE_SHUTTER_IN_PROGRESS
      else if s.map tolower = (chars "UNEXPECTED").map tolower then
        .ok TMETA_THERMAL_FRAME_STATE_UNEXPECTED
      else .ok TMETA_THERMAL_FRAME_STATE_UNEXPECTED := by
  unfold tmeta_thermal_frame_state_from_str
  rw [strcasecmp_test s rest "UNEXPECTED" _ _ hs (by decide),
    strcasecmp_test s rest "SHUTTER_IN_PROGRESS" _ _ hs (by decide),
    strcasecmp_test s rest "SHUTTER_DESIRED" _ _ hs (by decide),
    strcasecmp_test s rest "VALID" _ _ hs (by decide)]

set_option maxRecDepth 100000 in
/-- C20 (frame-state string lookup): on every string `s` (bytes other than
zero, followed by the terminating zero) `tmeta_thermal_frame_state_from_str`
returns `VALID`, `SHUTTER_DESIRED`, `SHUTTER_IN_PROGRESS` or `UNEXPECTED` when
`s` equals "VALID", "SHUTTER_DESIRED", "SHUTTER_IN_PROGRESS" or "UNEXPECTED"
up to ASCII letter case, and `UNEXPECTED` for every other string; the four
values are distinct. -/
theorem C20_frame_state_from_str (s rest : List Byte) (hs : ∀ c ∈ s, c ≠ 0) :
    (s.map tolower = (chars "VALID").map tolower →
      tmeta_thermal_frame_state_from_str (s ++ 0 :: rest) =
        .ok TMETA_THERMAL_FRAME_STATE_VALID) ∧
    (s.map tolower = (chars "SHUTTER_DESIRED").map tolower →
      tmeta_thermal_frame_state_from_str (s ++ 0 :: rest) =
        .ok TMETA_THERMAL_FRAME_STATE_SHUTTER_DESIRED) ∧
    (s.map tolower = (chars "SHUTTER_IN_PROGRESS").map tolower →
      tmeta_thermal_frame_state_from_str (s ++ 0 :: rest) =
        .ok TMETA_THERMAL_FRAME_STATE_SHUTTER_IN_PROGRESS) ∧
    (s.map tolower = (chars "UNEXPECTED").map tolower →
      tmeta_thermal_frame_state_from_str (s ++ 0 :: rest) =
        .ok TMETA_THERMAL_FRAME_STATE_UNEXPECTED) ∧
    (s.map tolower ≠ (chars "VALID").map tolower →
      s.map tolower ≠ (chars "SHUTTER_DESIRED").map tolower →
      s.map tolower ≠ (chars "SHUTTER_IN_PROGRESS").map tolower →
      tmeta_thermal_frame_state_from_str (s ++ 0 :: rest) =
        .ok TMETA_THERMAL_FRAME_STATE_UNEXPECTED) ∧
    [TMETA_THERMAL_FRAME_STATE_VALID, TMETA_THERMAL_FRAME_STATE_SHUTTER_DESIRED,
      TMETA_THERMAL_FRAME_STATE_SHUTTER_IN_PROGRESS,
      TMETA_THERMAL_FRAME_STATE_UNEXPECTED].Nodup := by
  have d12 : (chars "SHUTTER_DESIRED").map tolower ≠ (chars "VALID").map tolower := by decide
  have d13 : (chars "SHUTTER_IN_PROGRESS").map tolower ≠ (chars "VALID").map tolower := by
    decide
  have d14 : (chars "UNEXPECTED").map tolower ≠ (chars "VALID").map tolower := by decide
  have d23 : (chars "SHUTTER_IN_PROGRESS").map tolower ≠
      (chars "SHUTTER_DESIRED").map tolower := by decide
  have d24 : (chars "UNEXPECTED").map tolower ≠ (chars "SHUTTER_DESIRED").map tolower := by
    decide
  have d34 : (chars "UNEXPECTED").map tolower ≠ (chars "SHUTTER_IN_PROGRESS").map tolower := by
    decide
  rw [frame_state_from_str_eq s rest hs]
  refine ⟨fun h => ?_, fun h => ?_, fun h => ?_, fun h => ?_, fun h1 h2 h3 => ?_, by decide⟩
  · rw [if_pos h]
  · rw [if_neg (by rw [h]; exact d12), if_pos h]
  · rw [if_neg (by rw [h]; exact d13), if_neg (by rw [h]; exact d23), if_pos h]
  · rw [if_neg (by rw [h]; exact d14), if_neg (by rw [h]; exact d24),
      if_neg (by rw [h]; exact d34), if_pos h]
  · rw [if_neg h1, if_neg h2, if_neg h3]
    exact ite_self _

set_option maxRecDepth 100000 in
/-- C20 at the string "Shutter_In_Progress" followed by its terminating zero. -/
theorem C20_frame_state_from_str_witness :
    (∀ c ∈ chars "Shutter_In_Progress", c ≠ 0) ∧
    tmeta_thermal_frame_state_from_str (chars "Shutter_In_Progress" ++ 0 :: []) =
      .ok TMETA_THERMAL_FRAME_STATE_SHUTTER_IN_PROGRESS :=
  ⟨by decide,
    (C20_frame_state_from_str (chars "Shutter_In_Progress") [] (by decide)).2.2.1
      (by decide)⟩

/-! ## Enumerators to strings (C21) -/

set_option maxRecDepth 100000 in
/-- C21 (enum to string): `tmeta_thermal_gain_mode_to_str` and
`tmeta_thermal_frame_state_to_str` return, for every integer value, a string
(bytes other than zero followed by the terminating zero); the string is
"UNKNOWN" exactly when the value is none of the 2 (respectively 4) declared
enumerators; and for every declared enumerator `e` the matching `from_str`
function applied to the string returned for `e` returns `e`. -/
theorem C21_to_str_total_and_invertible (v : Int) :
    (∃ s, tmeta_thermal_gain_mode_to_str v = s ++ [0] ∧ ∀ c ∈ s, c ≠ 0) ∧
    (∃ s, tmeta_thermal_frame_state_to_str v = s ++ [0] ∧ ∀ c ∈ s, c ≠ 0) ∧
    (tmeta_thermal_gain_mode_to_str v = literal "UNKNOWN" ↔
      v ≠ (TMETA_THERMAL_GAIN_MODE_FLIR_LOW_GAIN : Nat) ∧
      v ≠ (TMETA_THERMAL_GAIN_MODE_FLIR_HIGH_GAIN : Nat)) ∧
    (tmeta_thermal_frame_state_to_str v = literal "UNKNOWN" ↔
      v ≠ (TMETA_THERMAL_FRAME_STATE_VALID : Nat) ∧
      v ≠ (TMETA_THERMAL_FRAME_STATE_SHUTTER_DESIRED : Nat) ∧
      v ≠ (TMETA_THERMAL_FRAME_STATE_SHUTTER_IN_PROGRESS : Nat) ∧
      v ≠ (TMETA_THERMAL_FRAME_STATE_UNEXPECTED : Nat)) ∧
    (∀ e ∈ [TMETA_THERMAL_GAIN_MODE_FLIR_LOW_GAIN, TMETA_THERMAL_GAIN_MODE_FLIR_HIGH_GAIN],
      tmeta_thermal_gain_mode_from_str (tmeta_thermal_gain_mode_to_str (e : Nat)) = .ok e) ∧
    (∀ e ∈ [TMETA_THERMAL_FRAME_STATE_VALID, TMETA_THERMAL_FRAME_STATE_SHUTTER_DESIRED,
        TMETA_THERMAL_FRAME_STATE_SHUTTER_IN_PROGRESS, TMETA_THERMAL_FRAME_STATE_UNEXPECTED],
      tmeta_thermal_frame_state_from_str (tmeta_thermal_frame_state_to_str (e : Nat)) =
        .ok e) := by
  have g1 : literal "FLIR_LOW_GAIN" ≠ literal "UNKNOWN" := by decide
  have g2 : literal "FLIR_HIGH_GAIN" ≠ literal "UNKNOWN" := by decide
  have f1 : literal "VALID" ≠ literal "UNKNOWN" := by decide
  have f2 : literal "SHUTTER_DESIRED" ≠ literal "UNKNOWN" := by decide
  have f3 : literal "SHUTTER_IN_PROGRESS" ≠ literal "UNKNOWN" := by decide
  have f4 : literal "UNEXPECTED" ≠ literal "UNKNOWN" := by decide
  refine ⟨?_, ?_, ?_, ?_, by decide, by decide⟩
  · unfold tmeta_thermal_gain_mode_to_str
    split
    · exact ⟨chars "FLIR_LOW_GAIN", rfl, by decide⟩
    · split
      · exact ⟨chars "FLIR_HIGH_GAIN", rfl, by decide⟩
      · exact ⟨chars "UNKNOWN", rfl, by decide⟩
  · unfold tmeta_thermal_frame_state_to_str
    split
    · exact ⟨chars "VALID", rfl, by decide⟩
    · split
      · exact ⟨chars "SHUTTER_DESIRED", rfl, by decide⟩
      · split
        · exact ⟨chars "SHUTTER_IN_PROGRESS", rfl, by decide⟩
        · split
          · exact ⟨chars "UNEXPECTED", rfl, by decide⟩
          · exact ⟨chars "UNKNOWN", rfl, by decide⟩
  · unfold tmeta_thermal_gain_mode_to_str
    by_cases h0 : v = (TMETA_THERMAL_GAIN_MODE_FLIR_LOW_GAIN : Nat)
    · rw [if_pos h0]
      exact ⟨fun h => absurd h g1, fun h => absurd h0 h.1⟩
    · rw [if_neg h0]
      by_cases h1 : v = (TMETA_THERMAL_GAIN_MODE_FLIR_HIGH_GAIN : Nat)
      · rw [if_pos h1]
        exact ⟨fun h => absurd h g2, fun h => absurd h1 h.2⟩
      · rw [if_neg h1]
        exact ⟨fun _ => ⟨h0, h1⟩, fun _ => rfl⟩
  · unfold tmeta_thermal_frame_state_to_str
    by_cases h0 : v = (TMETA_THERMAL_FRAME_STATE_VALID : Nat)
    · rw [if_pos h0]
      exact ⟨fun h => absurd h f1, fun h => absurd h0 h.1⟩
    · rw [if_neg h0]
      by_cases h1 : v = (TMETA_THERMAL_FRAME_STATE_SHUTTER_DESIRED : Nat)
      · rw [if_pos h1]
        exact ⟨fun h => absurd h f2, fun h => absurd h1 h.2.1⟩
      · rw [if_neg h1]
        by_cases h2 : v = (TMETA_THERMAL_FRAME_STATE_SHUTTER_IN_PROGRESS : Nat)
        · rw [if_pos h2]
          exact ⟨fun h => absurd h f3, fun h => absurd h2 h.2.2.1⟩
        · rw [if_neg h2]
          by_cases h3 : v = (TMETA_THERMAL_FRAME_STATE_UNEXPECTED : Nat)
          · rw [if_pos h3]
            exact ⟨fun h => absurd h f4, fun h => absurd h3 h.2.2.2⟩
          · rw [if_neg h3]
            exact ⟨fun _ => ⟨h0, h1, h2, h3⟩, fun _ => rfl⟩

/-! ## Which buffers the decoder accepts (C22) -/

/-- The bytes read after the blob, by minor version. -/
theorem tailSize_eq (minor : Nat) :
    tailSize minor =
      if minor < 2 then 0 else if minor = 2 then 4 else if minor = 3 then 28 else 44 := by
  unfold tailSize
  by_cases h2 : minor < 2
  · rw [if_pos h2, if_pos h2]
  · rw [if_neg h2, if_neg h2]
    by_cases h3 : minor = 2
    · rw [if_pos h3, if_pos (by omega)]
    · rw [if_neg h3, if_neg (by omega)]
      by_cases h4 : minor = 3
      · rw [if_pos h4, if_pos (by omega)]
      · rw [if_neg h4, if_neg (by omega)]

/-- C22 (decoder acceptance): for every buffer of length `n` with the identity
tag (so `n ≥ 20`), major version 0 and, when `n ≥ 120`, a count field
`N ≤ 50`, the public decoder returns 0 or -1, and it returns 0 exactly when
`n ≥ 120 + 24 * N + B + t`, where `B` is the blob length field and `t` is 0 for
a minor version below 2, 4 for minor 2, 28 for minor 3 and 44 for minor 4 and
above; in particular it returns -1 when `n < 120`. -/
theorem C22_acceptance (le : Bool) (buf : List Byte) (m0 : tmeta_data)
    (hlen : buf.length < 2 ^ 63) (htag : isTmeta buf)
    (hmaj : TMETA_GET_MAJOR_VERSION (versionField buf) = 0)
    (hN : 120 ≤ buf.length → countField buf ≤ TMETA_CAMANGLES_MAXCOUNT) (hwf : m0.wf) :
    ∃ code m, tmeta_deserialize_thermal_metadata_user_data_sei le (some buf) (some m0) =
        .ok (code, some m) ∧
      (code = 0 ∨ code = -1) ∧
      (code = 0 ↔ 120 ≤ buf.length ∧
        120 + 24 * countField buf + jpegSizeField buf +
          (if TMETA_GET_MINOR_VERSION (versionField buf) < 2 then 0
            else if TMETA_GET_MINOR_VERSION (versionField buf) = 2 then 4
            else if TMETA_GET_MINOR_VERSION (versionField buf) = 3 then 28 else 44) ≤
          buf.length) ∧
      (buf.length < 120 → code = -1) := by
  have h20 := htag.1
  rw [← tailSize_eq]
  by_cases h120 : buf.length < 120
  · refine ⟨-1, m0.set_version (versionField buf), ?_, Or.inr rfl, ?_, fun _ => rfl⟩
    · rw [tmeta_deserialize_eq, if_pos htag, deserialize_short le buf m0 h20 h120]
      rfl
    · exact ⟨fun h => absurd h (by decide), fun h => by omega⟩
  · have hN2 : countField buf ≤ 50 := hN (by omega)
    by_cases hs : neededSize buf ≤ buf.length
    · refine ⟨0, decodedFields le buf m0,
        tmeta_deserialize_ok le buf m0 htag hlen hmaj hN2 hwf hs, Or.inl rfl, ?_,
        fun h => absurd h h120⟩
      unfold neededSize at hs
      exact ⟨fun _ => ⟨by omega, hs⟩, fun _ => rfl⟩
    · obtain ⟨m, hm⟩ := deserialize_fail le buf m0 hlen (by omega) hmaj hN2 hwf (by omega)
      refine ⟨-1, m, ?_, Or.inr rfl, ?_, fun _ => rfl⟩
      · rw [tmeta_deserialize_eq, if_pos htag, hm]
        rfl
      · unfold neededSize at hs
        exact ⟨fun h => absurd h (by decide), fun h => absurd h.2 hs⟩

set_option maxRecDepth 100000 in
/-- C22 at the wire image of the sample record cut to 214 bytes, one byte short
of what its fields announce: the decoder returns -1. -/
theorem C22_acceptance_witness :
    ((wire true sampleRecord).take 214).length < 2 ^ 63 ∧
    isTmeta ((wire true sampleRecord).take 214) ∧
    TMETA_GET_MAJOR_VERSION (versionField ((wire true sampleRecord).take 214)) = 0 ∧
    staleRecord.wf ∧
    ∃ m, tmeta_deserialize_thermal_metadata_user_data_sei true
      (some ((wire true sampleRecord).take 214)) (some staleRecord) = .ok (-1, some m) :=
  have h := C22_acceptance true ((wire true sampleRecord).take 214) staleRecord (by decide)
    (by decide) (by decide) (fun _ => by decide) staleRecord_wf
  ⟨by decide, by decide, by decide, staleRecord_wf,
    let ⟨code, m, h1, h2, h3, _⟩ := h
    have hc : code = -1 := h2.resolve_left fun h0 => absurd (h3.mp h0).2 (by decide)
    ⟨m, by rw [h1, hc]⟩⟩

/-! ## Decode then encode (C23) -/

theorem arrVals_length (le : Bool) (w n : Nat) (bs : List Byte) :
    (arrVals le w n bs).length = n := by
  induction n generalizing bs with
  | zero => rfl
  | succ n ih => simp only [arrVals, List.length_cons, ih]

theorem beVals_length (w n : Nat) (bs : List Byte) : (beVals w n bs).length = n := by
  induction n generalizing bs with
  | zero => rfl
  | succ n ih => simp only [beVals, List.length_cons, ih]

/-- Reading `n` scalars from memory and laying them out again gives the same
bytes. -/
theorem arrBytes_arrVals (le : Bool) (w n : Nat) (bs : List Byte) (h : w * n ≤ bs.length) :
    arrBytes le w (arrVals le w n bs) = bs.take (w * n) := by
  induction n generalizing bs with
  | zero => simp [arrVals, arrBytes]
  | succ n ih =>
    have e : w * (n + 1) = w + w * n := by ring
    have h1 : w ≤ bs.length := by omega
    have h2 : w * n ≤ (bs.drop w).length := by rw [List.length_drop]; omega
    have hl : (bs.take w).length = w := by rw [List.length_take]; omega
    have hh := hostBytes_hostVal le (bs.take w)
    rw [hl] at hh
    simp only [arrVals, arrBytes]
    rw [hh, ih _ h2, e, List.take_add]

theorem beArr_beVals (w n : Nat) (bs : List Byte) (h : w * n ≤ bs.length) :
    beArr w (beVals w n bs) = bs.take (w * n) := by
  induction n generalizing bs with
  | zero => simp [beVals, beArr]
  | succ n ih =>
    have e : w * (n + 1) = w + w * n := by ring
    have h1 : w ≤ bs.length := by omega
    have h2 : w * n ≤ (bs.drop w).length := by rw [List.length_drop]; omega
    have hl : (bs.take w).length = w := by rw [List.length_take]; omega
    have hh := beBytes_beVal (bs.take w)
    rw [hl] at hh
    simp only [beVals, beArr]
    rw [hh, ih _ h2, e, List.take_add]

theorem arrVals_lt (le : Bool) (n : Nat) (bs : List Byte) :
    ∀ x ∈ arrVals le 4 n bs, x < 2 ^ 32 := by
  induction n generalizing bs with
  | zero => intro x hx; simp [arrVals] at hx
  | succ n ih =>
    intro x hx
    simp only [arrVals, List.mem_cons] at hx
    rcases hx with hx | hx
    · have h := hostVal_lt le (bs.take 4)
      have h2 : (bs.take 4).length ≤ 4 := List.length_take_le _ _
      have h3 : (256 : Nat) ^ (bs.take 4).length ≤ 256 ^ 4 :=
        Nat.pow_le_pow_right (by decide) h2
      have e : (256 : Nat) ^ 4 = 2 ^ 32 := by norm_num
      omega
    · exact ih _ x hx

theorem beVals_lt (n : Nat) (bs : List Byte) : ∀ x ∈ beVals 8 n bs, x < 2 ^ 64 := by
  induction n generalizing bs with
  | zero => intro x hx; simp [beVals] at hx
  | succ n ih =>
    intro x hx
    simp only [beVals, List.mem_cons] at hx
    rcases hx with hx | hx
    · have h := beVal_lt (bs.take 8)
      have h2 : (bs.take 8).length ≤ 8 := List.length_take_le _ _
      have h3 : (256 : Nat) ^ (bs.take 8).length ≤ 256 ^ 8 :=
        Nat.pow_le_pow_right (by decide) h2
      have e : (256 : Nat) ^ 8 = 2 ^ 64 := by norm_num
      omega
    · exact ih _ x hx

theorem beVal_slice4_lt (bs : List Byte) (k : Nat) : beVal ((bs.drop k).take 4) < 2 ^ 32 := by
  have h := beVal_lt ((bs.drop k).take 4)
  have h2 : ((bs.drop k).take 4).length ≤ 4 := List.length_take_le _ _
  have h3 : (256 : Nat) ^ ((bs.drop k).take 4).length ≤ 256 ^ 4 :=
    Nat.pow_le_pow_right (by decide) h2
  have e : (256 : Nat) ^ 4 = 2 ^ 32 := by norm_num
  omega

theorem hostVal_slice8_lt (le : Bool) (bs : List Byte) (k : Nat) :
    hostVal le ((bs.drop k).take 8) < 2 ^ 64 := by
  have h := hostVal_lt le ((bs.drop k).take 8)
  have h2 : ((bs.drop k).take 8).length ≤ 8 := List.length_take_le _ _
  have h3 : (256 : Nat) ^ ((bs.drop k).take 8).length ≤ 256 ^ 8 :=
    Nat.pow_le_pow_right (by decide) h2
  have e : (256 : Nat) ^ 8 = 2 ^ 64 := by norm_num
  omega

theorem append_drop_lt (a m0 : List Nat) (k B : Nat) (ha : ∀ x ∈ a, x < B)
    (hm : ∀ x ∈ m0, x < B) : ∀ x ∈ a ++ m0.drop k, x < B := by
  intro x hx
  rcases List.mem_append.mp hx with h | h
  · exact ha x h
  · exact hm x (List.mem_of_mem_drop h)

/-- The record a successful decode leaves is well typed: every scalar fits its
C type and the arrays keep their declared lengths. -/
theorem decodedFields_wf (le : Bool) (b : List Byte) (m0 : tmeta_data) (hwf : m0.wf)
    (hN : countField b ≤ 50) : (decodedFields le b m0).wf := by
  unfold tmeta_data.wf at hwf ⊢
  obtain ⟨_, _, _, _, _, _, _, _, _, _, _, _, _, ⟨q1, q2⟩, _, ⟨a1, a2⟩, ⟨t1, t2⟩, w18, w19, w20,
    w21, ⟨v1, v2⟩⟩ := hwf
  simp only [TMETA_CAMANGLES_MAXCOUNT] at a1 t1 ⊢
  simp only [decodedFields]
  refine ⟨beVal_slice4_lt b 16, beVal_slice4_lt b 20, hostVal_slice8_lt le b 24,
    hostVal_slice8_lt le b 32, hostVal_slice8_lt le b 40, hostVal_slice8_lt le b 48,
    hostVal_slice8_lt le b 56, hostVal_slice8_lt le b 64, hostVal_slice8_lt le b 72,
    hostVal_slice8_lt le b 80, jpegSizeField_lt b, beVal_slice4_lt b 92, beVal_slice4_lt b 96,
    ⟨?_, append_drop_lt _ _ _ _ (arrVals_lt le _ _) q2⟩, beVal_slice4_lt b 116,
    ⟨?_, append_drop_lt _ _ _ _ (arrVals_lt le _ _) a2⟩,
    ⟨?_, append_drop_lt _ _ _ _ (beVals_lt _ _) t2⟩, ?_, ?_, ?_, ?_, ⟨?_, ?_⟩⟩
  · rw [List.length_append, arrVals_length, List.length_drop]; omega
  · rw [List.length_append, arrVals_length, List.length_drop]; omega
  · rw [List.length_append, beVals_length, List.length_drop]; omega
  · split
    · exact w18
    · exact beVal_slice4_lt b _
  · split
    · exact w19
    · exact hostVal_slice8_lt le b _
  · split
    · exact w20
    · exact hostVal_slice8_lt le b _
  · split
    · exact w21
    · exact hostVal_slice8_lt le b _
  · split
    · exact v1
    · rw [List.length_append, arrVals_length, List.length_drop]; omega
  · split
    · exact v2
    · exact append_drop_lt _ _ _ _ (arrVals_lt le _ _) v2

theorem beBytes_beVal_slice (b : List Byte) (k w : Nat) (h : k + w ≤ b.length) :
    beBytes w (beVal ((b.drop k).take w)) = (b.drop k).take w := by
  have hl : ((b.drop k).take w).length = w := by
    rw [List.length_take, List.length_drop]; omega
  have hh := beBytes_beVal ((b.drop k).take w)
  rwa [hl] at hh

theorem hostBytes_hostVal_slice (le : Bool) (b : List Byte) (k w : Nat)
    (h : k + w ≤ b.length) :
    hostBytes le w (hostVal le ((b.drop k).take w)) = (b.drop k).take w := by
  have hl : ((b.drop k).take w).length = w := by
    rw [List.length_take, List.length_drop]; omega
  have hh := hostBytes_hostVal le ((b.drop k).take w)
  rwa [hl] at hh

theorem arrBytes_arrVals_slice (le : Bool) (b : List Byte) (k n : Nat) (rest : List Nat)
    (h : k + 4 * n ≤ b.length) :
    arrBytes le 4 ((arrVals le 4 n ((b.drop k).take (4 * n)) ++ rest).take n) =
      (b.drop k).take (4 * n) := by
  rw [List.take_left' (arrVals_length le 4 n _),
    arrBytes_arrVals le 4 n _ (by rw [List.length_take, List.length_drop]; omega)]
  exact List.take_of_length_le (by rw [List.length_take]; omega)

/-- Two adjacent slices of a buffer, glued. -/
theorem slice_glue (b : List Byte) (k w k2 : Nat) (h : k2 = k + w) :
    (b.drop k).take w ++ b.drop k2 = b.drop k := by
  subst h
  rw [← List.drop_drop]
  exact List.take_append_drop w (b.drop k)

theorem tag_slices (b : List Byte) (htag : isTmeta b) :
    beBytes 4 TMETA_USER_DATA_SEI_UUID_0 = (b.drop 0).take 4 ∧
    beBytes 4 TMETA_USER_DATA_SEI_UUID_1 = (b.drop 4).take 4 ∧
    beBytes 4 TMETA_USER_DATA_SEI_UUID_2 = (b.drop 8).take 4 ∧
    beBytes 4 TMETA_USER_DATA_SEI_UUID_3 = (b.drop 12).take 4 := by
  have hb : b = sei_uuid_bytes ++ b.drop 16 := by
    rw [← htag.2, List.take_append_drop]
  have h0 := slice_append sei_uuid_bytes (b.drop 16) 0 4 (by decide)
  have h1 := slice_append sei_uuid_bytes (b.drop 16) 4 4 (by decide)
  have h2 := slice_append sei_uuid_bytes (b.drop 16) 8 4 (by decide)
  have h3 := slice_append sei_uuid_bytes (b.drop 16) 12 4 (by decide)
  rw [← hb] at h0 h1 h2 h3
  rw [h0, h1, h2, h3]
  decide

theorem version_slice (b : List Byte) (h20 : 20 ≤ b.length) (hv : versionField b = 4) :
    beBytes 4 TMETA_VERSION = (b.drop 16).take 4 := by
  have h := beBytes_beVal_slice b 16 4 (by omega)
  unfold versionField at hv
  rw [hv] at h
  rw [← h]
  decide

/-- Encoding what was decoded from a buffer of version 0.4 whose length is
exactly what its fields announce gives the buffer back. -/
theorem wire_decodedFields (le : Bool) (b : List Byte) (m0 : tmeta_data) (htag : isTmeta b)
    (hv : versionField b = 4) (hN : countField b ≤ 50)
    (hl : b.length = 164 + 24 * countField b + jpegSizeField b) :
    wire le (decodedFields le b m0) = b := by
  have h20 := htag.1
  obtain ⟨u0, u1, u2, u3⟩ := tag_slices b htag
  have uv := version_slice b h20 hv
  have c2 : ¬ TMETA_GET_MINOR_VERSION (versionField b) < 2 := by rw [hv]; decide
  have c3 : ¬ TMETA_GET_MINOR_VERSION (versionField b) < 3 := by rw [hv]; decide
  have c4 : ¬ TMETA_GET_MINOR_VERSION (versionField b) < 4 := by rw [hv]; decide
  have hjs : beBytes 4 (jpegSizeField b) = (b.drop 88).take 4 :=
    beBytes_beVal_slice b 88 4 (by omega)
  have hcs : beBytes 4 (countField b) = (b.drop 116).take 4 :=
    beBytes_beVal_slice b 116 4 (by omega)
  have hq : arrBytes le 4 ((arrVals le 4 4 ((b.drop 100).take 16) ++
      m0.attitude_reference_quat.drop 4).take 4) = (b.drop 100).take 16 :=
    arrBytes_arrVals_slice le b 100 4 _ (by omega)
  have hca : arrBytes le 4 ((arrVals le 4 (4 * countField b)
      ((b.drop 120).take (16 * countField b)) ++
      m0.cam_angles.drop (4 * countField b)).take (countField b * 4)) =
      (b.drop 120).take (16 * countField b) := by
    have e : 16 * countField b = 4 * (4 * countField b) := by omega
    rw [e, Nat.mul_comm (countField b) 4]
    exact arrBytes_arrVals_slice le b 120 (4 * countField b) _ (by omega)
  have hts : beArr 8 ((beVals 8 (countField b) (b.drop (120 + 16 * countField b)) ++
      m0.cam_angles_timestamps.drop (countField b)).take (countField b)) =
      (b.drop (120 + 16 * countField b)).take (8 * countField b) := by
    rw [List.take_left' (beVals_length 8 _ _),
      beArr_beVals 8 _ _ (by rw [List.length_drop]; omega)]
  have hvq : arrBytes le 4 ((arrVals le 4 4
      ((b.drop (120 + 24 * countField b + jpegSizeField b + 28)).take 16) ++
      m0.thermal_to_visible_quat.drop 4).take 4) =
      b.drop (120 + 24 * countField b + jpegSizeField b + 28) := by
    have h := arrBytes_arrVals_slice le b (120 + 24 * countField b + jpegSizeField b + 28) 4
      (m0.thermal_to_visible_quat.drop 4) (by omega)
    exact h.trans (List.take_of_length_le (by rw [List.length_drop]; omega))
  simp only [wire, wireHeader, wireTail, decodedFields, if_neg c2, if_neg c3, if_neg c4]
  rw [hq, hca, hts, hvq, hjs, hcs, u0, u1, u2, u3, uv]
  simp (disch := omega) only [beBytes_beVal_slice, hostBytes_hostVal_slice, List.append_assoc]
  simp (disch := omega) only [slice_glue]
  rfl

/-- C23 (decode then encode is byte-exact on canonical buffers): for every
buffer `b` with the identity tag, version exactly 0.4, a count field `N ≤ 50`,
a blob length field `B` and length exactly `164 + 24 * N + B`, the public
decoder returns 0, and the public encoder applied to the decoded record and a
destination of that capacity returns 0, reports that size and leaves exactly
the bytes of `b` in the destination. -/
theorem C23_decode_encode (le : Bool) (b dest : List Byte) (m0 : tmeta_data)
    (size : Option Nat) (hlen : b.length < 2 ^ 63) (htag : isTmeta b)
    (hv : versionField b = TMETA_VERSION) (hN : countField b ≤ TMETA_CAMANGLES_MAXCOUNT)
    (hl : b.length = 164 + 24 * countField b + jpegSizeField b) (hwf : m0.wf)
    (hd : dest.length = b.length) :
    ∃ m, tmeta_deserialize_thermal_metadata_user_data_sei le (some b) (some m0) =
        .ok (0, some m) ∧
      tmeta_serialize_thermal_metadata_user_data_sei le (some m) (some dest) size =
        .ok (0, some b, size.map fun _ => b.length) := by
  have hv4 : versionField b = 4 := hv
  have hN2 : countField b ≤ 50 := hN
  have hmaj : TMETA_GET_MAJOR_VERSION (versionField b) = 0 := by rw [hv4]; decide
  have ht : tailSize (TMETA_GET_MINOR_VERSION (versionField b)) = 44 := by rw [hv4]; decide
  have hs : neededSize b ≤ b.length := by unfold neededSize; omega
  have hw := decodedFields_wf le b m0 hwf hN2
  have hc := decodedFields_cam_angles_count le b m0
  have hj := decodedFields_jpeg_data le b m0
  have hz := decodedFields_jpeg_data_size le b m0
  have hsz : TMETA_BUF_SIZE (decodedFields le b m0) = b.length := by
    rw [TMETA_BUF_SIZE_eq _ hw, hc, hz, hl]
  refine ⟨decodedFields le b m0, tmeta_deserialize_ok le b m0 htag hlen hmaj hN2 hwf hs, ?_⟩
  rw [tmeta_serialize_ok le _ dest size hw (by rw [hc]; exact hN)
    (by rw [hz, hj, List.length_drop]; omega) (by rw [hsz]; omega),
    wire_decodedFields le b m0 htag hv4 hN2 hl, hsz,
    List.drop_eq_nil_of_le (by omega), List.append_nil]

set_option maxRecDepth 100000 in
/-- C23 at the 215-byte wire image of the sample record, decoded into the stale
record and encoded into a destination of 215 bytes. -/
theorem C23_decode_encode_witness :
    (wire true sampleRecord).length < 2 ^ 63 ∧ isTmeta (wire true sampleRecord) ∧
    versionField (wire true sampleRecord) = TMETA_VERSION ∧
    countField (wire true sampleRecord) ≤ TMETA_CAMANGLES_MAXCOUNT ∧
    (wire true sampleRecord).length = 164 + 24 * countField (wire true sampleRecord) +
      jpegSizeField (wire true sampleRecord) ∧
    staleRecord.wf ∧
    (List.replicate 215 (0x55 : Byte)).length = (wire true sampleRecord).length ∧
    ∃ m, tmeta_deserialize_thermal_metadata_user_data_sei true
        (some (wire true sampleRecord)) (some staleRecord) = .ok (0, some m) ∧
      tmeta_serialize_thermal_metadata_user_data_sei true (some m)
        (some (List.replicate 215 0x55)) (some 0) =
        .ok (0, some (wire true sampleRecord), some 215) :=
  ⟨by decide, by decide, by decide, by decide, by decide, staleRecord_wf, by decide,
    C23_decode_encode true (wire true sampleRecord) (List.replicate 215 0x55) staleRecord
      (some 0) (by decide) (by decide) (by decide) (by decide) (by decide) staleRecord_wf
      (by decide)⟩

/-! ## What the encoder leaves alone (C24) -/

theorem TMETA_BUF_SIZE_set_arrays (r : tmeta_data) (ca ts : List Nat) :
    TMETA_BUF_SIZE ((r.set_cam_angles ca).set_cam_angles_timestamps ts) = TMETA_BUF_SIZE r := by
  cases r; rfl

theorem cam_angles_count_set_arrays (r : tmeta_data) (ca ts : List Nat) :
    ((r.set_cam_angles ca).set_cam_angles_timestamps ts).cam_angles_count =
      r.cam_angles_count := by
  cases r; rfl

theorem jpeg_set_arrays (r : tmeta_data) (ca ts : List Nat) :
    ((r.set_cam_angles ca).set_cam_angles_timestamps ts).jpeg_data_size = r.jpeg_data_size ∧
    ((r.set_cam_angles ca).set_cam_angles_timestamps ts).jpeg_data = r.jpeg_data := by
  cases r; exact ⟨rfl, rfl⟩

/-- The wire image reads the camera-angle arrays below the count only. -/
theorem wire_set_arrays (le : Bool) (r : tmeta_data) (ca ts : List Nat)
    (hca : ca.take (4 * r.cam_angles_count) = r.cam_angles.take (4 * r.cam_angles_count))
    (hts : ts.take r.cam_angles_count = r.cam_angles_timestamps.take r.cam_angles_count) :
    wire le ((r.set_cam_angles ca).set_cam_angles_timestamps ts) = wire le r := by
  rw [Nat.mul_comm] at hca
  cases r
  simp only [wire, wireHeader, wireTail, tmeta_data.set_cam_angles,
    tmeta_data.set_cam_angles_timestamps] at hca hts ⊢
  rw [hca, hts]

/-- C24 (encoder frame): for every record `r` with `cam_angles_count ≤ 50` and
every destination of capacity `c ≥ s = TMETA_BUF_SIZE r`, the public encoder
returns 0, the destination keeps its length and every byte at offset `s` and
above; the `s` bytes written are the same on any other destination with room,
and the whole result is the same for a record whose camera-angle arrays differ
from those of `r` only at entries of index `cam_angles_count` and above. -/
theorem C24_encoder_frame (le : Bool) (r : tmeta_data) (dest dest2 : List Byte)
    (size : Option Nat) (ca ts : List Nat) (hwf : r.wf)
    (hN : r.cam_angles_count ≤ TMETA_CAMANGLES_MAXCOUNT)
    (hj : r.jpeg_data_size ≤ r.jpeg_data.length)
    (hcap : TMETA_BUF_SIZE r ≤ dest.length) (hcap2 : TMETA_BUF_SIZE r ≤ dest2.length)
    (hca : ca.take (4 * r.cam_angles_count) = r.cam_angles.take (4 * r.cam_angles_count))
    (hts : ts.take r.cam_angles_count = r.cam_angles_timestamps.take r.cam_angles_count)
    (hwf2 : ((r.set_cam_angles ca).set_cam_angles_timestamps ts).wf) :
    ∃ out sz, tmeta_serialize_thermal_metadata_user_data_sei le (some r) (some dest) size =
        .ok (0, some out, sz) ∧
      out.length = dest.length ∧
      out.drop (TMETA_BUF_SIZE r) = dest.drop (TMETA_BUF_SIZE r) ∧
      (∀ i, TMETA_BUF_SIZE r ≤ i → out[i]? = dest[i]?) ∧
      (∃ out2 sz2, tmeta_serialize_thermal_metadata_user_data_sei le (some r) (some dest2)
          size = .ok (0, some out2, sz2) ∧
        out2.take (TMETA_BUF_SIZE r) = out.take (TMETA_BUF_SIZE r)) ∧
      tmeta_serialize_thermal_metadata_user_data_sei le
          (some ((r.set_cam_angles ca).set_cam_angles_timestamps ts)) (some dest) size =
        .ok (0, some out, sz) := by
  have hl : (wire le r).length = TMETA_BUF_SIZE r := by
    rw [wire_length le r hwf hN hj, TMETA_BUF_SIZE_eq r hwf]
  have hd : (wire le r ++ dest.drop (TMETA_BUF_SIZE r)).drop (TMETA_BUF_SIZE r) =
      dest.drop (TMETA_BUF_SIZE r) := List.drop_left' hl
  refine ⟨_, _, tmeta_serialize_ok le r dest size hwf hN hj hcap, ?_, hd, fun i hi => ?_,
    ⟨_, _, tmeta_serialize_ok le r dest2 size hwf hN hj hcap2, ?_⟩, ?_⟩
  · rw [List.length_append, List.length_drop, hl]; omega
  · have e : i = TMETA_BUF_SIZE r + (i - TMETA_BUF_SIZE r) := by omega
    rw [e, ← List.getElem?_drop, ← List.getElem?_drop, hd]
  · rw [List.take_left' hl, List.take_left' hl]
  · have h2 := tmeta_serialize_ok le ((r.set_cam_angles ca).set_cam_angles_timestamps ts) dest
      size hwf2 (by rw [cam_angles_count_set_arrays]; exact hN)
      (by rw [(jpeg_set_arrays r ca ts).1, (jpeg_set_arrays r ca ts).2]; exact hj)
      (by rw [TMETA_BUF_SIZE_set_arrays]; exact hcap)
    rw [h2, wire_set_arrays le r ca ts hca hts, TMETA_BUF_SIZE_set_arrays]

set_option maxRecDepth 100000 in
/-- C24 at the sample record (2 camera angles), destinations of 300 bytes
filled with 00 and with 55, and arrays that hold 7 and 5 instead of 0 from
entry 2 on: bytes 215 to 299 of the output are still 00. -/
theorem C24_encoder_frame_witness :
    sampleRecord.wf ∧ sampleRecord.cam_angles_count ≤ TMETA_CAMANGLES_MAXCOUNT ∧
    sampleRecord.jpeg_data_size ≤ sampleRecord.jpeg_data.length ∧
    TMETA_BUF_SIZE sampleRecord ≤ (List.replicate 300 (0 : Byte)).length ∧
    ∃ out sz, tmeta_serialize_thermal_metadata_user_data_sei true (some sampleRecord)
        (some (List.replicate 300 0)) (some 0) = .ok (0, some out, sz) ∧
      out.drop 215 = List.replicate 85 0 ∧
      tmeta_serialize_thermal_metadata_user_data_sei true
          (some ((sampleRecord.set_cam_angles
            ([11, 12, 13, 14, 15, 16, 17, 18] ++ List.replicate 192 7)).set_cam_angles_timestamps
              ([0x0102030405060708, 99] ++ List.replicate 48 5)))
          (some (List.replicate 300 0)) (some 0) = .ok (0, some out, sz) :=
  have h := C24_encoder_frame true sampleRecord (List.replicate 300 0) (List.replicate 300 0x55)
    (some 0) ([11, 12, 13, 14, 15, 16, 17, 18] ++ List.replicate 192 7)
    ([0x0102030405060708, 99] ++ List.replicate 48 5) sampleRecord_wf (by decide) (by decide)
    (by decide) (by decide) (by decide) (by decide) (by decide)
  ⟨sampleRecord_wf, by decide, by decide, by decide,
    let ⟨out, sz, h1, _, h3, _, _, h6⟩ := h
    ⟨out, sz, h1, h3.trans (by decide), h6⟩⟩

/-! ## Projection to JSON (C25) -/

theorem json_get_add_same (l : List (String × json_object)) (k : String) (v : json_object) :
    json_object_object_get (json_object_object_add l k v) k = some v := by
  induction l with
  | nil => simp [json_object_object_add, json_object_object_get]
  | cons a l ih =>
    obtain ⟨k0, v0⟩ := a
    by_cases h : k0 = k
    · simp [json_object_object_add, json_object_object_get, h]
    · simp [json_object_object_add, json_object_object_get, h, ih]

theorem json_get_add_other (l : List (String × json_object)) (k k2 : String)
    (v : json_object) (h : k2 ≠ k) :
    json_object_object_get (json_object_object_add l k2 v) k = json_object_object_get l k := by
  induction l with
  | nil => simp [json_object_object_add, json_object_object_get, h]
  | cons a l ih =>
    obtain ⟨k0, v0⟩ := a
    by_cases h0 : k0 = k2
    · have h1 : ¬ k0 = k := by rw [h0]; exact h
      simp only [json_object_object_add, if_pos h0, json_object_object_get, if_neg h1]
    · by_cases h1 : k0 = k
      · simp only [json_object_object_add, if_neg h0, json_object_object_get, if_pos h1]
      · simp only [json_object_object_add, if_neg h0, json_object_object_get, if_neg h1, ih]

/-- The quaternion object built from the memory at index `k` of an array that
holds at least `k + 4` floats. -/
theorem new_quaternion_ok (q : List Nat) (k : Nat) (h : k + 4 ≤ q.length) :
    tmeta_json_object_new_quaternion (q.drop k) = .ok (quaternionObject q k) := by
  have e0 : (q.drop k)[0]? = some (q.getD k 0) := by
    rw [List.getElem?_drop, List.getD_eq_getElem?_getD, Nat.add_zero,
      List.getElem?_eq_getElem (by omega)]; rfl
  have e1 : (q.drop k)[1]? = some (q.getD (k + 1) 0) := by
    rw [List.getElem?_drop, List.getD_eq_getElem?_getD,
      List.getElem?_eq_getElem (by omega)]; rfl
  have e2 : (q.drop k)[2]? = some (q.getD (k + 2) 0) := by
    rw [List.getElem?_drop, List.getD_eq_getElem?_getD,
      List.getElem?_eq_getElem (by omega)]; rfl
  have e3 : (q.drop k)[3]? = some (q.getD (k + 3) 0) := by
    rw [List.getElem?_drop, List.getD_eq_getElem?_getD,
      List.getElem?_eq_getElem (by omega)]; rfl
  unfold tmeta_json_object_new_quaternion
  rw [e0, e1, e2, e3]
  rfl

/-- The loop of the projector adds, for each index from `i` to `i + n - 1` in
increasing order, the quaternion object and the timestamp of that index. -/
theorem to_json_cam_angles_eq (m : tmeta_data) (n i : Nat) (ja jt : List json_object)
    (ha : m.cam_angles.length = 200) (ht : m.cam_angles_timestamps.length = 50)
    (h : i + n ≤ 50) :
    to_json_cam_angles m n i ja jt =
      .ok (ja ++ (List.range' i n).map fun k => quaternionObject m.cam_angles (4 * k),
        jt ++ (List.range' i n).map fun k =>
          json_object_new_int64 (m.cam_angles_timestamps.getD k 0)) := by
  induction n generalizing i ja jt with
  | zero => simp [to_json_cam_angles]
  | succ n ih =>
    have e : i * 4 % 2 ^ 32 = 4 * i := by omega
    have hq := new_quaternion_ok m.cam_angles (4 * i) (by omega)
    have hts : m.cam_angles_timestamps[i]? = some (m.cam_angles_timestamps.getD i 0) := by
      rw [List.getD_eq_getElem?_getD, List.getElem?_eq_getElem (by omega)]; rfl
    simp only [to_json_cam_angles, e, hq, Res.ok_bind, hts, json_object_array_add]
    rw [ih (i + 1) _ _ (by omega)]
    simp only [List.range', List.map_cons, List.append_assoc, List.singleton_append]

theorem getElem?_map_range (f : Nat → json_object) (n i : Nat) (h : i < n) :
    ((List.range' 0 n).map f)[i]? = some (f i) := by
  simp [List.getElem?_map, List.getElem?_range', h]

/-- When both arrays are allocated the projector returns 0 and the members
`cam_angles` and `cam_angles_timestamps` of the object are the arrays of the
quaternion objects and of the timestamps of index 0 to `cam_angles_count - 1`,
in that order. -/
theorem to_json_arrays (m : tmeta_data) (jobj : List (String × json_object)) (hwf : m.wf)
    (hN : m.cam_angles_count ≤ TMETA_CAMANGLES_MAXCOUNT) :
    ∃ out, tmeta_thermal_metadata_to_json (some m) (some jobj) true true = .ok (0, some out) ∧
      json_object_object_get out "cam_angles" =
        some (.array ((List.range' 0 m.cam_angles_count).map
          fun k => quaternionObject m.cam_angles (4 * k))) ∧
      json_object_object_get out "cam_angles_timestamps" =
        some (.array ((List.range' 0 m.cam_angles_count).map
          fun k => json_object_new_int64 (m.cam_angles_timestamps.getD k 0))) := by
  obtain ⟨hq, ha, ht, hv⟩ := wf_lengths m hwf
  have hN2 : m.cam_angles_count ≤ 50 := hN
  have q1 := new_quaternion_ok m.attitude_reference_quat 0 (by omega)
  have q2 := new_quaternion_ok m.thermal_to_visible_quat 0 (by omega)
  rw [List.drop_zero] at q1 q2
  have hl := to_json_cam_angles_eq m m.cam_angles_count 0 [] [] ha ht (by omega)
  rw [List.nil_append, List.nil_append] at hl
  simp only [tmeta_thermal_metadata_to_json, json_object_new_array, if_true, q1, q2,
    Res.ok_bind, hl]
  refine ⟨_, rfl, ?_, ?_⟩
  · simp (disch := decide) only [json_get_add_other, json_get_add_same]
  · simp (disch := decide) only [json_get_add_other, json_get_add_same]

/-- Without memory for one of the two arrays the projector returns `-ENOMEM`. -/
theorem to_json_enomem (m : tmeta_data) (jobj : List (String × json_object)) (hwf : m.wf)
    (mem1 mem2 : Bool) (h : mem1 = false ∨ mem2 = false) :
    ∃ out, tmeta_thermal_metadata_to_json (some m) (some jobj) mem1 mem2 =
      .ok (-ENOMEM, some out) := by
  obtain ⟨hq, ha, ht, hv⟩ := wf_lengths m hwf
  have q1 := new_quaternion_ok m.attitude_reference_quat 0 (by omega)
  rw [List.drop_zero] at q1
  cases mem1
  · simp only [tmeta_thermal_metadata_to_json, json_object_new_array, q1, Res.ok_bind]
    exact ⟨_, rfl⟩
  · cases mem2
    · simp only [tmeta_thermal_metadata_to_json, json_object_new_array, q1, Res.ok_bind]
      exact ⟨_, rfl⟩
    · simp at h

theorem toInt64_of_lt (x : Nat) (h : x < 2 ^ 63) : toInt64 x = (x : Int) := by
  unfold toInt64
  have e : x % 2 ^ 64 = x := Nat.mod_eq_of_lt (by omega)
  rw [e, if_pos h]

/-- C25 as amended (projector array order): for every record with
`cam_angles_count = N ≤ 50` and every JSON object, when both arrays are
allocated `tmeta_thermal_metadata_to_json` returns 0 and the object then has a
member "cam_angles" and a member "cam_angles_timestamps", arrays of exactly `N`
entries each; entry `i` of the first is the object with members x, y, z, w
built from `cam_angles[4i]` to `cam_angles[4i+3]`, and entry `i` of the second
is `cam_angles_timestamps[i]` converted to `int64_t`, which is the same number
when the timestamp is below `2 ^ 63`; without memory for one of the arrays the
function returns `-ENOMEM`. -/
theorem C25_projector_arrays (m : tmeta_data) (jobj : List (String × json_object))
    (hwf : m.wf) (hN : m.cam_angles_count ≤ TMETA_CAMANGLES_MAXCOUNT) :
    (∃ out qs ts,
      tmeta_thermal_metadata_to_json (some m) (some jobj) true true = .ok (0, some out) ∧
      json_object_object_get out "cam_angles" = some (.array qs) ∧
      json_object_object_get out "cam_angles_timestamps" = some (.array ts) ∧
      qs.length = m.cam_angles_count ∧ ts.length = m.cam_angles_count ∧
      (∀ i, i < m.cam_angles_count →
        qs[i]? = some (.object [("x", .double (.ofFloat (m.cam_angles.getD (4 * i) 0))),
          ("y", .double (.ofFloat (m.cam_angles.getD (4 * i + 1) 0))),
          ("z", .double (.ofFloat (m.cam_angles.getD (4 * i + 2) 0))),
          ("w", .double (.ofFloat (m.cam_angles.getD (4 * i + 3) 0)))])) ∧
      (∀ i, i < m.cam_angles_count →
        ts[i]? = some (.int (toInt64 (m.cam_angles_timestamps.getD i 0)))) ∧
      (∀ i, i < m.cam_angles_count → m.cam_angles_timestamps.getD i 0 < 2 ^ 63 →
        ts[i]? = some (.int (m.cam_angles_timestamps.getD i 0)))) ∧
    (∀ mem1 mem2, mem1 = false ∨ mem2 = false →
      ∃ out, tmeta_thermal_metadata_to_json (some m) (some jobj) mem1 mem2 =
        .ok (-ENOMEM, some out)) := by
  obtain ⟨out, h1, h2, h3⟩ := to_json_arrays m jobj hwf hN
  refine ⟨⟨out, _, _, h1, h2, h3, ?_, ?_, fun i hi => ?_, fun i hi => ?_, fun i hi hlt => ?_⟩,
    fun mem1 mem2 h => to_json_enomem m jobj hwf mem1 mem2 h⟩
  · rw [List.length_map, List.length_range']
  · rw [List.length_map, List.length_range']
  · rw [getElem?_map_range _ _ _ hi]; rfl
  · rw [getElem?_map_range _ _ _ hi]; rfl
  · rw [getElem?_map_range _ _ _ hi, json_object_new_int64, toInt64_of_lt _ hlt]

set_option maxRecDepth 100000 in
theorem bigTimestampRecord_wf : bigTimestampRecord.wf := by decide

set_option maxRecDepth 100000 in
/-- C25 as stated fails for a timestamp of `2 ^ 63` and above: the record
`bigTimestampRecord` has count 1 and `cam_angles_timestamps[0] = 2 ^ 63`; the
projector returns 0 and entry 0 of "cam_angles_timestamps" is the JSON integer
`-2 ^ 63`, because `json_object_new_int64` takes an `int64_t`. -/
theorem C25_timestamp_above_int64_max :
    bigTimestampRecord.wf ∧ bigTimestampRecord.cam_angles_count = 1 ∧
    bigTimestampRecord.cam_angles_timestamps.getD 0 0 = 2 ^ 63 ∧
    ∃ out, tmeta_thermal_metadata_to_json (some bigTimestampRecord) (some []) true true =
        .ok (0, some out) ∧
      json_object_object_get out "cam_angles_timestamps" =
        some (.array [.int (-(2 ^ 63))]) := by
  obtain ⟨out, h1, _, h3⟩ := to_json_arrays bigTimestampRecord [] bigTimestampRecord_wf
    (by decide)
  refine ⟨bigTimestampRecord_wf, by decide, by decide, out, h1, ?_⟩
  rw [h3]
  have e : toInt64 (2 ^ 63) = -(2 ^ 63) := by unfold toInt64; norm_num
  have c : bigTimestampRecord.cam_angles_count = 1 := by decide
  have t : bigTimestampRecord.cam_angles_timestamps.getD 0 0 = 2 ^ 63 := by decide
  rw [c]
  simp only [List.range', List.map_cons, List.map_nil, json_object_new_int64, t, e]

set_option maxRecDepth 100000 in
/-- C25 as amended, at the sample record (2 camera angles) and an empty JSON
object: entry 1 of "cam_angles_timestamps" is 99. -/
theorem C25_projector_arrays_witness :
    sampleRecord.wf ∧ sampleRecord.cam_angles_count ≤ TMETA_CAMANGLES_MAXCOUNT ∧
    ∃ out ts, tmeta_thermal_metadata_to_json (some sampleRecord) (some []) true true =
        .ok (0, some out) ∧
      json_object_object_get out "cam_angles_timestamps" = some (.array ts) ∧
      ts.length = 2 ∧ ts[1]? = some (.int 99) :=
  have h := (C25_projector_arrays sampleRecord [] sampleRecord_wf (by decide)).1
  ⟨sampleRecord_wf, by decide,
    let ⟨out, _, ts, h1, _, h3, _, h5, _, _, h8⟩ := h
    ⟨out, ts, h1, h3, h5, h8 1 (by decide) (by decide)⟩⟩

end Tmeta
